import Mathlib

/-!
# The SVG renderer of graphviz (`plugin/core/gvrender_core_svg.c`)

A shallow embedding of the renderer callbacks and of the output sink they
write to, followed by the properties of the generated markup.

The renderer never reads back what it wrote: every callback only calls the
sink functions `core_fputs`, `core_printf`, `core_init_compression` and
`core_fini_compression`.  The sink is therefore modelled as the list of the
calls it received, in order, and every callback as a state transformer over
that list which may abort (`assert(0)`).  What the bytes of a call are is
decided afterwards, by `render`, from the format string and the arguments.
-/

namespace Svg

/-! ## The output sink -/

/-- A `char *` handed to the sink: a string literal of the program text, a
string taken from the caller's data, or the result of the external escaper
`xml_string` applied to such a string. -/
inductive char_p where
  | lit (s : String)
  | var (s : String)
  | xml_string (s : String)
deriving DecidableEq, Repr

/-- One variadic argument of `core_printf`, by C type. -/
inductive Arg (α : Type) where
  | char (c : Char)
  | int (i : Int)
  | long (i : Int)
  | uint (n : Nat)
  | double (x : α)
  | str (s : char_p)
deriving DecidableEq, Repr

/-- Compression modes of the sink. -/
inductive compression_t where
  | COMPRESSION_NONE
  | COMPRESSION_ZLIB
deriving DecidableEq, Repr

/-- A call received by the sink. -/
inductive Call (α : Type) where
  | init_compression (c : compression_t)
  | fini_compression
  | fputs (s : char_p)
  | printf (fmt : String) (args : List (Arg α))
deriving DecidableEq, Repr

/-- The sink: the calls received so far, oldest first. -/
abbrev Sink (α : Type) := List (Call α)

/-- A callback: threads the sink, and yields nothing when it aborts. -/
abbrev Emit (α : Type) := StateT (Sink α) Option

/-! ## Data handed to the callbacks

The declarations of these types live in headers outside this file; the
fields are the ones the callbacks read. -/

/-- The C `double` as the renderer uses it: unary minus, subtraction and the
comparison `!=`. -/
class CDouble (α : Type) extends Neg α, Sub α where
  ne : α → α → Bool

/-- Modelled from the spec: the constants of `const.h` and `graph.h` that the
callbacks compare against, the "normal/default" pen width and the flag bit of
directed graphs. -/
class Consts (α : Type) where
  PENWIDTH_NORMAL : α
  AGFLAG_DIRECTED : Nat

export Consts (PENWIDTH_NORMAL AGFLAG_DIRECTED)

structure pointf (α : Type) where
  x : α
  y : α
deriving DecidableEq, Repr

structure point where
  x : Int
  y : Int
deriving DecidableEq, Repr

structure boxf (α : Type) where
  LL : pointf α
  UR : pointf α
deriving DecidableEq, Repr

/-- Modelled from the spec: a color is a tagged union, a symbolic name or
RGBA bytes; `other` stands for every further representation tag. -/
inductive gvcolor_t where
  | COLOR_STRING (string : String)
  | RGBA_BYTE (r g b a : Fin 256)
  | other
deriving DecidableEq, Repr

/-- Modelled from the spec: pen style is solid, dashed or dotted. -/
inductive pen_type where
  | PEN_SOLID
  | PEN_DASHED
  | PEN_DOTTED
deriving DecidableEq, Repr

/-- Modelled from the spec: the three font-naming schemes. -/
inductive fontname_kind where
  | NATIVEFONTS
  | PSFONTS
  | SVGFONTS
deriving DecidableEq, Repr

/-- A graph or subgraph: `root_kind` is `root->kind`, `meta_node_id` is
`meta_node->id`, `attrs` is what `agget` looks names up in and `fontnames`
is what `GD_fontnames` reads. -/
structure graph_t where
  name : String
  root_kind : Nat
  meta_node_id : Int
  attrs : List (String × String)
  fontnames : fontname_kind
deriving DecidableEq, Repr

structure node_t where
  id : Int
  name : String
  graph : graph_t
deriving DecidableEq, Repr

structure edge_t where
  id : Int
  tail : node_t
  head : node_t
deriving DecidableEq, Repr

/-- The union `obj->u`, as the record of its members. -/
structure obj_u where
  g : graph_t
  sg : graph_t
  n : node_t
  e : edge_t
deriving DecidableEq, Repr

structure obj_state_t (α : Type) where
  u : obj_u
  pencolor : gvcolor_t
  fillcolor : gvcolor_t
  pen : pen_type
  penwidth : α
deriving DecidableEq, Repr

structure PostscriptAlias where
  name : String
  family : String
  weight : Option String
  stretch : Option String
  style : Option String
deriving DecidableEq, Repr

structure textpara_t (α : Type) where
  str : String
  fontname : String
  postscript_alias : Option PostscriptAlias
  fontsize : α
  just : Char
deriving DecidableEq, Repr

inductive format_type where
  | FORMAT_SVG
  | FORMAT_SVGZ
deriving DecidableEq, Repr

structure GVC_t where
  g : graph_t
deriving DecidableEq, Repr

/-- The part `job->common` of the job: `info` is the array `char **info`. -/
structure GVCOMMON_t where
  info : Nat → String
  user : String
  viewNum : Int

/-- The rendering job, without its sink. -/
structure GVJ_t (α : Type) where
  gvc : GVC_t
  common : GVCOMMON_t
  obj : obj_state_t α
  render_id : format_type
  pagesArraySize : point
  width : Int
  height : Int
  canvasBox : boxf α
  scale : pointf α
  rotation : Int
  translation : pointf α

/-! ## The sink functions and the C library -/

variable {α : Type}

def core_init_compression (_job : GVJ_t α) (compression : compression_t) : Emit α Unit :=
  modify (fun sink => sink ++ [Call.init_compression compression])

def core_fini_compression (_job : GVJ_t α) : Emit α Unit :=
  modify (fun sink => sink ++ [Call.fini_compression])

def core_fputs (_job : GVJ_t α) (s : char_p) : Emit α Unit :=
  modify (fun sink => sink ++ [Call.fputs s])

def core_printf (_job : GVJ_t α) (fmt : String) (args : List (Arg α)) : Emit α Unit :=
  modify (fun sink => sink ++ [Call.printf fmt args])

/-- The macro `assert`: a failed assertion aborts the program. -/
def assert (b : Bool) : Emit α Unit :=
  if b then pure () else failure

/-- The value of an arithmetic expression of type `int`: the mathematical
result reduced to 32 bits in two's complement, which is what the compiled
renderer computes (the product 65536 * 65536 is 0, the negation of
-2147483648 is -2147483648). -/
def int_wrap (i : Int) : Int :=
  (i + 2147483648) % 4294967296 - 2147483648

/-- The lookup `agget(g, name)`: the value of a declared attribute. -/
def agget (g : graph_t) (name : String) : Option String :=
  g.attrs.lookup name

def GD_fontnames (g : graph_t) : fontname_kind :=
  g.fontnames

/-- The result of `strcasecmp` on two character sequences: the difference of
the first pair of characters that differ after `tolower`, the end of a
string counting as the character 0. -/
def strcasecmp_chars : List Char → List Char → Int
  | [], [] => 0
  | [], c :: _ => - (c.toLower.toNat : Int)
  | c :: _, [] => (c.toLower.toNat : Int)
  | c :: s, d :: t =>
    if c.toLower = d.toLower then strcasecmp_chars s t
    else (c.toLower.toNat : Int) - (d.toLower.toNat : Int)

def strcasecmp (s t : String) : Int :=
  strcasecmp_chars s.toList t.toList

/-- The loop `for (i = i0; i < i0 + k; i++)` over a body that may update a
local variable of type `σ`. -/
def for_loop {σ : Type} (body : Nat → σ → Emit α σ) : Nat → Nat → σ → Emit α σ
  | _, 0, c => pure c
  | i, k + 1, c => do
    let c ← body i c
    for_loop body (i + 1) k c

/-! ## The callbacks of `gvrender_core_svg.c` -/

variable [CDouble α] [Consts α]

/-- The SVG dash array. -/
def sdarray : char_p := .lit "5,2"

/-- The SVG dot array. -/
def sdotarray : char_p := .lit "1,5"

def svg_bzptarray (job : GVJ_t α) (A : Nat → pointf α) (n : Int) : Emit α Unit := do
  let c := 'M'
  let _ ← for_loop (fun i c => do
      core_printf job "%c%g,%g" [.char c, .double (A i).x, .double (-(A i).y)]
      if i = 0 then
        pure 'C'
      else
        pure ' ') 0 n.toNat c

def svg_print_color (job : GVJ_t α) (color : gvcolor_t) : Emit α Unit :=
  match color with
  | .COLOR_STRING string =>
    core_fputs job (.var string)
  | .RGBA_BYTE r g b a =>
    if a = 0 then
      core_fputs job (.lit "none")
    else
      core_printf job "#%02x%02x%02x" [.uint r, .uint g, .uint b]
  | .other =>
    assert false

def svg_grstyle (job : GVJ_t α) (filled : Int) : Emit α Unit := do
  let obj := job.obj
  core_fputs job (.lit " style=\"fill:")
  (if filled ≠ 0 then
    svg_print_color job obj.fillcolor
  else
    core_fputs job (.lit "none"))
  core_fputs job (.lit ";stroke:")
  svg_print_color job obj.pencolor
  (if CDouble.ne obj.penwidth PENWIDTH_NORMAL then
    core_printf job ";stroke-width:%g" [.double obj.penwidth]
  else
    pure ())
  (if obj.pen = .PEN_DASHED then
    core_printf job ";stroke-dasharray:%s" [.str sdarray]
  else if obj.pen = .PEN_DOTTED then
    core_printf job ";stroke-dasharray:%s" [.str sdotarray]
  else
    pure ())
  core_fputs job (.lit ";\"")

def svg_comment (job : GVJ_t α) (str : String) : Emit α Unit := do
  core_fputs job (.lit "<!-- ")
  core_fputs job (.xml_string str)
  core_fputs job (.lit " -->\n")

def svg_begin_job (job : GVJ_t α) : Emit α Unit := do
  (match job.render_id with
  | .FORMAT_SVGZ =>
    core_init_compression job .COMPRESSION_ZLIB
  | .FORMAT_SVG =>
    core_init_compression job .COMPRESSION_NONE)
  core_fputs job (.lit "<?xml version=\"1.0\" encoding=\"UTF-8\" standalone=\"no\"?>\n")
  (match agget job.gvc.g "stylesheet" with
  | some s =>
    if s ≠ "" then do
      core_fputs job (.lit "<?xml-stylesheet href=\"")
      core_fputs job (.var s)
      core_fputs job (.lit "\" type=\"text/css\"?>\n")
    else
      pure ()
  | none => pure ())
  core_fputs job (.lit "<!DOCTYPE svg PUBLIC \"-//W3C//DTD SVG 1.0//EN\"\n")
  core_fputs job (.lit " \"http://www.w3.org/TR/2001/REC-SVG-20010904/DTD/svg10.dtd\"")
  core_fputs job (.lit " [\n <!ATTLIST svg xmlns:xlink CDATA #FIXED \"http://www.w3.org/1999/xlink\">\n]")
  core_fputs job (.lit ">\n<!-- Generated by ")
  core_fputs job (.xml_string (job.common.info 0))
  core_fputs job (.lit " version ")
  core_fputs job (.xml_string (job.common.info 1))
  core_fputs job (.lit " (")
  core_fputs job (.xml_string (job.common.info 2))
  core_fputs job (.lit ")\n     For user: ")
  core_fputs job (.xml_string job.common.user)
  core_fputs job (.lit " -->\n")

def svg_begin_graph (job : GVJ_t α) : Emit α Unit := do
  let obj := job.obj
  core_fputs job (.lit "<!--")
  (if obj.u.g.name ≠ "" then do
    core_fputs job (.lit " Title: ")
    core_fputs job (.xml_string obj.u.g.name)
  else
    pure ())
  core_printf job " Pages: %d -->\n" [.int (int_wrap (job.pagesArraySize.x * job.pagesArraySize.y))]
  core_printf job "<svg width=\"%dpt\" height=\"%dpt\"\n" [.int job.width, .int job.height]
  core_printf job " viewBox=\"%.2f %.2f %.2f %.2f\""
    [.double job.canvasBox.LL.x, .double job.canvasBox.LL.y,
     .double job.canvasBox.UR.x, .double job.canvasBox.UR.y]
  core_fputs job (.lit " xmlns=\"http://www.w3.org/2000/svg\"")
  core_fputs job (.lit " xmlns:xlink=\"http://www.w3.org/1999/xlink\"")
  core_fputs job (.lit ">\n")

def svg_end_graph (job : GVJ_t α) : Emit α Unit := do
  core_fputs job (.lit "</svg>\n")
  core_fini_compression job

def svg_begin_layer (job : GVJ_t α) (layername : String) (_layerNum _numLayers : Int) :
    Emit α Unit := do
  core_fputs job (.lit "<g id=\"")
  core_fputs job (.xml_string layername)
  core_fputs job (.lit "\" class=\"layer\">\n")

def svg_end_layer (job : GVJ_t α) : Emit α Unit :=
  core_fputs job (.lit "</g>\n")

def svg_begin_page (job : GVJ_t α) : Emit α Unit := do
  let obj := job.obj
  core_printf job "<g id=\"graph%d\" class=\"graph\"" [.int job.common.viewNum]
  core_printf job " transform=\"scale(%g %g) rotate(%d) translate(%g %g)\">\n"
    [.double job.scale.x, .double job.scale.y, .int (int_wrap (-job.rotation)),
     .double job.translation.x, .double (-job.translation.y)]
  (if obj.u.g.name ≠ "" then do
    core_fputs job (.lit "<title>")
    core_fputs job (.xml_string obj.u.g.name)
    core_fputs job (.lit "</title>\n")
  else
    pure ())

def svg_end_page (job : GVJ_t α) : Emit α Unit :=
  core_fputs job (.lit "</g>\n")

def svg_begin_cluster (job : GVJ_t α) : Emit α Unit := do
  let obj := job.obj
  core_printf job "<g id=\"cluster%ld\" class=\"cluster\">" [.long obj.u.sg.meta_node_id]
  core_fputs job (.lit "<title>")
  core_fputs job (.xml_string obj.u.sg.name)
  core_fputs job (.lit "</title>\n")

def svg_end_cluster (job : GVJ_t α) : Emit α Unit :=
  core_fputs job (.lit "</g>\n")

def svg_begin_node (job : GVJ_t α) : Emit α Unit := do
  let obj := job.obj
  core_printf job "<g id=\"node%ld\" class=\"node\">" [.long obj.u.n.id]
  core_fputs job (.lit "<title>")
  core_fputs job (.xml_string obj.u.n.name)
  core_fputs job (.lit "</title>\n")

def svg_end_node (job : GVJ_t α) : Emit α Unit :=
  core_fputs job (.lit "</g>\n")

def svg_begin_edge (job : GVJ_t α) : Emit α Unit := do
  let obj := job.obj
  core_printf job "<g id=\"edge%ld\" class=\"edge\">" [.long obj.u.e.id]
  let edgeop : char_p :=
    if obj.u.e.tail.graph.root_kind &&& (AGFLAG_DIRECTED α) ≠ 0 then
      .lit "&#45;&gt;"
    else
      .lit "&#45;&#45;"
  core_fputs job (.lit "<title>")
  core_fputs job (.xml_string obj.u.e.tail.name)
  core_fputs job edgeop
  core_fputs job (.xml_string obj.u.e.head.name)
  core_fputs job (.lit "</title>\n")

def svg_end_edge (job : GVJ_t α) : Emit α Unit :=
  core_fputs job (.lit "</g>\n")

def svg_begin_anchor (job : GVJ_t α) (href tooltip target : Option String) : Emit α Unit := do
  core_fputs job (.lit "<a")
  (match href with
  | some href =>
    if href ≠ "" then
      core_printf job " xlink:href=\"%s\"" [.str (.xml_string href)]
    else
      pure ()
  | none => pure ())
  (match tooltip with
  | some tooltip =>
    if tooltip ≠ "" then
      core_printf job " xlink:title=\"%s\"" [.str (.xml_string tooltip)]
    else
      pure ()
  | none => pure ())
  (match target with
  | some target =>
    if target ≠ "" then
      core_printf job " target=\"%s\"" [.str (.xml_string target)]
    else
      pure ()
  | none => pure ())
  core_fputs job (.lit ">\n")

def svg_end_anchor (job : GVJ_t α) : Emit α Unit :=
  core_fputs job (.lit "</a>\n")

def svg_textpara (job : GVJ_t α) (p : pointf α) (para : textpara_t α) : Emit α Unit := do
  let obj := job.obj
  core_fputs job (.lit "<text")
  (if para.just = 'l' then
    core_fputs job (.lit " text-anchor=\"start\"")
  else if para.just = 'r' then
    core_fputs job (.lit " text-anchor=\"end\"")
  else
    core_fputs job (.lit " text-anchor=\"middle\""))
  core_printf job " x=\"%g\" y=\"%g\"" [.double p.x, .double (-p.y)]
  core_fputs job (.lit " style=\"")
  let pA := para.postscript_alias
  (match pA with
  | some pA => do
    let fws : String × Option String × Option String :=
      match GD_fontnames job.gvc.g with
      | .PSFONTS => (pA.name, pA.weight, pA.style)
      | .NATIVEFONTS => (pA.family, pA.weight, pA.style)
      | .SVGFONTS => (pA.family, pA.weight, pA.style)
    let family := fws.1
    let weight := fws.2.1
    let style := fws.2.2
    let stretch := pA.stretch
    core_printf job "font-family:%s;" [.str (.var family)]
    (match weight with
    | some weight => core_printf job "font-weight:%s;" [.str (.var weight)]
    | none => pure ())
    (match stretch with
    | some stretch => core_printf job "font-stretch:%s;" [.str (.var stretch)]
    | none => pure ())
    (match style with
    | some style => core_printf job "font-style:%s;" [.str (.var style)]
    | none => pure ())
  | none =>
    core_printf job "font-family:%s;" [.str (.var para.fontname)])
  core_printf job "font-size:%.2f;" [.double para.fontsize]
  (match obj.pencolor with
  | .COLOR_STRING string =>
    if strcasecmp string "black" ≠ 0 then
      core_printf job "fill:%s;" [.str (.var string)]
    else
      pure ()
  | .RGBA_BYTE r g b _ =>
    core_printf job "fill:#%02x%02x%02x;" [.uint r, .uint g, .uint b]
  | .other =>
    assert false)
  core_fputs job (.lit "\">")
  core_fputs job (.xml_string para.str)
  core_fputs job (.lit "</text>\n")

/-- The array `A` holds 2 points: the center and corner. -/
def svg_ellipse (job : GVJ_t α) (A : Nat → pointf α) (filled : Int) : Emit α Unit := do
  core_fputs job (.lit "<ellipse")
  svg_grstyle job filled
  core_printf job " cx=\"%g\" cy=\"%g\"" [.double (A 0).x, .double (-(A 0).y)]
  core_printf job " rx=\"%g\" ry=\"%g\"" [.double ((A 1).x - (A 0).x), .double ((A 1).y - (A 0).y)]
  core_fputs job (.lit "/>\n")

def svg_bezier (job : GVJ_t α) (A : Nat → pointf α) (n : Int)
    (_arrow_at_start _arrow_at_end : Int) (filled : Int) : Emit α Unit := do
  core_fputs job (.lit "<path")
  svg_grstyle job filled
  core_fputs job (.lit " d=\"")
  svg_bzptarray job A n
  core_fputs job (.lit "\"/>\n")

def svg_polygon (job : GVJ_t α) (A : Nat → pointf α) (n : Int) (filled : Int) : Emit α Unit := do
  core_fputs job (.lit "<polygon")
  svg_grstyle job filled
  core_fputs job (.lit " points=\"")
  for_loop (fun i _ =>
    core_printf job "%g,%g " [.double (A i).x, .double (-(A i).y)]) 0 n.toNat ()
  core_printf job "%g,%g" [.double (A 0).x, .double (-(A 0).y)]
  core_fputs job (.lit "\"/>\n")

def svg_polyline (job : GVJ_t α) (A : Nat → pointf α) (n : Int) : Emit α Unit := do
  core_fputs job (.lit "<polyline")
  svg_grstyle job 0
  core_fputs job (.lit " points=\"")
  for_loop (fun i _ =>
    core_printf job "%g,%g " [.double (A i).x, .double (-(A i).y)]) 0 n.toNat ()
  core_fputs job (.lit "\"/>\n")

/-! ## The callback table and the event stream -/

/-- One call of the layout pipeline into the renderer: the callback of
`svg_engine` that is invoked, with the job as it stands at that moment and
the further arguments of the callback. -/
inductive Event (α : Type) where
  | begin_job (job : GVJ_t α)
  | begin_graph (job : GVJ_t α)
  | end_graph (job : GVJ_t α)
  | begin_layer (job : GVJ_t α) (layername : String) (layerNum numLayers : Int)
  | end_layer (job : GVJ_t α)
  | begin_page (job : GVJ_t α)
  | end_page (job : GVJ_t α)
  | begin_cluster (job : GVJ_t α)
  | end_cluster (job : GVJ_t α)
  | begin_node (job : GVJ_t α)
  | end_node (job : GVJ_t α)
  | begin_edge (job : GVJ_t α)
  | end_edge (job : GVJ_t α)
  | begin_anchor (job : GVJ_t α) (href tooltip target : Option String)
  | end_anchor (job : GVJ_t α)
  | textpara (job : GVJ_t α) (p : pointf α) (para : textpara_t α)
  | ellipse (job : GVJ_t α) (A : Nat → pointf α) (filled : Int)
  | polygon (job : GVJ_t α) (A : Nat → pointf α) (n : Int) (filled : Int)
  | bezier (job : GVJ_t α) (A : Nat → pointf α) (n : Int)
      (arrow_at_start arrow_at_end : Int) (filled : Int)
  | polyline (job : GVJ_t α) (A : Nat → pointf α) (n : Int)
  | comment (job : GVJ_t α) (str : String)

/-- The table `svg_engine`: which callback serves which event. -/
def svg_engine : Event α → Emit α Unit
  | .begin_job job => svg_begin_job job
  | .begin_graph job => svg_begin_graph job
  | .end_graph job => svg_end_graph job
  | .begin_layer job layername layerNum numLayers =>
    svg_begin_layer job layername layerNum numLayers
  | .end_layer job => svg_end_layer job
  | .begin_page job => svg_begin_page job
  | .end_page job => svg_end_page job
  | .begin_cluster job => svg_begin_cluster job
  | .end_cluster job => svg_end_cluster job
  | .begin_node job => svg_begin_node job
  | .end_node job => svg_end_node job
  | .begin_edge job => svg_begin_edge job
  | .end_edge job => svg_end_edge job
  | .begin_anchor job href tooltip target => svg_begin_anchor job href tooltip target
  | .end_anchor job => svg_end_anchor job
  | .textpara job p para => svg_textpara job p para
  | .ellipse job A filled => svg_ellipse job A filled
  | .polygon job A n filled => svg_polygon job A n filled
  | .bezier job A n arrow_at_start arrow_at_end filled =>
    svg_bezier job A n arrow_at_start arrow_at_end filled
  | .polyline job A n => svg_polyline job A n
  | .comment job str => svg_comment job str

/-- The renderer driven by a stream of events, one callback per event. -/
def run_events : List (Event α) → Emit α Unit
  | [] => pure ()
  | e :: es => do
    svg_engine e
    run_events es

/-! ## What the sink writes

The bytes of a call: a format string is cut into its literal text and its
conversions, and each conversion is rendered from its argument. -/

/-- A piece of output: literal program text, or one converted value. -/
inductive Piece (α : Type) where
  | text (s : String)
  | chr (ch : Char)
  | dec (i : Int)
  | hex2 (n : Nat)
  | dbl_g (x : α)
  | dbl_f2 (x : α)
  | str (v : char_p)
deriving DecidableEq, Repr

/-- Puts the literal text collected so far (in reverse) before `ps`. -/
def flush_text (acc : List Char) (ps : List (Piece α)) : List (Piece α) :=
  if acc.isEmpty then ps else Piece.text (String.mk acc.reverse) :: ps

/-- The conversions of `printf` that the renderer uses: `%c`, `%g`, `%s`,
`%d`, `%ld`, `%.2f` and `%02x`, each consuming one argument of its type.
Any other use of `%`, a missing, a surplus or an ill-typed argument gives
no result. -/
def vformat : List Char → List Char → List (Arg α) → Option (List (Piece α))
  | [], acc, [] => some (flush_text acc [])
  | [], _, _ :: _ => none
  | '%' :: 'c' :: fmt, acc, Arg.char ch :: as =>
    (vformat fmt [] as).map (fun r => flush_text acc (Piece.chr ch :: r))
  | '%' :: 'g' :: fmt, acc, Arg.double x :: as =>
    (vformat fmt [] as).map (fun r => flush_text acc (Piece.dbl_g x :: r))
  | '%' :: 's' :: fmt, acc, Arg.str v :: as =>
    (vformat fmt [] as).map (fun r => flush_text acc (Piece.str v :: r))
  | '%' :: 'd' :: fmt, acc, Arg.int i :: as =>
    (vformat fmt [] as).map (fun r => flush_text acc (Piece.dec i :: r))
  | '%' :: 'l' :: 'd' :: fmt, acc, Arg.long i :: as =>
    (vformat fmt [] as).map (fun r => flush_text acc (Piece.dec i :: r))
  | '%' :: '.' :: '2' :: 'f' :: fmt, acc, Arg.double x :: as =>
    (vformat fmt [] as).map (fun r => flush_text acc (Piece.dbl_f2 x :: r))
  | '%' :: '0' :: '2' :: 'x' :: fmt, acc, Arg.uint n :: as =>
    (vformat fmt [] as).map (fun r => flush_text acc (Piece.hex2 n :: r))
  | '%' :: _, _, _ => none
  | ch :: fmt, acc, as => vformat fmt (ch :: acc) as

/-- The pieces one call adds to the output. -/
def Call.pieces : Call α → Option (List (Piece α))
  | .init_compression _ => some []
  | .fini_compression => some []
  | .fputs (.lit s) => some [Piece.text s]
  | .fputs v => some [Piece.str v]
  | .printf fmt args => vformat fmt.toList [] args

/-- The pieces of everything the sink received. -/
def pieces : Sink α → Option (List (Piece α))
  | [] => some []
  | c :: cs => c.pieces.bind (fun p => (pieces cs).map (fun ps => p ++ ps))

/-- What lies outside the renderer and decides the bytes of a value: how
`printf` writes a double under `%g` and under `%.2f`, and the escaper
`xml_string`. -/
structure Host (α : Type) where
  fmt_g : α → String
  fmt_2f : α → String
  xml_string : String → String

/-- The conversion `%d`: decimal, with a minus sign for negative values. -/
def fmt_d (i : Int) : String :=
  if i < 0 then String.mk ('-' :: Nat.toDigits 10 i.natAbs) else String.mk (Nat.toDigits 10 i.natAbs)

/-- The conversion `%02x`: lowercase hexadecimal, zero-padded to 2 digits. -/
def fmt_02x (n : Nat) : String :=
  String.mk (List.replicate (2 - (Nat.toDigits 16 n).length) '0' ++ Nat.toDigits 16 n)

def char_p.render (H : Host α) : char_p → String
  | .lit s => s
  | .var s => s
  | .xml_string s => H.xml_string s

def Piece.render (H : Host α) : Piece α → String
  | Piece.text s => s
  | Piece.chr ch => String.singleton ch
  | Piece.dec i => fmt_d i
  | Piece.hex2 n => fmt_02x n
  | Piece.dbl_g x => H.fmt_g x
  | Piece.dbl_f2 x => H.fmt_2f x
  | Piece.str v => v.render H

def render_pieces (H : Host α) : List (Piece α) → String
  | [] => ""
  | p :: ps => p.render H ++ render_pieces H ps

/-- The bytes the sink has been handed. -/
def render (H : Host α) (sink : Sink α) : Option String :=
  (pieces sink).map (render_pieces H)

/-! ## The element structure of the output

A lexer for the markup the renderer writes.  On the markup of the sink it
reads the program text only: every converted value is one opaque item, also
a string that the renderer writes as it is.  On the bytes of a document
(`doc_tags`) nothing is opaque. -/

/-- One character of program text, or `none` for a converted value. -/
def Piece.items : Piece α → List (Option Char)
  | Piece.text s => s.toList.map some
  | _ => [none]

def items : List (Piece α) → List (Option Char)
  | [] => []
  | p :: ps => p.items ++ items ps

/-- The markup of the sink: its program text, with every value made opaque. -/
def markup (sink : Sink α) : Option (List (Option Char)) :=
  (pieces sink).map items

/-- A tag found in the markup: `<name ...>`, `</name>` or `<name ... />`. -/
inductive Tag where
  | start (name : String)
  | stop (name : String)
  | empty (name : String)
deriving DecidableEq, Repr

/-- The states of the lexer.  Names are collected in reverse. -/
inductive Lex where
  | text
  | lt
  | name (n : List Char)
  | attrs (n : List Char)
  | value (n : List Char)
  | slash (n : List Char)
  | close (n : List Char)
  | bang
  | bang_dash
  | comment (dashes : Nat)
  | decl (depth : Nat) (quoted : Bool)
  | pi (question : Bool)
  | bad
deriving DecidableEq, Repr

/-- One step of the lexer: the next state and the tag that was completed. -/
def Lex.step : Lex → Option Char → Lex × Option Tag
  | .text, some '<' => (.lt, none)
  | .text, _ => (.text, none)
  | .lt, some '/' => (.close [], none)
  | .lt, some '!' => (.bang, none)
  | .lt, some '?' => (.pi false, none)
  | .lt, some c => if c.isAlpha then (.name [c], none) else (.bad, none)
  | .lt, none => (.bad, none)
  | .name n, some ' ' => (.attrs n, none)
  | .name n, some '\n' => (.attrs n, none)
  | .name n, some '>' => (.text, some (Tag.start (String.mk n.reverse)))
  | .name n, some '/' => (.slash n, none)
  | .name n, some c => (.name (c :: n), none)
  | .name _, none => (.bad, none)
  | .attrs n, some '"' => (.value n, none)
  | .attrs n, some '>' => (.text, some (Tag.start (String.mk n.reverse)))
  | .attrs n, some '/' => (.slash n, none)
  | .attrs n, _ => (.attrs n, none)
  | .value n, some '"' => (.attrs n, none)
  | .value n, _ => (.value n, none)
  | .slash n, some '>' => (.text, some (Tag.empty (String.mk n.reverse)))
  | .slash _, _ => (.bad, none)
  | .close n, some '>' => (.text, some (Tag.stop (String.mk n.reverse)))
  | .close n, some c => (.close (c :: n), none)
  | .close _, none => (.bad, none)
  | .bang, some '-' => (.bang_dash, none)
  | .bang, some '"' => (.decl 1 true, none)
  | .bang, some _ => (.decl 1 false, none)
  | .bang, none => (.bad, none)
  | .bang_dash, some '-' => (.comment 0, none)
  | .bang_dash, _ => (.bad, none)
  | .comment k, some '-' => (.comment (min (k + 1) 2), none)
  | .comment k, some '>' => if k = 2 then (.text, none) else (.comment 0, none)
  | .comment _, _ => (.comment 0, none)
  | .decl d true, some '"' => (.decl d false, none)
  | .decl d true, _ => (.decl d true, none)
  | .decl d false, some '"' => (.decl d true, none)
  | .decl d false, some '<' => (.decl (d + 1) false, none)
  | .decl d false, some '>' => if d ≤ 1 then (.text, none) else (.decl (d - 1) false, none)
  | .decl d false, _ => (.decl d false, none)
  | .pi _, some '?' => (.pi true, none)
  | .pi q, some '>' => if q then (.text, none) else (.pi false, none)
  | .pi _, _ => (.pi false, none)
  | .bad, _ => (.bad, none)

/-- Runs the lexer: the final state and the tags in the order they closed. -/
def lex : Lex → List (Option Char) → Lex × List Tag
  | st, [] => (st, [])
  | st, c :: cs => ((lex (st.step c).1 cs).1, (st.step c).2.toList ++ (lex (st.step c).1 cs).2)

/-- The elements left open after a run of tags, innermost first, starting
from the open elements `open_elems`; no result when an end tag does not
close the innermost open element. -/
def nest : List String → List Tag → Option (List String)
  | open_elems, [] => some open_elems
  | open_elems, Tag.start n :: ts => nest (n :: open_elems) ts
  | open_elems, Tag.empty _ :: ts => nest open_elems ts
  | [], Tag.stop _ :: _ => none
  | m :: open_elems, Tag.stop n :: ts => if m = n then nest open_elems ts else none

/-- The tags of the program text of the sink, when its markup ends outside
of any tag, comment or declaration. -/
def tags (sink : Sink α) : Option (List Tag) :=
  match markup sink with
  | none => none
  | some m => if (lex .text m).1 = .text then some (lex .text m).2 else none

/-- Every element that the program text of the output opens is closed,
innermost first, and nothing is open at the end.  The written values are
opaque here: this is the balance of the literal text of the program, not yet
that of the bytes (`BytesBalanced`). -/
def Balanced (sink : Sink α) : Prop :=
  ∃ ts, tags sink = some ts ∧ nest [] ts = some []

/-! ## A host for running the renderer

Doubles of integral value, the formats of `printf` on them, and an escaper,
so that the callbacks can be evaluated on concrete input. -/

/-- A double of integral value, in sign and magnitude as IEEE 754 stores it:
zero has both signs.  The arithmetic below is the exact one, which is what
the machine computes as long as magnitudes stay under 2^53. -/
structure idouble where
  sign : Bool
  mag : Nat
deriving DecidableEq, Repr

/-- Unary minus flips the sign bit, also that of zero. -/
def idouble.neg (a : idouble) : idouble :=
  { sign := !a.sign, mag := a.mag }

/-- Addition; an exact sum of zero of two unlike-signed operands is `+0`. -/
def idouble.add (a b : idouble) : idouble :=
  if a.sign = b.sign then { sign := a.sign, mag := a.mag + b.mag }
  else if a.mag = b.mag then { sign := false, mag := 0 }
  else if b.mag < a.mag then { sign := a.sign, mag := a.mag - b.mag }
  else { sign := b.sign, mag := b.mag - a.mag }

def idouble.sub (a b : idouble) : idouble :=
  a.add b.neg

/-- The comparison `!=`: the two zeros compare equal. -/
def idouble.ne (a b : idouble) : Bool :=
  !(decide (a = b) || (a.mag == 0 && b.mag == 0))

instance : CDouble idouble where
  neg := idouble.neg
  sub := idouble.sub
  ne := idouble.ne

instance : Consts idouble where
  PENWIDTH_NORMAL := { sign := false, mag := 1 }
  AGFLAG_DIRECTED := 1

/-- A nonnegative integral double. -/
def idouble.ofNat (n : Nat) : idouble :=
  { sign := false, mag := n }

/-- Drops the zeros at the end of a digit string. -/
def strip_zeros (ds : List Char) : List Char :=
  (ds.reverse.dropWhile (fun c => c = '0')).reverse

/-- The digits of `%g` (precision 6) for a nonnegative integer: plain
decimal below 10^6, otherwise 6 significant digits, rounded half to even,
with trailing zeros dropped and a two-digit exponent. -/
def fmt_g_nat (m : Nat) : List Char :=
  if m < 1000000 then Nat.toDigits 10 m
  else
    let len := (Nat.toDigits 10 m).length
    let scale := 10 ^ (len - 6)
    let q := m / scale
    let r := m % scale
    let q := if scale < 2 * r ∨ (2 * r = scale ∧ q % 2 = 1) then q + 1 else q
    let e := if q = 1000000 then len else len - 1
    let q := if q = 1000000 then 100000 else q
    let ds := strip_zeros (Nat.toDigits 10 q)
    let mant := match ds with
      | [] => []
      | [d] => [d]
      | d :: rest => d :: '.' :: rest
    let ex := Nat.toDigits 10 e
    mant ++ ['e', '+'] ++ (if ex.length < 2 then '0' :: ex else ex)

def idouble.fmt_g (a : idouble) : String :=
  String.mk ((if a.sign then ['-'] else []) ++ fmt_g_nat a.mag)

def idouble.fmt_2f (a : idouble) : String :=
  String.mk ((if a.sign then ['-'] else []) ++ Nat.toDigits 10 a.mag ++ ['.', '0', '0'])

/-- Modelled from the spec: the Text Escaper `xml_string`, which is not among
the sources; it makes text markup-safe by writing the characters that delimit
markup as entities. -/
def xml_escape : List Char → List Char
  | [] => []
  | '&' :: s => "&amp;".toList ++ xml_escape s
  | '<' :: s => "&lt;".toList ++ xml_escape s
  | '>' :: s => "&gt;".toList ++ xml_escape s
  | '"' :: s => "&quot;".toList ++ xml_escape s
  | c :: s => c :: xml_escape s

/-- The host the examples run on. -/
def host : Host idouble where
  fmt_g := idouble.fmt_g
  fmt_2f := idouble.fmt_2f
  xml_string := fun s => String.mk (xml_escape s.toList)

/-! ## Vocabulary of the properties -/

/-- The callback `m` returns whatever the sink holds, and what it does is to
append the calls `out`. -/
def Appends (m : Emit α Unit) (out : Sink α) : Prop :=
  ∀ sink : Sink α, m.run sink = some ((), sink ++ out)

/-- The calls by which `svg_print_color` writes a color it knows. -/
def color_out : gvcolor_t → Sink α
  | .COLOR_STRING string => [Call.fputs (.var string)]
  | .RGBA_BYTE r g b a =>
    if a = 0 then [Call.fputs (.lit "none")]
    else [Call.printf "#%02x%02x%02x" [.uint r, .uint g, .uint b]]
  | .other => []

/-- The calls of `svg_grstyle`, when the colors it prints are known. -/
def grstyle_out [CDouble α] [Consts α] (job : GVJ_t α) (filled : Int) : Sink α :=
  [Call.fputs (.lit " style=\"fill:")]
    ++ (if filled ≠ 0 then color_out job.obj.fillcolor else [Call.fputs (.lit "none")])
    ++ [Call.fputs (.lit ";stroke:")]
    ++ color_out job.obj.pencolor
    ++ (if CDouble.ne job.obj.penwidth PENWIDTH_NORMAL then
          [Call.printf ";stroke-width:%g" [.double job.obj.penwidth]] else [])
    ++ (if job.obj.pen = .PEN_DASHED then [Call.printf ";stroke-dasharray:%s" [.str sdarray]]
        else if job.obj.pen = .PEN_DOTTED then [Call.printf ";stroke-dasharray:%s" [.str sdotarray]]
        else [])
    ++ [Call.fputs (.lit ";\"")]

/-- The colors `svg_grstyle` prints are known: the pen color, and the fill
color when the shape is filled. -/
def grstyle_ok (job : GVJ_t α) (filled : Int) : Prop :=
  job.obj.pencolor ≠ .other ∧ (filled ≠ 0 → job.obj.fillcolor ≠ .other)

instance (job : GVJ_t α) (filled : Int) : Decidable (grstyle_ok job filled) :=
  inferInstanceAs (Decidable (job.obj.pencolor ≠ .other ∧ (filled ≠ 0 → job.obj.fillcolor ≠ .other)))

/-- The calls of the loop that writes the points `A i`, ..., `A (i + k - 1)`
of a `points` attribute. -/
def points_out [CDouble α] (A : Nat → pointf α) : Nat → Nat → Sink α
  | _, 0 => []
  | i, k + 1 =>
    Call.printf "%g,%g " [.double (A i).x, .double (-(A i).y)] :: points_out A (i + 1) k

/-- The calls of the loop of `svg_bzptarray` from index `i` on, with `c` the
command character at that index. -/
def bzpt_out [CDouble α] (A : Nat → pointf α) : Nat → Nat → Char → Sink α
  | _, 0, _ => []
  | i, k + 1, c =>
    Call.printf "%c%g,%g" [.char c, .double (A i).x, .double (-(A i).y)]
      :: bzpt_out A (i + 1) k (if i = 0 then 'C' else ' ')

/-- The call by which `svg_textpara` writes an optional font property. -/
def opt_printf_out (fmt : String) : Option String → Sink α
  | some v => [Call.printf fmt [.str (.var v)]]
  | none => []

/-- The compression mode `svg_begin_job` selects. -/
def compression_of : format_type → compression_t
  | .FORMAT_SVGZ => .COMPRESSION_ZLIB
  | .FORMAT_SVG => .COMPRESSION_NONE

/-- The calls by which `svg_begin_job` writes the stylesheet instruction. -/
def stylesheet_out (job : GVJ_t α) : Sink α :=
  match agget job.gvc.g "stylesheet" with
  | some s =>
    if s ≠ "" then
      [Call.fputs (.lit "<?xml-stylesheet href=\""), Call.fputs (.var s),
        Call.fputs (.lit "\" type=\"text/css\"?>\n")]
    else []
  | none => []

/-- The calls by which `svg_textpara` writes the font of a text run. -/
def font_out (job : GVJ_t α) (para : textpara_t α) : Sink α :=
  match para.postscript_alias with
  | some pA =>
    [Call.printf "font-family:%s;"
        [.str (.var (match GD_fontnames job.gvc.g with
          | .PSFONTS => pA.name
          | .NATIVEFONTS => pA.family
          | .SVGFONTS => pA.family))]]
      ++ opt_printf_out "font-weight:%s;" pA.weight
      ++ opt_printf_out "font-stretch:%s;" pA.stretch
      ++ opt_printf_out "font-style:%s;" pA.style
  | none => [Call.printf "font-family:%s;" [.str (.var para.fontname)]]

/-- The calls by which `svg_textpara` writes the color of a text run. -/
def text_fill_out (job : GVJ_t α) : Sink α :=
  match job.obj.pencolor with
  | .COLOR_STRING string =>
    if strcasecmp string "black" ≠ 0 then [Call.printf "fill:%s;" [.str (.var string)]] else []
  | .RGBA_BYTE r g b _ => [Call.printf "fill:#%02x%02x%02x;" [.uint r, .uint g, .uint b]]
  | .other => []

/-- The calls by which `svg_begin_anchor` writes one optional attribute. -/
def anchor_attr_out (fmt : String) : Option String → Sink α
  | some v => if v ≠ "" then [Call.printf fmt [.str (.xml_string v)]] else []
  | none => []

/-- The calls of each callback, when the colors it prints are known. -/
def event_out [CDouble α] [Consts α] : Event α → Sink α
  | .begin_job job =>
    [Call.init_compression (compression_of job.render_id),
      Call.fputs (.lit "<?xml version=\"1.0\" encoding=\"UTF-8\" standalone=\"no\"?>\n")]
    ++ stylesheet_out job
    ++ [Call.fputs (.lit "<!DOCTYPE svg PUBLIC \"-//W3C//DTD SVG 1.0//EN\"\n"),
      Call.fputs (.lit " \"http://www.w3.org/TR/2001/REC-SVG-20010904/DTD/svg10.dtd\""),
      Call.fputs (.lit " [\n <!ATTLIST svg xmlns:xlink CDATA #FIXED \"http://www.w3.org/1999/xlink\">\n]"),
      Call.fputs (.lit ">\n<!-- Generated by "),
      Call.fputs (.xml_string (job.common.info 0)),
      Call.fputs (.lit " version "),
      Call.fputs (.xml_string (job.common.info 1)),
      Call.fputs (.lit " ("),
      Call.fputs (.xml_string (job.common.info 2)),
      Call.fputs (.lit ")\n     For user: "),
      Call.fputs (.xml_string job.common.user),
      Call.fputs (.lit " -->\n")]
  | .begin_graph job =>
    [Call.fputs (.lit "<!--")]
    ++ (if job.obj.u.g.name ≠ "" then
          [Call.fputs (.lit " Title: "), Call.fputs (.xml_string job.obj.u.g.name)] else [])
    ++ [Call.printf " Pages: %d -->\n" [.int (int_wrap (job.pagesArraySize.x * job.pagesArraySize.y))],
      Call.printf "<svg width=\"%dpt\" height=\"%dpt\"\n" [.int job.width, .int job.height],
      Call.printf " viewBox=\"%.2f %.2f %.2f %.2f\""
        [.double job.canvasBox.LL.x, .double job.canvasBox.LL.y,
         .double job.canvasBox.UR.x, .double job.canvasBox.UR.y],
      Call.fputs (.lit " xmlns=\"http://www.w3.org/2000/svg\""),
      Call.fputs (.lit " xmlns:xlink=\"http://www.w3.org/1999/xlink\""),
      Call.fputs (.lit ">\n")]
  | .end_graph _ => [Call.fputs (.lit "</svg>\n"), Call.fini_compression]
  | .begin_layer _ layername _ _ =>
    [Call.fputs (.lit "<g id=\""), Call.fputs (.xml_string layername),
      Call.fputs (.lit "\" class=\"layer\">\n")]
  | .end_layer _ => [Call.fputs (.lit "</g>\n")]
  | .begin_page job =>
    [Call.printf "<g id=\"graph%d\" class=\"graph\"" [.int job.common.viewNum],
      Call.printf " transform=\"scale(%g %g) rotate(%d) translate(%g %g)\">\n"
        [.double job.scale.x, .double job.scale.y, .int (int_wrap (-job.rotation)),
         .double job.translation.x, .double (-job.translation.y)]]
    ++ (if job.obj.u.g.name ≠ "" then
          [Call.fputs (.lit "<title>"), Call.fputs (.xml_string job.obj.u.g.name),
            Call.fputs (.lit "</title>\n")] else [])
  | .end_page _ => [Call.fputs (.lit "</g>\n")]
  | .begin_cluster job =>
    [Call.printf "<g id=\"cluster%ld\" class=\"cluster\">" [.long job.obj.u.sg.meta_node_id],
      Call.fputs (.lit "<title>"), Call.fputs (.xml_string job.obj.u.sg.name),
      Call.fputs (.lit "</title>\n")]
  | .end_cluster _ => [Call.fputs (.lit "</g>\n")]
  | .begin_node job =>
    [Call.printf "<g id=\"node%ld\" class=\"node\">" [.long job.obj.u.n.id],
      Call.fputs (.lit "<title>"), Call.fputs (.xml_string job.obj.u.n.name),
      Call.fputs (.lit "</title>\n")]
  | .end_node _ => [Call.fputs (.lit "</g>\n")]
  | .begin_edge job =>
    [Call.printf "<g id=\"edge%ld\" class=\"edge\">" [.long job.obj.u.e.id],
      Call.fputs (.lit "<title>"), Call.fputs (.xml_string job.obj.u.e.tail.name),
      Call.fputs (if job.obj.u.e.tail.graph.root_kind &&& (AGFLAG_DIRECTED α) ≠ 0 then
        .lit "&#45;&gt;" else .lit "&#45;&#45;"),
      Call.fputs (.xml_string job.obj.u.e.head.name),
      Call.fputs (.lit "</title>\n")]
  | .end_edge _ => [Call.fputs (.lit "</g>\n")]
  | .begin_anchor _ href tooltip target =>
    [Call.fputs (.lit "<a")]
    ++ anchor_attr_out " xlink:href=\"%s\"" href
    ++ anchor_attr_out " xlink:title=\"%s\"" tooltip
    ++ anchor_attr_out " target=\"%s\"" target
    ++ [Call.fputs (.lit ">\n")]
  | .end_anchor _ => [Call.fputs (.lit "</a>\n")]
  | .textpara job p para =>
    [Call.fputs (.lit "<text"),
      Call.fputs (if para.just = 'l' then .lit " text-anchor=\"start\""
        else if para.just = 'r' then .lit " text-anchor=\"end\""
        else .lit " text-anchor=\"middle\""),
      Call.printf " x=\"%g\" y=\"%g\"" [.double p.x, .double (-p.y)],
      Call.fputs (.lit " style=\"")]
    ++ font_out job para
    ++ [Call.printf "font-size:%.2f;" [.double para.fontsize]]
    ++ text_fill_out job
    ++ [Call.fputs (.lit "\">"), Call.fputs (.xml_string para.str),
      Call.fputs (.lit "</text>\n")]
  | .ellipse job A filled =>
    [Call.fputs (.lit "<ellipse")]
    ++ grstyle_out job filled
    ++ [Call.printf " cx=\"%g\" cy=\"%g\"" [.double (A 0).x, .double (-(A 0).y)],
      Call.printf " rx=\"%g\" ry=\"%g\""
        [.double ((A 1).x - (A 0).x), .double ((A 1).y - (A 0).y)],
      Call.fputs (.lit "/>\n")]
  | .polygon job A n filled =>
    [Call.fputs (.lit "<polygon")]
    ++ grstyle_out job filled
    ++ [Call.fputs (.lit " points=\"")]
    ++ points_out A 0 n.toNat
    ++ [Call.printf "%g,%g" [.double (A 0).x, .double (-(A 0).y)],
      Call.fputs (.lit "\"/>\n")]
  | .bezier job A n _ _ filled =>
    [Call.fputs (.lit "<path")]
    ++ grstyle_out job filled
    ++ [Call.fputs (.lit " d=\"")]
    ++ bzpt_out A 0 n.toNat 'M'
    ++ [Call.fputs (.lit "\"/>\n")]
  | .polyline job A n =>
    [Call.fputs (.lit "<polyline")]
    ++ grstyle_out job 0
    ++ [Call.fputs (.lit " points=\"")]
    ++ points_out A 0 n.toNat
    ++ [Call.fputs (.lit "\"/>\n")]
  | .comment _ str =>
    [Call.fputs (.lit "<!-- "), Call.fputs (.xml_string str), Call.fputs (.lit " -->\n")]

/-- The colors the callback of an event prints are known. -/
def Event.ok : Event α → Prop
  | .textpara job _ _ => job.obj.pencolor ≠ .other
  | .ellipse job _ filled => grstyle_ok job filled
  | .polygon job _ _ filled => grstyle_ok job filled
  | .bezier job _ _ _ _ filled => grstyle_ok job filled
  | .polyline job _ _ => grstyle_ok job 0
  | _ => True

instance (e : Event α) : Decidable e.ok := by
  cases e <;> unfold Event.ok <;> infer_instance

/-- The calls of a stream of events: those of its callbacks, in order. -/
def run_out [CDouble α] [Consts α] : List (Event α) → Sink α
  | [] => []
  | e :: es => event_out e ++ run_out es

/-- The marked-up text of the sink `out` takes the lexer from state `st` to
state `st'` and closes the tags `ts` on the way. -/
def Scans (st : Lex) (out : Sink α) (st' : Lex) (ts : List Tag) : Prop :=
  ∃ m, markup out = some m ∧ lex st m = (st', ts)

/-- The structural contexts that are opened and closed by a pair of events. -/
inductive Elem where
  | graph
  | layer
  | page
  | cluster
  | node
  | edge
  | anchor
deriving DecidableEq, Repr

/-- The element that stands for a structural context in the output. -/
def Elem.tag : Elem → String
  | .graph => "svg"
  | .anchor => "a"
  | _ => "g"

/-- What an event does to the structure: it opens a context, closes one, or
draws inside the current one. -/
inductive Role where
  | opens (k : Elem)
  | closes (k : Elem)
  | leaf
deriving DecidableEq, Repr

def Event.role : Event α → Role
  | .begin_graph _ => .opens .graph
  | .end_graph _ => .closes .graph
  | .begin_layer _ _ _ _ => .opens .layer
  | .end_layer _ => .closes .layer
  | .begin_page _ => .opens .page
  | .end_page _ => .closes .page
  | .begin_cluster _ => .opens .cluster
  | .end_cluster _ => .closes .cluster
  | .begin_node _ => .opens .node
  | .end_node _ => .closes .node
  | .begin_edge _ => .opens .edge
  | .end_edge _ => .closes .edge
  | .begin_anchor _ _ _ _ => .opens .anchor
  | .end_anchor _ => .closes .anchor
  | _ => .leaf

/-- The contexts left open by a stream of events, innermost first, starting
from the open contexts `open_ctx`; no result when an End event does not
close the innermost open context. -/
def nesting : List Elem → List (Event α) → Option (List Elem)
  | open_ctx, [] => some open_ctx
  | open_ctx, e :: es =>
    match e.role, open_ctx with
    | .opens k, _ => nesting (k :: open_ctx) es
    | .leaf, _ => nesting open_ctx es
    | .closes _, [] => none
    | .closes k, k' :: rest => if k = k' then nesting rest es else none

/-- Every Begin event is matched by the End event of its kind, in LIFO
order, and nothing is left open. -/
def WellNested (es : List (Event α)) : Prop :=
  nesting [] es = some []

instance (es : List (Event α)) : Decidable (WellNested es) :=
  inferInstanceAs (Decidable (nesting [] es = some []))

/-- The tags the callback of an event writes. -/
def event_tags : Event α → List Tag
  | .begin_job _ => []
  | .begin_graph _ => [Tag.start "svg"]
  | .end_graph _ => [Tag.stop "svg"]
  | .begin_layer _ _ _ _ => [Tag.start "g"]
  | .end_layer _ => [Tag.stop "g"]
  | .begin_page job =>
    Tag.start "g" :: (if job.obj.u.g.name ≠ "" then [Tag.start "title", Tag.stop "title"] else [])
  | .end_page _ => [Tag.stop "g"]
  | .begin_cluster _ => [Tag.start "g", Tag.start "title", Tag.stop "title"]
  | .end_cluster _ => [Tag.stop "g"]
  | .begin_node _ => [Tag.start "g", Tag.start "title", Tag.stop "title"]
  | .end_node _ => [Tag.stop "g"]
  | .begin_edge _ => [Tag.start "g", Tag.start "title", Tag.stop "title"]
  | .end_edge _ => [Tag.stop "g"]
  | .begin_anchor _ _ _ _ => [Tag.start "a"]
  | .end_anchor _ => [Tag.stop "a"]
  | .textpara _ _ _ => [Tag.start "text", Tag.stop "text"]
  | .ellipse _ _ _ => [Tag.empty "ellipse"]
  | .polygon _ _ _ _ => [Tag.empty "polygon"]
  | .bezier _ _ _ _ _ _ => [Tag.empty "path"]
  | .polyline _ _ _ => [Tag.empty "polyline"]
  | .comment _ _ => []

/-- The tags of a stream of events. -/
def run_tags : List (Event α) → List Tag
  | [] => []
  | e :: es => event_tags e ++ run_tags es

/-- The hexadecimal digit of a value below 16, in lower case. -/
def hex_digit (n : Nat) : Char :=
  "0123456789abcdef".toList.getD n '0'

/-- The color token as the spec of the Color Encoder words it: a symbolic
name unchanged, `none` for a byte color of alpha 0, and otherwise `#` with
two hexadecimal digits for each of R, G and B. -/
def encode : gvcolor_t → String
  | .COLOR_STRING string => string
  | .RGBA_BYTE r g b a =>
    if a = 0 then "none"
    else String.mk ['#', hex_digit (r.val / 16), hex_digit (r.val % 16),
      hex_digit (g.val / 16), hex_digit (g.val % 16),
      hex_digit (b.val / 16), hex_digit (b.val % 16)]
  | .other => ""

/-- Whether `w` is an initial segment of `s`. -/
def starts_with : List Char → List Char → Bool
  | [], _ => true
  | _ :: _, [] => false
  | a :: w, b :: s => a == b && starts_with w s

/-- Whether `w` occurs in `s` as a contiguous run of characters. -/
def occurs_in (w : List Char) : List Char → Bool
  | [] => w.isEmpty
  | c :: s => starts_with w (c :: s) || occurs_in w s

/-- How often `w` occurs in `s`. -/
def count_in (w : List Char) : List Char → Nat
  | [] => 0
  | c :: s => (if starts_with w (c :: s) then 1 else 0) + count_in w s

/-- Whether the program text of a piece mentions the word `w`; the values
written by conversions are data and are not searched. -/
def Piece.mentions (w : String) : Piece α → Bool
  | Piece.text s => occurs_in w.toList s.toList
  | _ => false

/-- Whether the program text that a call writes mentions the word `w`. -/
def Call.mentions (w : String) (c : Call α) : Bool :=
  match c.pieces with
  | some ps => ps.any (Piece.mentions w)
  | none => false

/-- The coordinate pair a call writes: as `x,y` in a list of points or in
path data, or as the attribute pair `cx`, `cy` or `x`, `y`. -/
def Call.xy (c : Call α) : Option (pointf α) :=
  match c.pieces with
  | some [Piece.dbl_g x, Piece.text ",", Piece.dbl_g y, Piece.text " "] => some { x := x, y := y }
  | some [Piece.dbl_g x, Piece.text ",", Piece.dbl_g y] => some { x := x, y := y }
  | some [Piece.chr _, Piece.dbl_g x, Piece.text ",", Piece.dbl_g y] => some { x := x, y := y }
  | some [Piece.text " cx=\"", Piece.dbl_g x, Piece.text "\" cy=\"", Piece.dbl_g y,
      Piece.text "\""] => some { x := x, y := y }
  | some [Piece.text " x=\"", Piece.dbl_g x, Piece.text "\" y=\"", Piece.dbl_g y,
      Piece.text "\""] => some { x := x, y := y }
  | _ => none

/-- The coordinate pairs written to the sink, in order. -/
def xy_written (out : Sink α) : List (pointf α) :=
  out.filterMap Call.xy

/-- A point of the layout in the coordinates of the output: same `x`,
negated `y`. -/
def y_down [CDouble α] (p : pointf α) : pointf α :=
  { x := p.x, y := -p.y }

/-! ## Example input -/

def ex_graph : graph_t :=
  { name := "G", root_kind := 1, meta_node_id := 0, attrs := [], fontnames := .NATIVEFONTS }

def ex_node : node_t :=
  { id := 1, name := "a", graph := ex_graph }

/-- A job on the graph `G` with the node `a` as current object, painted
black on black with the normal solid pen, on one page. -/
def ex_job : GVJ_t idouble :=
  { gvc := { g := ex_graph }
    common := { info := fun i => if i = 0 then "graphviz" else if i = 1 then "2.20" else "2008",
                user := "user", viewNum := 0 }
    obj := { u := { g := ex_graph, sg := ex_graph, n := ex_node,
                    e := { id := 1, tail := ex_node, head := ex_node } }
             pencolor := .COLOR_STRING "black"
             fillcolor := .COLOR_STRING "black"
             pen := .PEN_SOLID
             penwidth := idouble.ofNat 1 }
    render_id := .FORMAT_SVG
    pagesArraySize := { x := 1, y := 1 }
    width := 62
    height := 44
    canvasBox := { LL := { x := idouble.ofNat 0, y := idouble.ofNat 0 },
                   UR := { x := idouble.ofNat 62, y := idouble.ofNat 44 } }
    scale := { x := idouble.ofNat 1, y := idouble.ofNat 1 }
    rotation := 0
    translation := { x := idouble.ofNat 4, y := idouble.ofNat 40 } }

/-- The same job with a dashed pen of width 2 and byte colors. -/
def ex_job_dashed : GVJ_t idouble :=
  { ex_job with
    obj := { ex_job.obj with
             pencolor := .RGBA_BYTE 255 128 0 255
             fillcolor := .RGBA_BYTE 1 2 3 0
             pen := .PEN_DASHED
             penwidth := idouble.ofNat 2 } }

/-- The center (0,0) and the corner (10,10) of an ellipse. -/
def ex_ellipse : Nat → pointf idouble :=
  fun i => if i = 0 then { x := idouble.ofNat 0, y := idouble.ofNat 0 }
    else { x := idouble.ofNat 10, y := idouble.ofNat 10 }

/-- The points (0,0), (10,20), (20,0), ... of a polygon. -/
def ex_points : Nat → pointf idouble :=
  fun i => { x := idouble.ofNat (10 * i), y := idouble.ofNat (if i % 2 = 0 then 0 else 20) }

def ex_para : textpara_t idouble :=
  { str := "a", fontname := "Times", postscript_alias := none,
    fontsize := idouble.ofNat 14, just := 'n' }

/-- Document-begin, Graph-begin, Page-begin, Node-begin, a filled ellipse,
Node-end, Page-end, Graph-end. -/
def scenario : List (Event idouble) :=
  [.begin_job ex_job, .begin_graph ex_job, .begin_page ex_job, .begin_node ex_job,
    .ellipse ex_job ex_ellipse 1, .end_node ex_job, .end_page ex_job, .end_graph ex_job]

/-- The document the renderer writes for `scenario` on `host`. -/
def scenario_doc : String :=
  "<?xml version=\"1.0\" encoding=\"UTF-8\" standalone=\"no\"?>\n"
  ++ "<!DOCTYPE svg PUBLIC \"-//W3C//DTD SVG 1.0//EN\"\n"
  ++ " \"http://www.w3.org/TR/2001/REC-SVG-20010904/DTD/svg10.dtd\" [\n"
  ++ " <!ATTLIST svg xmlns:xlink CDATA #FIXED \"http://www.w3.org/1999/xlink\">\n"
  ++ "]>\n"
  ++ "<!-- Generated by graphviz version 2.20 (2008)\n"
  ++ "     For user: user -->\n"
  ++ "<!-- Title: G Pages: 1 -->\n"
  ++ "<svg width=\"62pt\" height=\"44pt\"\n"
  ++ " viewBox=\"0.00 0.00 62.00 44.00\" xmlns=\"http://www.w3.org/2000/svg\""
  ++ " xmlns:xlink=\"http://www.w3.org/1999/xlink\">\n"
  ++ "<g id=\"graph0\" class=\"graph\""
  ++ " transform=\"scale(1 1) rotate(0) translate(4 -40)\">\n"
  ++ "<title>G</title>\n"
  ++ "<g id=\"node1\" class=\"node\"><title>a</title>\n"
  ++ "<ellipse style=\"fill:black;stroke:black;\""
  ++ " cx=\"0\" cy=\"-0\" rx=\"10\" ry=\"10\"/>\n"
  ++ "</g>\n"
  ++ "</g>\n"
  ++ "</svg>\n"

/-! ## The known colors -/

/-- The result of `strcmp` on two character sequences: the difference of the
first pair of characters that differ, the end of a string counting as the
character 0.  Code points stand for bytes: the order of the UTF-8 encodings
is the order of the code points. -/
def strcmp_chars : List Char → List Char → Int
  | [], [] => 0
  | [], c :: _ => - (c.toNat : Int)
  | c :: _, [] => (c.toNat : Int)
  | c :: s, d :: t =>
    if c = d then strcmp_chars s t
    else (c.toNat : Int) - (d.toNat : Int)

def strcmp (s t : String) : Int :=
  strcmp_chars s.toList t.toList

/-- The color names from http://www.w3.org/TR/SVG/types.html; the list must
be LANG_C sorted. -/
def svg_knowncolors : List String := [
    "aliceblue", "antiquewhite", "aqua", "aquamarine", "azure",
    "beige", "bisque", "black", "blanchedalmond", "blue",
    "blueviolet", "brown", "burlywood",
    "cadetblue", "chartreuse", "chocolate", "coral",
    "cornflowerblue", "cornsilk", "crimson", "cyan",
    "darkblue", "darkcyan", "darkgoldenrod", "darkgray",
    "darkgreen", "darkgrey", "darkkhaki", "darkmagenta",
    "darkolivegreen", "darkorange", "darkorchid", "darkred",
    "darksalmon", "darkseagreen", "darkslateblue", "darkslategray",
    "darkslategrey", "darkturquoise", "darkviolet", "deeppink",
    "deepskyblue", "dimgray", "dimgrey", "dodgerblue",
    "firebrick", "floralwhite", "forestgreen", "fuchsia",
    "gainsboro", "ghostwhite", "gold", "goldenrod", "gray",
    "green", "greenyellow", "grey",
    "honeydew", "hotpink", "indianred",
    "indigo", "ivory", "khaki",
    "lavender", "lavenderblush", "lawngreen", "lemonchiffon",
    "lightblue", "lightcoral", "lightcyan", "lightgoldenrodyellow",
    "lightgray", "lightgreen", "lightgrey", "lightpink",
    "lightsalmon", "lightseagreen", "lightskyblue",
    "lightslategray", "lightslategrey", "lightsteelblue",
    "lightyellow", "lime", "limegreen", "linen",
    "magenta", "maroon", "mediumaquamarine", "mediumblue",
    "mediumorchid", "mediumpurple", "mediumseagreen",
    "mediumslateblue", "mediumspringgreen", "mediumturquoise",
    "mediumvioletred", "midnightblue", "mintcream",
    "mistyrose", "moccasin",
    "navajowhite", "navy", "oldlace",
    "olive", "olivedrab", "orange", "orangered", "orchid",
    "palegoldenrod", "palegreen", "paleturquoise",
    "palevioletred", "papayawhip", "peachpuff", "peru", "pink",
    "plum", "powderblue", "purple",
    "red", "rosybrown", "royalblue",
    "saddlebrown", "salmon", "sandybrown", "seagreen", "seashell",
    "sienna", "silver", "skyblue", "slateblue", "slategray",
    "slategrey", "snow", "springgreen", "steelblue",
    "tan", "teal", "thistle", "tomato", "turquoise",
    "violet",
    "wheat", "white", "whitesmoke",
    "yellow", "yellowgreen"
  ]

/-- Every entry of the table is below (`strcmp` negative) the entry after
it. -/
def ascending : List String → Bool
  | [] => true
  | [_] => true
  | a :: b :: rest => decide (strcmp a b < 0) && ascending (b :: rest)

/-! ## Further vocabulary: data strings, formats, compression, paths -/

/-- The caller's string behind a `char *` that is written as it is. -/
def char_p.raw : char_p → List String
  | .var s => [s]
  | _ => []

/-- The caller's string behind a `char *` that went through `xml_string`. -/
def char_p.escaped : char_p → List String
  | .xml_string s => [s]
  | _ => []

def Arg.raw : Arg α → List String
  | .str v => v.raw
  | _ => []

def Arg.escaped : Arg α → List String
  | .str v => v.escaped
  | _ => []

/-- The caller's strings that a call writes without escaping them. -/
def Call.raw : Call α → List String
  | .fputs v => v.raw
  | .printf _ args => args.flatMap Arg.raw
  | _ => []

/-- The caller's strings that a call writes escaped. -/
def Call.escaped : Call α → List String
  | .fputs v => v.escaped
  | .printf _ args => args.flatMap Arg.escaped
  | _ => []

/-- The caller's strings written to the sink without escaping, in order. -/
def raw_strings (out : Sink α) : List String :=
  out.flatMap Call.raw

/-- The caller's strings written to the sink escaped, in order. -/
def escaped_strings (out : Sink α) : List String :=
  out.flatMap Call.escaped

/-- The job an event is delivered with. -/
def Event.job : Event α → GVJ_t α
  | .begin_job job => job
  | .begin_graph job => job
  | .end_graph job => job
  | .begin_layer job _ _ _ => job
  | .end_layer job => job
  | .begin_page job => job
  | .end_page job => job
  | .begin_cluster job => job
  | .end_cluster job => job
  | .begin_node job => job
  | .end_node job => job
  | .begin_edge job => job
  | .end_edge job => job
  | .begin_anchor job _ _ _ => job
  | .end_anchor job => job
  | .textpara job _ _ => job
  | .ellipse job _ _ => job
  | .polygon job _ _ _ => job
  | .bezier job _ _ _ _ _ => job
  | .polyline job _ _ => job
  | .comment job _ => job

/-- The same event, delivered with the job `job`. -/
def Event.with_job (job : GVJ_t α) : Event α → Event α
  | .begin_job _ => .begin_job job
  | .begin_graph _ => .begin_graph job
  | .end_graph _ => .end_graph job
  | .begin_layer _ layername layerNum numLayers => .begin_layer job layername layerNum numLayers
  | .end_layer _ => .end_layer job
  | .begin_page _ => .begin_page job
  | .end_page _ => .end_page job
  | .begin_cluster _ => .begin_cluster job
  | .end_cluster _ => .end_cluster job
  | .begin_node _ => .begin_node job
  | .end_node _ => .end_node job
  | .begin_edge _ => .begin_edge job
  | .end_edge _ => .end_edge job
  | .begin_anchor _ href tooltip target => .begin_anchor job href tooltip target
  | .end_anchor _ => .end_anchor job
  | .textpara _ p para => .textpara job p para
  | .ellipse _ A filled => .ellipse job A filled
  | .polygon _ A n filled => .polygon job A n filled
  | .bezier _ A n arrow_at_start arrow_at_end filled =>
    .bezier job A n arrow_at_start arrow_at_end filled
  | .polyline _ A n => .polyline job A n
  | .comment _ str => .comment job str

/-- The same event under the format selector `id`. -/
def Event.with_format (id : format_type) (e : Event α) : Event α :=
  e.with_job { e.job with render_id := id }

/-- The call hands bytes to the sink. -/
def Call.is_write : Call α → Bool
  | .fputs _ => true
  | .printf _ _ => true
  | _ => false

/-- The call opens or finalises the compression transport. -/
def Call.is_transport : Call α → Bool
  | .init_compression _ => true
  | .fini_compression => true
  | _ => false

def Event.is_begin_job : Event α → Bool
  | .begin_job _ => true
  | _ => false

def Event.is_end_graph : Event α → Bool
  | .end_graph _ => true
  | _ => false

/-- The command character and the coordinate pair that a call writes into
path data. -/
def Call.path_item (c : Call α) : Option (Char × pointf α) :=
  match c.pieces with
  | some [Piece.chr ch, Piece.dbl_g x, Piece.text ",", Piece.dbl_g y] =>
    some (ch, { x := x, y := y })
  | _ => none

/-- The command character of the `i`-th point of a path: moveto for point
0, curveto for point 1, and a space, which continues the curveto, after. -/
def path_cmd (i : Nat) : Char :=
  if i = 0 then 'M' else if i = 1 then 'C' else ' '

/-- The radii that a call writes as the attributes `rx` and `ry`. -/
def Call.radii (c : Call α) : Option (α × α) :=
  match c.pieces with
  | some [Piece.text " rx=\"", Piece.dbl_g rx, Piece.text "\" ry=\"", Piece.dbl_g ry,
      Piece.text "\""] => some (rx, ry)
  | _ => none

/-- The name in lower case, letter by letter. -/
def lower (s : String) : List Char :=
  s.toList.map Char.toLower

/-- The string is a C string: no character of it is the terminator 0. -/
def is_c_string (s : String) : Prop :=
  ∀ c ∈ s.toList, c.toNat ≠ 0

/-- An ellipse whose corner (10,0) lies below its centre (0,10). -/
def ex_ellipse_low : Nat → pointf idouble :=
  fun i => if i = 0 then { x := idouble.ofNat 0, y := idouble.ofNat 10 }
    else { x := idouble.ofNat 10, y := idouble.ofNat 0 }

/-- The graph of the example with a stylesheet whose URL holds a quote, an
ampersand and the end of a processing instruction. -/
def ex_graph_sheet : graph_t :=
  { ex_graph with attrs := [("stylesheet", "a\"b&c?>")] }

def ex_job_sheet : GVJ_t idouble :=
  { ex_job with gvc := { g := ex_graph_sheet } }

/-- A text run with an alias record. -/
def ex_para_alias : textpara_t idouble :=
  { str := "a", fontname := "Times-Bold",
    postscript_alias := some { name := "Times-Bold", family := "Times New Roman",
                               weight := some "bold", stretch := none, style := some "italic" }
    fontsize := idouble.ofNat 14, just := 'l' }

/-- The events of the shapes and of text, whose callbacks write colors and
font names. -/
def Event.is_drawing : Event α → Bool
  | .textpara _ _ _ => true
  | .ellipse _ _ _ => true
  | .polygon _ _ _ _ => true
  | .bezier _ _ _ _ _ _ => true
  | .polyline _ _ _ => true
  | _ => false

/-! ## The element structure of the bytes

The lexer run on the characters that are written: here no value is opaque,
a string that the renderer writes as it is takes part in the markup. -/

/-- The tags of a document, when it ends outside of any tag, comment or
declaration. -/
def doc_tags (doc : String) : Option (List Tag) :=
  if (lex .text (doc.toList.map some)).1 = .text then some (lex .text (doc.toList.map some)).2
  else none

/-- Every element that the bytes of the output open is closed, innermost
first, and nothing is open at the end. -/
def BytesBalanced (H : Host α) (sink : Sink α) : Prop :=
  ∃ doc ts, render H sink = some doc ∧ doc_tags doc = some ts ∧ nest [] ts = some []

/-- The string holds none of the characters `<`, `>` and `"`. -/
def markup_free (s : String) : Bool :=
  s.toList.all (fun c => c != '<' && c != '>' && c != '"')

def Piece.is_text : Piece α → Bool
  | Piece.text _ => true
  | _ => false

/-- The values written to the sink, as the strings that stand in the bytes:
numbers as `printf` formats them, the strings passed to `xml_string` as the
escaper returns them, and every other data string as it is. -/
def written_values (H : Host α) (sink : Sink α) : List String :=
  (((pieces sink).getD []).filter (fun p => !p.is_text)).map (Piece.render H)

/-- The states in which a value is data: character data, an attribute value,
a comment and a processing instruction in which no terminator has begun. -/
def Lex.stable : Lex → Bool
  | .text => true
  | .value _ => true
  | .comment 0 => true
  | .pi false => true
  | _ => false

/-- The states that end with a sequence of characters: `-->` and `?>`. -/
def Lex.fragile : Lex → Bool
  | .comment _ => true
  | .pi _ => true
  | _ => false

/-- Follows the lexer through the program text of the pieces and checks where
the values stand: each in a stable state, and a value in a comment or in a
processing instruction followed by program text that does not begin with
`-`, `?` or `>`.  The flag tells that such a value has just been passed. -/
def scan_values : Bool → Lex → List (Piece α) → Option (Bool × Lex)
  | f, st, [] => some (f, st)
  | f, st, Piece.text s :: ps =>
    match s.toList with
    | [] => scan_values f st ps
    | c :: cs =>
      if f && (c == '-' || c == '?' || c == '>') then none
      else scan_values false (lex st ((c :: cs).map some)).1 ps
  | _, st, _ :: ps => if st.stable then scan_values st.fragile st ps else none

/-- The values of the sink `out` stand where they are data, when the lexer
enters `out` in state `st`, and the program text of `out` takes the lexer
to state `st'`. -/
def Quiet (st : Lex) (out : Sink α) (st' : Lex) : Prop :=
  ∃ ps, pieces out = some ps ∧ scan_values false st ps = some (false, st')

/-- A text run whose font name holds a quote and markup, and whose text
holds a `<`. -/
def ex_para_markup : textpara_t idouble :=
  { str := "a<b", fontname := "x\"><g>", postscript_alias := none,
    fontsize := idouble.ofNat 14, just := 'n' }

/-- Document-begin, Graph-begin, Page-begin, Node-begin, a text run,
Node-end, Page-end, Graph-end. -/
def text_scenario (para : textpara_t idouble) : List (Event idouble) :=
  [.begin_job ex_job, .begin_graph ex_job, .begin_page ex_job, .begin_node ex_job,
    .textpara ex_job { x := idouble.ofNat 0, y := idouble.ofNat 0 } para,
    .end_node ex_job, .end_page ex_job, .end_graph ex_job]

/-- How the lexer on the bytes, in state `sb`, stands to the lexer on the
markup, in state `sm`: in the same state, or, when a value in a comment or in
a processing instruction has just been passed (`f`), in a state of the same
comment or instruction. -/
def Lex.follows (f : Bool) (sb sm : Lex) : Prop :=
  if f then ((∃ k, sb = .comment k) ∧ sm = .comment 0) ∨ ((∃ q, sb = .pi q) ∧ sm = .pi false)
  else sb = sm

/-! ## Properties

Every callback only appends to the sink: what it appends is its output. -/

section basics

variable {α : Type}

theorem appends_unique {m : Emit α Unit} {a b : Sink α} (ha : Appends m a) (hb : Appends m b) :
    a = b := by
  have h := (ha []).symm.trans (hb [])
  simpa using h

theorem appends_pure : Appends (pure () : Emit α Unit) [] := by
  intro sink
  simp

theorem appends_fputs (job : GVJ_t α) (s : char_p) :
    Appends (core_fputs job s) [Call.fputs s] := by
  intro sink
  simp [core_fputs]

theorem appends_printf (job : GVJ_t α) (fmt : String) (args : List (Arg α)) :
    Appends (core_printf job fmt args) [Call.printf fmt args] := by
  intro sink
  simp [core_printf]

theorem appends_init (job : GVJ_t α) (c : compression_t) :
    Appends (core_init_compression job c) [Call.init_compression c] := by
  intro sink
  simp [core_init_compression]

theorem appends_fini (job : GVJ_t α) :
    Appends (core_fini_compression job) [Call.fini_compression] := by
  intro sink
  simp [core_fini_compression]

theorem appends_bind {m : Emit α Unit} {n : Unit → Emit α Unit} {a b : Sink α}
    (hm : Appends m a) (hn : Appends (n ()) b) : Appends (m >>= n) (a ++ b) := by
  intro sink
  simp [StateT.run_bind, hm sink, hn (sink ++ a), List.append_assoc]

theorem appends_ite {c : Prop} [Decidable c] {m n : Emit α Unit} {a b : Sink α}
    (hm : c → Appends m a) (hn : ¬ c → Appends n b) :
    Appends (if c then m else n) (if c then a else b) := by
  by_cases h : c
  · simpa [h] using hm h
  · simpa [h] using hn h

end basics

section outputs

variable {α : Type}

theorem Appends.bind {m : Emit α Unit} {n : Unit → Emit α Unit} {a b : Sink α}
    (hm : Appends m a) (hn : Appends (n ()) b) : Appends (m >>= n) (a ++ b) :=
  appends_bind hm hn

theorem Appends.cast {m : Emit α Unit} {a b : Sink α} (h : Appends m a) (e : a = b) :
    Appends m b :=
  e ▸ h

theorem run_printf (job : GVJ_t α) (fmt : String) (args : List (Arg α)) (sink : Sink α) :
    (core_printf job fmt args).run sink = some ((), sink ++ [Call.printf fmt args]) :=
  appends_printf job fmt args sink

theorem appends_print_color (job : GVJ_t α) (c : gvcolor_t) (h : c ≠ .other) :
    Appends (svg_print_color job c) (color_out c) := by
  cases c with
  | COLOR_STRING s => exact appends_fputs job _
  | RGBA_BYTE r g b a =>
    unfold svg_print_color color_out
    exact appends_ite (fun _ => appends_fputs job _) (fun _ => appends_printf job _ _)
  | other => exact absurd rfl h

theorem print_color_other (job : GVJ_t α) (sink : Sink α) :
    (svg_print_color job .other).run sink = none := by
  simp [svg_print_color, assert]
  rfl

theorem appends_anchor_attr (job : GVJ_t α) (fmt : String) (v : Option String) :
    Appends (match v with
      | some v => if v ≠ "" then core_printf job fmt [.str (.xml_string v)] else pure ()
      | none => (pure () : Emit α Unit)) (anchor_attr_out fmt v) := by
  cases v with
  | none => exact appends_pure
  | some v => exact appends_ite (fun _ => appends_printf job fmt _) (fun _ => appends_pure)

theorem appends_opt_printf (job : GVJ_t α) (fmt : String) (v : Option String) :
    Appends (match v with
      | some v => core_printf job fmt [.str (.var v)]
      | none => (pure () : Emit α Unit))
      (opt_printf_out fmt v) := by
  cases v with
  | none => exact appends_pure
  | some v => exact appends_printf job fmt _

variable [CDouble α] [Consts α]

theorem appends_grstyle (job : GVJ_t α) (filled : Int) (h : grstyle_ok job filled) :
    Appends (svg_grstyle job filled) (grstyle_out job filled) := by
  unfold svg_grstyle
  exact ((appends_fputs job _).bind <|
    (appends_ite (fun hz => appends_print_color job _ (h.2 hz))
      (fun _ => appends_fputs job _)).bind <|
    (appends_fputs job _).bind <|
    (appends_print_color job _ h.1).bind <|
    (appends_ite (fun _ => appends_printf job _ _) (fun _ => appends_pure)).bind <|
    (appends_ite (fun _ => appends_printf job _ _)
      (fun _ => appends_ite (fun _ => appends_printf job _ _) (fun _ => appends_pure))).bind <|
    appends_fputs job _).cast (by simp [grstyle_out])

omit [Consts α] in
theorem points_loop_run (job : GVJ_t α) (A : Nat → pointf α) (k i : Nat) (sink : Sink α) :
    (for_loop (fun i (_ : Unit) =>
        core_printf job "%g,%g " [.double (A i).x, .double (-(A i).y)]) i k ()).run sink
      = some ((), sink ++ points_out A i k) := by
  induction k generalizing i sink with
  | zero => simp [for_loop, points_out]
  | succ k ih => simp [for_loop, points_out, run_printf, ih]

omit [Consts α] in
theorem bzpt_loop_run (job : GVJ_t α) (A : Nat → pointf α) (k i : Nat) (c : Char)
    (sink : Sink α) :
    ∃ c', (for_loop (fun i c => do
        core_printf job "%c%g,%g" [.char c, .double (A i).x, .double (-(A i).y)]
        if i = 0 then
          pure 'C'
        else
          pure ' ') i k c).run sink = some (c', sink ++ bzpt_out A i k c) := by
  induction k generalizing i sink c with
  | zero => exact ⟨c, by simp [for_loop, bzpt_out]⟩
  | succ k ih =>
    obtain ⟨c', h⟩ := ih (i + 1) (if i = 0 then 'C' else ' ') (sink ++ [Call.printf "%c%g,%g"
      [.char c, .double (A i).x, .double (-(A i).y)]])
    refine ⟨c', ?_⟩
    by_cases hi : i = 0
    · subst hi
      simp only [if_true] at h
      simp [for_loop, bzpt_out, run_printf, h]
    · simp only [hi, if_false] at h
      simp [for_loop, bzpt_out, run_printf, hi, h]

omit [Consts α] in
theorem appends_bzptarray (job : GVJ_t α) (A : Nat → pointf α) (n : Int) :
    Appends (svg_bzptarray job A n) (bzpt_out A 0 n.toNat 'M') := by
  intro sink
  obtain ⟨c', h⟩ := bzpt_loop_run job A n.toNat 0 'M' sink
  simp [svg_bzptarray, h]

end outputs

section events

variable {α : Type} [CDouble α] [Consts α]

theorem appends_begin_job (job : GVJ_t α) :
    Appends (svg_begin_job job) (event_out (.begin_job job)) := by
  have hinit : Appends (match job.render_id with
      | .FORMAT_SVGZ => core_init_compression job .COMPRESSION_ZLIB
      | .FORMAT_SVG => core_init_compression job .COMPRESSION_NONE)
      [Call.init_compression (compression_of job.render_id)] := by
    cases job.render_id <;> exact appends_init job _
  have hsheet : Appends (match agget job.gvc.g "stylesheet" with
      | some s =>
        if s ≠ "" then do
          core_fputs job (.lit "<?xml-stylesheet href=\"")
          core_fputs job (.var s)
          core_fputs job (.lit "\" type=\"text/css\"?>\n")
        else
          pure ()
      | none => pure ()) (stylesheet_out job) := by
    unfold stylesheet_out
    cases agget job.gvc.g "stylesheet" with
    | none => exact appends_pure
    | some s =>
      exact appends_ite (fun _ => ((appends_fputs job _).bind <| (appends_fputs job _).bind <|
        appends_fputs job _)) (fun _ => appends_pure)
  unfold svg_begin_job
  exact (hinit.bind <| (appends_fputs job _).bind <| hsheet.bind <|
    (appends_fputs job _).bind <| (appends_fputs job _).bind <| (appends_fputs job _).bind <|
    (appends_fputs job _).bind <| (appends_fputs job _).bind <| (appends_fputs job _).bind <|
    (appends_fputs job _).bind <| (appends_fputs job _).bind <| (appends_fputs job _).bind <|
    (appends_fputs job _).bind <| (appends_fputs job _).bind <|
    appends_fputs job _).cast (by simp [event_out])

theorem appends_begin_graph (job : GVJ_t α) :
    Appends (svg_begin_graph job) (event_out (.begin_graph job)) := by
  unfold svg_begin_graph
  exact ((appends_fputs job _).bind <|
    (appends_ite (fun _ => (appends_fputs job _).bind (appends_fputs job _))
      (fun _ => appends_pure)).bind <|
    (appends_printf job _ _).bind <| (appends_printf job _ _).bind <|
    (appends_printf job _ _).bind <| (appends_fputs job _).bind <|
    (appends_fputs job _).bind <| appends_fputs job _).cast (by simp [event_out])

theorem appends_begin_page (job : GVJ_t α) :
    Appends (svg_begin_page job) (event_out (.begin_page job)) := by
  unfold svg_begin_page
  exact ((appends_printf job _ _).bind <| (appends_printf job _ _).bind <|
    appends_ite (fun _ => (appends_fputs job _).bind <| (appends_fputs job _).bind <|
        appends_fputs job _)
      (fun _ => appends_pure)).cast (by simp [event_out])

theorem appends_textpara (job : GVJ_t α) (p : pointf α) (para : textpara_t α)
    (h : job.obj.pencolor ≠ .other) :
    Appends (svg_textpara job p para) (event_out (.textpara job p para)) := by
  have hjust : Appends
      (if para.just = 'l' then core_fputs job (.lit " text-anchor=\"start\"")
        else if para.just = 'r' then core_fputs job (.lit " text-anchor=\"end\"")
        else core_fputs job (.lit " text-anchor=\"middle\""))
      [Call.fputs (if para.just = 'l' then .lit " text-anchor=\"start\""
          else if para.just = 'r' then .lit " text-anchor=\"end\""
          else .lit " text-anchor=\"middle\"")] := by
    split_ifs <;> exact appends_fputs job _
  have hfill : Appends
      (match job.obj.pencolor with
        | .COLOR_STRING string =>
          if strcasecmp string "black" ≠ 0 then
            core_printf job "fill:%s;" [.str (.var string)]
          else pure ()
        | .RGBA_BYTE r g b _ =>
          core_printf job "fill:#%02x%02x%02x;" [.uint r, .uint g, .uint b]
        | .other => assert false) (text_fill_out job) := by
    unfold text_fill_out
    cases hc : job.obj.pencolor with
    | COLOR_STRING s => exact appends_ite (fun _ => appends_printf job _ _) (fun _ => appends_pure)
    | RGBA_BYTE r g b a => exact appends_printf job _ _
    | other => exact absurd hc h
  have hfont : Appends
      (match para.postscript_alias with
        | some pA => do
          let fws : String × Option String × Option String :=
            match GD_fontnames job.gvc.g with
            | .PSFONTS => (pA.name, pA.weight, pA.style)
            | .NATIVEFONTS => (pA.family, pA.weight, pA.style)
            | .SVGFONTS => (pA.family, pA.weight, pA.style)
          let family := fws.1
          let weight := fws.2.1
          let style := fws.2.2
          let stretch := pA.stretch
          core_printf job "font-family:%s;" [.str (.var family)]
          (match weight with
          | some weight => core_printf job "font-weight:%s;" [.str (.var weight)]
          | none => pure ())
          (match stretch with
          | some stretch => core_printf job "font-stretch:%s;" [.str (.var stretch)]
          | none => pure ())
          (match style with
          | some style => core_printf job "font-style:%s;" [.str (.var style)]
          | none => pure ())
        | none =>
          core_printf job "font-family:%s;" [.str (.var para.fontname)]) (font_out job para) := by
    unfold font_out
    cases para.postscript_alias with
    | none => exact appends_printf job _ _
    | some pA =>
      cases GD_fontnames job.gvc.g <;>
        exact ((appends_printf job _ _).bind <| (appends_opt_printf job _ _).bind <|
          (appends_opt_printf job _ _).bind <| appends_opt_printf job _ _).cast (by simp)
  unfold svg_textpara
  exact ((appends_fputs job _).bind <| hjust.bind <| (appends_printf job _ _).bind <|
    (appends_fputs job _).bind <| hfont.bind <| (appends_printf job _ _).bind <|
    hfill.bind <| (appends_fputs job _).bind <| (appends_fputs job _).bind <|
    appends_fputs job _).cast (by simp [event_out])

theorem appends_event (e : Event α) (h : e.ok) : Appends (svg_engine e) (event_out e) := by
  cases e with
  | begin_job job => exact appends_begin_job job
  | begin_graph job => exact appends_begin_graph job
  | end_graph job => exact (appends_fputs job _).bind (appends_fini job)
  | begin_layer job layername layerNum numLayers =>
    exact (appends_fputs job _).bind <| (appends_fputs job _).bind <| appends_fputs job _
  | end_layer job => exact appends_fputs job _
  | begin_page job => exact appends_begin_page job
  | end_page job => exact appends_fputs job _
  | begin_cluster job =>
    exact (appends_printf job _ _).bind <| (appends_fputs job _).bind <|
      (appends_fputs job _).bind <| appends_fputs job _
  | end_cluster job => exact appends_fputs job _
  | begin_node job =>
    exact (appends_printf job _ _).bind <| (appends_fputs job _).bind <|
      (appends_fputs job _).bind <| appends_fputs job _
  | end_node job => exact appends_fputs job _
  | begin_edge job =>
    exact (appends_printf job _ _).bind <| (appends_fputs job _).bind <|
      (appends_fputs job _).bind <| (appends_fputs job _).bind <|
      (appends_fputs job _).bind <| appends_fputs job _
  | end_edge job => exact appends_fputs job _
  | begin_anchor job href tooltip target =>
    exact ((appends_fputs job _).bind <| (appends_anchor_attr job _ href).bind <|
      (appends_anchor_attr job _ tooltip).bind <| (appends_anchor_attr job _ target).bind <|
      appends_fputs job _).cast (by simp [event_out])
  | end_anchor job => exact appends_fputs job _
  | textpara job p para => exact appends_textpara job p para h
  | ellipse job A filled =>
    exact ((appends_fputs job _).bind <| (appends_grstyle job filled h).bind <|
      (appends_printf job _ _).bind <| (appends_printf job _ _).bind <|
      appends_fputs job _).cast (by simp [event_out])
  | polygon job A n filled =>
    exact ((appends_fputs job _).bind <| (appends_grstyle job filled h).bind <|
      (appends_fputs job _).bind <| (Appends.bind (points_loop_run job A n.toNat 0) <|
      (appends_printf job _ _).bind <| appends_fputs job _)).cast (by simp [event_out])
  | bezier job A n arrow_at_start arrow_at_end filled =>
    exact ((appends_fputs job _).bind <| (appends_grstyle job filled h).bind <|
      (appends_fputs job _).bind <| (appends_bzptarray job A n).bind <|
      appends_fputs job _).cast (by simp [event_out])
  | polyline job A n =>
    exact ((appends_fputs job _).bind <| (appends_grstyle job 0 h).bind <|
      (appends_fputs job _).bind <| (Appends.bind (points_loop_run job A n.toNat 0) <|
      appends_fputs job _)).cast (by simp [event_out])
  | comment job str =>
    exact (appends_fputs job _).bind <| (appends_fputs job _).bind <| appends_fputs job _

theorem appends_run_events (es : List (Event α)) (h : ∀ e ∈ es, e.ok) :
    Appends (run_events es) (run_out es) := by
  induction es with
  | nil => exact appends_pure
  | cons e es ih =>
    exact (appends_event e (h e (List.mem_cons_self e es))).bind
      (ih (fun e' he' => h e' (List.mem_cons_of_mem e he')))

end events

section scanning

variable {α : Type}

theorem pieces_append (a b : Sink α) :
    pieces (a ++ b) = (pieces a).bind (fun pa => (pieces b).map (fun pb => pa ++ pb)) := by
  induction a with
  | nil => cases h : pieces b <;> simp [pieces, h]
  | cons c cs ih =>
    rw [List.cons_append, pieces, pieces, ih]
    cases c.pieces <;> cases pieces cs <;> cases pieces b <;> simp

theorem items_append (a b : List (Piece α)) : items (a ++ b) = items a ++ items b := by
  induction a with
  | nil => rfl
  | cons p ps ih => simp [items, ih]

theorem lex_append (st : Lex) (a b : List (Option Char)) :
    lex st (a ++ b) = ((lex (lex st a).1 b).1, (lex st a).2 ++ (lex (lex st a).1 b).2) := by
  induction a generalizing st with
  | nil => simp [lex]
  | cons c cs ih => simp [lex, ih]

theorem scans_nil (st : Lex) : Scans st ([] : Sink α) st [] :=
  ⟨[], rfl, rfl⟩

theorem Scans.append {st st1 st2 : Lex} {a b : Sink α} {t1 t2 : List Tag}
    (ha : Scans st a st1 t1) (hb : Scans st1 b st2 t2) : Scans st (a ++ b) st2 (t1 ++ t2) := by
  obtain ⟨ma, hma, hla⟩ := ha
  obtain ⟨mb, hmb, hlb⟩ := hb
  refine ⟨ma ++ mb, ?_, ?_⟩
  · simp only [markup] at hma hmb ⊢
    rw [pieces_append]
    cases hpa : pieces a with
    | none => simp [hpa] at hma
    | some pa =>
      cases hpb : pieces b with
      | none => simp [hpb] at hmb
      | some pb =>
        simp [hpa, hpb] at hma hmb ⊢
        rw [items_append, hma, hmb]
  · rw [lex_append, hla, hlb]

theorem Scans.relabel {st st' : Lex} {a b : Sink α} {ts ts' : List Tag}
    (h : Scans st a st' ts) (ea : a = b) (et : ts = ts') : Scans st b st' ts' := by
  subst ea et
  exact h

theorem Scans.unique {st st1 st2 : Lex} {a : Sink α} {t1 t2 : List Tag}
    (h1 : Scans st a st1 t1) (h2 : Scans st a st2 t2) : st1 = st2 ∧ t1 = t2 := by
  obtain ⟨m1, hm1, hl1⟩ := h1
  obtain ⟨m2, hm2, hl2⟩ := h2
  have hm : m1 = m2 := Option.some.inj (hm1.symm.trans hm2)
  subst hm
  have := hl1.symm.trans hl2
  simpa using this

theorem tags_of_scans {a : Sink α} {ts : List Tag} (h : Scans .text a .text ts) :
    tags a = some ts := by
  obtain ⟨m, hm, hl⟩ := h
  simp [tags, hm, hl]

theorem scans_of_tags {a : Sink α} {ts : List Tag} (h : tags a = some ts) :
    Scans .text a .text ts := by
  unfold tags at h
  cases hm : markup a with
  | none => simp [hm] at h
  | some m =>
    simp only [hm] at h
    by_cases hs : (lex .text m).1 = .text
    · simp only [hs, if_true, Option.some.injEq] at h
      exact ⟨m, hm, Prod.ext hs h⟩
    · simp [hs] at h

end scanning

section event_tags

variable {α : Type}

theorem color_scans (n : List Char) (c : gvcolor_t) :
    Scans (.value n) (color_out c : Sink α) (.value n) [] := by
  cases c with
  | COLOR_STRING s => exact ⟨_, rfl, rfl⟩
  | RGBA_BYTE r g b a =>
    by_cases ha : a = 0
    · simp only [color_out, ha, if_true]
      exact ⟨_, rfl, rfl⟩
    · simp only [color_out, ha, if_false]
      exact ⟨_, rfl, rfl⟩
  | other => exact scans_nil _

theorem opt_printf_scans (n : List Char) (v : Option String) :
    Scans (.value n) (opt_printf_out "font-weight:%s;" v : Sink α) (.value n) []
    ∧ Scans (.value n) (opt_printf_out "font-stretch:%s;" v : Sink α) (.value n) []
    ∧ Scans (.value n) (opt_printf_out "font-style:%s;" v : Sink α) (.value n) [] := by
  cases v with
  | none => exact ⟨scans_nil _, scans_nil _, scans_nil _⟩
  | some v => exact ⟨⟨_, rfl, rfl⟩, ⟨_, rfl, rfl⟩, ⟨_, rfl, rfl⟩⟩

theorem font_scans (n : List Char) (job : GVJ_t α) (para : textpara_t α) :
    Scans (.value n) (font_out job para) (.value n) [] := by
  unfold font_out
  cases para.postscript_alias with
  | none => exact ⟨_, rfl, rfl⟩
  | some pA =>
    have h1 : Scans (.value n) ([Call.printf "font-family:%s;"
        [.str (.var (match GD_fontnames job.gvc.g with
          | .PSFONTS => pA.name
          | .NATIVEFONTS => pA.family
          | .SVGFONTS => pA.family))]] : Sink α) (.value n) [] := ⟨_, rfl, rfl⟩
    exact ((h1.append (opt_printf_scans n pA.weight).1).append
      (opt_printf_scans n pA.stretch).2.1).append (opt_printf_scans n pA.style).2.2

theorem text_fill_scans (n : List Char) (job : GVJ_t α) :
    Scans (.value n) (text_fill_out job) (.value n) [] := by
  unfold text_fill_out
  cases job.obj.pencolor with
  | COLOR_STRING s =>
    by_cases hb : strcasecmp s "black" = 0
    · simp only [hb, ne_eq, not_true_eq_false, if_false]
      exact scans_nil _
    · simp only [hb, ne_eq, not_false_eq_true, if_true]
      exact ⟨_, rfl, rfl⟩
  | RGBA_BYTE r g b a => exact ⟨_, rfl, rfl⟩
  | other => exact scans_nil _

variable [CDouble α] [Consts α]

omit [Consts α] in
theorem points_scans (n : List Char) (A : Nat → pointf α) (k i : Nat) :
    Scans (.value n) (points_out A i k) (.value n) [] := by
  induction k generalizing i with
  | zero => exact scans_nil _
  | succ k ih =>
    have h1 : Scans (.value n) ([Call.printf "%g,%g "
        [.double (A i).x, .double (-(A i).y)]] : Sink α) (.value n) [] := ⟨_, rfl, rfl⟩
    exact (h1.append (ih (i + 1))).relabel rfl rfl

omit [Consts α] in
theorem bzpt_scans (n : List Char) (A : Nat → pointf α) (k i : Nat) (c : Char) :
    Scans (.value n) (bzpt_out A i k c) (.value n) [] := by
  induction k generalizing i c with
  | zero => exact scans_nil _
  | succ k ih =>
    have h1 : Scans (.value n) ([Call.printf "%c%g,%g"
        [.char c, .double (A i).x, .double (-(A i).y)]] : Sink α) (.value n) [] := ⟨_, rfl, rfl⟩
    exact (h1.append (ih (i + 1) _)).relabel rfl rfl

theorem grstyle_scans (n : List Char) (job : GVJ_t α) (filled : Int) :
    Scans (.name n) (grstyle_out job filled) (.attrs n) [] := by
  have h1 : Scans (.name n) ([Call.fputs (.lit " style=\"fill:")] : Sink α) (.value n) [] :=
    ⟨_, rfl, rfl⟩
  have h2 : Scans (.value n)
      (if filled ≠ 0 then color_out job.obj.fillcolor else [Call.fputs (.lit "none")] : Sink α)
      (.value n) [] := by
    by_cases hz : filled = 0
    · simp only [hz, ne_eq, not_true_eq_false, if_false]
      exact ⟨_, rfl, rfl⟩
    · simp only [hz, ne_eq, not_false_eq_true, if_true]
      exact color_scans n _
  have h3 : Scans (.value n) ([Call.fputs (.lit ";stroke:")] : Sink α) (.value n) [] :=
    ⟨_, rfl, rfl⟩
  have h4 : Scans (.value n)
      (if CDouble.ne job.obj.penwidth PENWIDTH_NORMAL then
          [Call.printf ";stroke-width:%g" [.double job.obj.penwidth]] else [] : Sink α)
      (.value n) [] := by
    split_ifs
    · exact ⟨_, rfl, rfl⟩
    · exact scans_nil _
  have h5 : Scans (.value n)
      (if job.obj.pen = .PEN_DASHED then [Call.printf ";stroke-dasharray:%s" [.str sdarray]]
        else if job.obj.pen = .PEN_DOTTED then
          [Call.printf ";stroke-dasharray:%s" [.str sdotarray]]
        else [] : Sink α)
      (.value n) [] := by
    split_ifs
    · exact ⟨_, rfl, rfl⟩
    · exact ⟨_, rfl, rfl⟩
    · exact scans_nil _
  have h6 : Scans (.value n) ([Call.fputs (.lit ";\"")] : Sink α) (.attrs n) [] :=
    ⟨_, rfl, rfl⟩
  exact ((((((h1.append h2).append h3).append (color_scans n _)).append h4).append h5).append
    h6).relabel rfl rfl

theorem anchor_scans (job : GVJ_t α) (href tooltip target : Option String) :
    Scans .text (event_out (.begin_anchor job href tooltip target)) .text [Tag.start "a"] := by
  have key : ∀ (st : Lex) (fmt : String) (v : Option String),
      (st = .name ['a'] ∨ st = .attrs ['a']) →
      (fmt = " xlink:href=\"%s\"" ∨ fmt = " xlink:title=\"%s\"" ∨ fmt = " target=\"%s\"") →
      ∃ st', (st' = .name ['a'] ∨ st' = .attrs ['a']) ∧
        Scans st (anchor_attr_out fmt v : Sink α) st' [] := by
    intro st fmt v hst hfmt
    cases v with
    | none => exact ⟨st, hst, scans_nil _⟩
    | some v =>
      by_cases hv : v = ""
      · refine ⟨st, hst, ?_⟩
        simp only [anchor_attr_out, hv, ne_eq, not_true_eq_false, if_false]
        exact scans_nil _
      · refine ⟨.attrs ['a'], Or.inr rfl, ?_⟩
        simp only [anchor_attr_out, hv, ne_eq, not_false_eq_true, if_true]
        rcases hst with rfl | rfl <;> rcases hfmt with rfl | rfl | rfl <;> exact ⟨_, rfl, rfl⟩
  have h0 : Scans .text ([Call.fputs (.lit "<a")] : Sink α) (.name ['a']) [] := ⟨_, rfl, rfl⟩
  obtain ⟨s1, hs1, k1⟩ := key (.name ['a']) " xlink:href=\"%s\"" href (Or.inl rfl) (Or.inl rfl)
  obtain ⟨s2, hs2, k2⟩ := key s1 " xlink:title=\"%s\"" tooltip hs1 (Or.inr (Or.inl rfl))
  obtain ⟨s3, hs3, k3⟩ := key s2 " target=\"%s\"" target hs2 (Or.inr (Or.inr rfl))
  have h4 : Scans s3 ([Call.fputs (.lit ">\n")] : Sink α) .text [Tag.start "a"] := by
    rcases hs3 with rfl | rfl <;> exact ⟨_, rfl, rfl⟩
  exact ((((h0.append k1).append k2).append k3).append h4).relabel rfl rfl

set_option maxRecDepth 20000 in
theorem event_scans (e : Event α) : Scans .text (event_out e) .text (event_tags e) := by
  cases e with
  | begin_job job =>
    have h1 : Scans .text ([Call.init_compression (compression_of job.render_id),
        Call.fputs (.lit "<?xml version=\"1.0\" encoding=\"UTF-8\" standalone=\"no\"?>\n")]
        : Sink α) .text [] := ⟨_, rfl, rfl⟩
    have h2 : Scans .text (stylesheet_out job) .text [] := by
      unfold stylesheet_out
      cases agget job.gvc.g "stylesheet" with
      | none => exact scans_nil _
      | some s =>
        by_cases hs : s = ""
        · simp only [hs, ne_eq, not_true_eq_false, if_false]
          exact scans_nil _
        · simp only [hs, ne_eq, not_false_eq_true, if_true]
          exact ⟨_, rfl, rfl⟩
    have h3 : Scans .text
        ([Call.fputs (.lit "<!DOCTYPE svg PUBLIC \"-//W3C//DTD SVG 1.0//EN\"\n"),
          Call.fputs (.lit " \"http://www.w3.org/TR/2001/REC-SVG-20010904/DTD/svg10.dtd\""),
          Call.fputs (.lit " [\n <!ATTLIST svg xmlns:xlink CDATA #FIXED \"http://www.w3.org/1999/xlink\">\n]"),
          Call.fputs (.lit ">\n<!-- Generated by "),
          Call.fputs (.xml_string (job.common.info 0)),
          Call.fputs (.lit " version "),
          Call.fputs (.xml_string (job.common.info 1)),
          Call.fputs (.lit " ("),
          Call.fputs (.xml_string (job.common.info 2)),
          Call.fputs (.lit ")\n     For user: "),
          Call.fputs (.xml_string job.common.user),
          Call.fputs (.lit " -->\n")] : Sink α) .text [] := ⟨_, rfl, rfl⟩
    exact ((h1.append h2).append h3).relabel rfl rfl
  | begin_graph job =>
    by_cases hn : job.obj.u.g.name = ""
    · simp only [event_out, hn, ne_eq, not_true_eq_false, if_false]
      exact ⟨_, rfl, rfl⟩
    · simp only [event_out, hn, ne_eq, not_false_eq_true, if_true]
      exact ⟨_, rfl, rfl⟩
  | end_graph job => exact ⟨_, rfl, rfl⟩
  | begin_layer job layername layerNum numLayers => exact ⟨_, rfl, rfl⟩
  | end_layer job => exact ⟨_, rfl, rfl⟩
  | begin_page job =>
    by_cases hn : job.obj.u.g.name = ""
    · simp only [event_out, event_tags, hn, ne_eq, not_true_eq_false, if_false]
      exact ⟨_, rfl, rfl⟩
    · simp only [event_out, event_tags, hn, ne_eq, not_false_eq_true, if_true]
      exact ⟨_, rfl, rfl⟩
  | end_page job => exact ⟨_, rfl, rfl⟩
  | begin_cluster job => exact ⟨_, rfl, rfl⟩
  | end_cluster job => exact ⟨_, rfl, rfl⟩
  | begin_node job => exact ⟨_, rfl, rfl⟩
  | end_node job => exact ⟨_, rfl, rfl⟩
  | begin_edge job =>
    by_cases hd : job.obj.u.e.tail.graph.root_kind &&& (AGFLAG_DIRECTED α) = 0
    · simp only [event_out, hd, ne_eq, not_true_eq_false, if_false]
      exact ⟨_, rfl, rfl⟩
    · simp only [event_out, hd, ne_eq, not_false_eq_true, if_true]
      exact ⟨_, rfl, rfl⟩
  | end_edge job => exact ⟨_, rfl, rfl⟩
  | begin_anchor job href tooltip target => exact anchor_scans job href tooltip target
  | end_anchor job => exact ⟨_, rfl, rfl⟩
  | textpara job p para =>
    have h1 : Scans .text ([Call.fputs (.lit "<text"),
        Call.fputs (if para.just = 'l' then .lit " text-anchor=\"start\""
          else if para.just = 'r' then .lit " text-anchor=\"end\""
          else .lit " text-anchor=\"middle\""),
        Call.printf " x=\"%g\" y=\"%g\"" [.double p.x, .double (-p.y)],
        Call.fputs (.lit " style=\"")] : Sink α) (.value "txet".toList) [] := by
      split_ifs <;> exact ⟨_, rfl, rfl⟩
    have h2 : Scans (.value "txet".toList)
        ([Call.printf "font-size:%.2f;" [.double para.fontsize]] : Sink α)
        (.value "txet".toList) [] := ⟨_, rfl, rfl⟩
    have h3 : Scans (.value "txet".toList) ([Call.fputs (.lit "\">"),
        Call.fputs (.xml_string para.str), Call.fputs (.lit "</text>\n")] : Sink α)
        .text [Tag.start "text", Tag.stop "text"] := ⟨_, rfl, rfl⟩
    exact ((((h1.append (font_scans _ job para)).append h2).append
      (text_fill_scans _ job)).append h3).relabel rfl rfl
  | ellipse job A filled =>
    have h1 : Scans .text ([Call.fputs (.lit "<ellipse")] : Sink α)
        (.name "espille".toList) [] := ⟨_, rfl, rfl⟩
    have h3 : Scans (.attrs "espille".toList)
        ([Call.printf " cx=\"%g\" cy=\"%g\"" [.double (A 0).x, .double (-(A 0).y)],
          Call.printf " rx=\"%g\" ry=\"%g\""
            [.double ((A 1).x - (A 0).x), .double ((A 1).y - (A 0).y)],
          Call.fputs (.lit "/>\n")] : Sink α) .text [Tag.empty "ellipse"] := ⟨_, rfl, rfl⟩
    exact ((h1.append (grstyle_scans _ job filled)).append h3).relabel rfl rfl
  | polygon job A n filled =>
    have h1 : Scans .text ([Call.fputs (.lit "<polygon")] : Sink α)
        (.name "nogylop".toList) [] := ⟨_, rfl, rfl⟩
    have h3 : Scans (.attrs "nogylop".toList) ([Call.fputs (.lit " points=\"")] : Sink α)
        (.value "nogylop".toList) [] := ⟨_, rfl, rfl⟩
    have h5 : Scans (.value "nogylop".toList)
        ([Call.printf "%g,%g" [.double (A 0).x, .double (-(A 0).y)],
          Call.fputs (.lit "\"/>\n")] : Sink α) .text [Tag.empty "polygon"] := ⟨_, rfl, rfl⟩
    exact ((((h1.append (grstyle_scans _ job filled)).append h3).append
      (points_scans _ A n.toNat 0)).append h5).relabel rfl rfl
  | bezier job A n arrow_at_start arrow_at_end filled =>
    have h1 : Scans .text ([Call.fputs (.lit "<path")] : Sink α)
        (.name "htap".toList) [] := ⟨_, rfl, rfl⟩
    have h3 : Scans (.attrs "htap".toList) ([Call.fputs (.lit " d=\"")] : Sink α)
        (.value "htap".toList) [] := ⟨_, rfl, rfl⟩
    have h5 : Scans (.value "htap".toList) ([Call.fputs (.lit "\"/>\n")] : Sink α)
        .text [Tag.empty "path"] := ⟨_, rfl, rfl⟩
    exact ((((h1.append (grstyle_scans _ job filled)).append h3).append
      (bzpt_scans _ A n.toNat 0 'M')).append h5).relabel rfl rfl
  | polyline job A n =>
    have h1 : Scans .text ([Call.fputs (.lit "<polyline")] : Sink α)
        (.name "enilylop".toList) [] := ⟨_, rfl, rfl⟩
    have h3 : Scans (.attrs "enilylop".toList) ([Call.fputs (.lit " points=\"")] : Sink α)
        (.value "enilylop".toList) [] := ⟨_, rfl, rfl⟩
    have h5 : Scans (.value "enilylop".toList) ([Call.fputs (.lit "\"/>\n")] : Sink α)
        .text [Tag.empty "polyline"] := ⟨_, rfl, rfl⟩
    exact ((((h1.append (grstyle_scans _ job 0)).append h3).append
      (points_scans _ A n.toNat 0)).append h5).relabel rfl rfl
  | comment job str => exact ⟨_, rfl, rfl⟩

end event_tags

section nesting

variable {α : Type}

theorem nest_append (s : List String) (a b : List Tag) :
    nest s (a ++ b) = (nest s a).bind (fun s' => nest s' b) := by
  induction a generalizing s with
  | nil => simp [nest]
  | cons t ts ih =>
    cases t with
    | start n => simp [nest, ih]
    | empty n => simp [nest, ih]
    | stop n =>
      cases s with
      | nil => simp [nest]
      | cons m s =>
        by_cases h : m = n <;> simp [nest, ih, h]

theorem nest_event_opens (e : Event α) (k : Elem) (h : e.role = .opens k) :
    ∃ inner, event_tags e = Tag.start k.tag :: inner ∧ ∀ s, nest s inner = some s := by
  cases e <;> simp only [Event.role, Role.opens.injEq] at h <;> try exact absurd h (by simp)
  all_goals subst h
  case begin_page job =>
    by_cases hn : job.obj.u.g.name = ""
    · exact ⟨[], by simp [event_tags, hn, Elem.tag], fun s => by simp [nest]⟩
    · exact ⟨[Tag.start "title", Tag.stop "title"], by simp [event_tags, hn, Elem.tag],
        fun s => by simp [nest]⟩
  case begin_graph job => exact ⟨[], rfl, fun s => by simp [nest]⟩
  case begin_layer job a b c => exact ⟨[], rfl, fun s => by simp [nest]⟩
  case begin_anchor job a b c => exact ⟨[], rfl, fun s => by simp [nest]⟩
  all_goals exact ⟨[Tag.start "title", Tag.stop "title"], rfl, fun s => by simp [nest]⟩

theorem nest_event_closes (e : Event α) (k : Elem) (h : e.role = .closes k) :
    event_tags e = [Tag.stop k.tag] := by
  cases e <;> simp only [Event.role, Role.closes.injEq] at h <;> try exact absurd h (by simp)
  all_goals subst h
  all_goals rfl

theorem nest_event_leaf (e : Event α) (h : e.role = .leaf) (s : List String) :
    nest s (event_tags e) = some s := by
  cases e <;> simp [Event.role] at h <;> simp [event_tags, nest]

theorem nest_run_tags (es : List (Event α)) (st st' : List Elem)
    (h : nesting st es = some st') :
    nest (st.map Elem.tag) (run_tags es) = some (st'.map Elem.tag) := by
  induction es generalizing st with
  | nil =>
    simp only [nesting, Option.some.injEq] at h
    subst h
    simp [run_tags, nest]
  | cons e es ih =>
    rw [run_tags, nest_append]
    cases hr : e.role with
    | opens k =>
      obtain ⟨inner, hi, hn⟩ := nest_event_opens e k hr
      have h' : nesting (k :: st) es = some st' := by
        simpa [nesting, hr] using h
      simp [hi, nest, hn, ← ih _ h']
    | leaf =>
      have h' : nesting st es = some st' := by
        simpa [nesting, hr] using h
      simp [nest_event_leaf e hr, ih _ h']
    | closes k =>
      cases st with
      | nil => simp [nesting, hr] at h
      | cons k' rest =>
        by_cases hk : k = k'
        · subst hk
          have h' : nesting rest es = some st' := by
            simpa [nesting, hr] using h
          simp [nest_event_closes e k hr, nest, ih _ h']
        · simp [nesting, hr, hk] at h

variable [CDouble α] [Consts α]

theorem run_scans (es : List (Event α)) : Scans .text (run_out es) .text (run_tags es) := by
  induction es with
  | nil => exact scans_nil _
  | cons e es ih => exact (event_scans e).append ih

end nesting

section rendering

variable {α : Type}

theorem render_pieces_append (H : Host α) (a b : List (Piece α)) :
    render_pieces H (a ++ b) = render_pieces H a ++ render_pieces H b := by
  induction a with
  | nil => simp [render_pieces]
  | cons p ps ih => simp [render_pieces, ih, String.append_assoc]

theorem render_append (H : Host α) (a b : Sink α) :
    render H (a ++ b) = (render H a).bind (fun ra => (render H b).map (fun rb => ra ++ rb)) := by
  simp only [render, pieces_append]
  cases pieces a <;> cases pieces b <;> simp [render_pieces_append]

theorem render_append_some (H : Host α) {a b : Sink α} {ra rb : String}
    (ha : render H a = some ra) (hb : render H b = some rb) :
    render H (a ++ b) = some (ra ++ rb) := by
  simp [render_append, ha, hb]

theorem render_nil (H : Host α) : render H ([] : Sink α) = some "" := rfl

set_option maxRecDepth 100000 in
theorem fmt_02x_byte (r : Fin 256) :
    fmt_02x r.val = String.mk [hex_digit (r.val / 16), hex_digit (r.val % 16)] := by
  revert r
  decide

theorem render_color (H : Host α) (c : gvcolor_t) (h : c ≠ .other) :
    render H (color_out c) = some (encode c) := by
  cases c with
  | COLOR_STRING s =>
    simp [color_out, encode, render, pieces, Call.pieces, render_pieces, Piece.render,
      char_p.render]
  | RGBA_BYTE r g b a =>
    have hp : Call.pieces (Call.printf "#%02x%02x%02x" [Arg.uint r, Arg.uint g, Arg.uint b]
        : Call α) = some [Piece.text "#", Piece.hex2 r, Piece.hex2 g, Piece.hex2 b] := rfl
    by_cases ha : a = 0
    · simp [color_out, encode, ha, render, pieces, Call.pieces, render_pieces, Piece.render]
    · simp [color_out, encode, ha, render, pieces, hp, render_pieces, Piece.render,
        fmt_02x_byte]
      rfl
  | other => exact absurd rfl h

end rendering

section color_encoder

variable {α : Type}

/-- C1: for every byte-RGBA color whose alpha byte is 0, `svg_print_color`
returns and what it writes is exactly the token `none`, whatever the R, G and
B bytes are. -/
theorem svg_print_color_transparent (H : Host α) (job : GVJ_t α) (r g b : Fin 256) :
    ∃ out, Appends (svg_print_color job (.RGBA_BYTE r g b 0)) out ∧
      render H out = some "none" :=
  ⟨_, appends_print_color job _ (by simp), by
    simpa [encode] using render_color H (.RGBA_BYTE r g b 0) (by simp)⟩

/-- C2: for every byte-RGBA color whose alpha byte is not 0, `svg_print_color`
returns and what it writes is exactly 7 characters: `#`, then the two
lowercase hexadecimal digits of R, of G and of B; the same calls are made for
every other non-zero alpha. -/
theorem svg_print_color_opaque (H : Host α) (job : GVJ_t α) (r g b a : Fin 256) (ha : a ≠ 0) :
    ∃ out, Appends (svg_print_color job (.RGBA_BYTE r g b a)) out ∧
      render H out = some (String.mk ['#', hex_digit (r.val / 16), hex_digit (r.val % 16),
        hex_digit (g.val / 16), hex_digit (g.val % 16),
        hex_digit (b.val / 16), hex_digit (b.val % 16)]) ∧
      (∀ s, render H out = some s → s.length = 7) ∧
      (∀ a' : Fin 256, a' ≠ 0 → Appends (svg_print_color job (.RGBA_BYTE r g b a')) out) := by
  have hr := render_color H (.RGBA_BYTE r g b a) (by simp)
  simp only [encode, ha, if_false] at hr
  refine ⟨_, appends_print_color job _ (by simp), hr, ?_, ?_⟩
  · intro s hs
    rw [hr] at hs
    rw [← Option.some.inj hs]
    rfl
  · intro a' ha'
    have h := appends_print_color job (.RGBA_BYTE r g b a') (by simp)
    simpa [color_out, ha, ha'] using h

/-- Witness of C2: the opaque orange (255,128,0) is written as `#ff8000`. -/
theorem svg_print_color_opaque_witness :
    (255 : Fin 256) ≠ 0 ∧
    ∃ out, Appends (svg_print_color ex_job (.RGBA_BYTE 255 128 0 255)) out ∧
      render host out = some "#ff8000" := by
  refine ⟨by decide, ?_⟩
  obtain ⟨out, h1, h2, -⟩ := svg_print_color_opaque host ex_job 255 128 0 255 (by decide)
  exact ⟨out, h1, h2.trans (by decide)⟩

end color_encoder

section style_encoder

variable {α : Type}

theorem color_mentions (c : gvcolor_t) :
    (color_out c : Sink α).filter (Call.mentions "stroke-width") = [] ∧
    (color_out c : Sink α).filter (Call.mentions "stroke-dasharray") = [] := by
  cases c with
  | COLOR_STRING s => exact ⟨rfl, rfl⟩
  | RGBA_BYTE r g b a =>
    by_cases ha : a = 0
    · simp only [color_out, ha, if_true]
      exact ⟨rfl, rfl⟩
    · simp only [color_out, ha, if_false]
      exact ⟨rfl, rfl⟩
  | other => exact ⟨rfl, rfl⟩

variable [CDouble α] [Consts α]

omit [CDouble α] [Consts α] in
theorem grstyle_fill_mentions (job : GVJ_t α) (filled : Int) :
    (if filled ≠ 0 then color_out job.obj.fillcolor
      else [Call.fputs (.lit "none")] : Sink α).filter (Call.mentions "stroke-width") = [] ∧
    (if filled ≠ 0 then color_out job.obj.fillcolor
      else [Call.fputs (.lit "none")] : Sink α).filter (Call.mentions "stroke-dasharray") = []
    := by
  by_cases hz : filled = 0
  · simp only [hz, ne_eq, not_true_eq_false, if_false]
    exact ⟨rfl, rfl⟩
  · simp only [hz, ne_eq, not_false_eq_true, if_true]
    exact color_mentions _

/-- C6: the calls of `svg_grstyle` whose text mentions `stroke-width` are
the single declaration `;stroke-width:<w>` with `<w>` the pen width of the
object when that width differs (`!=`) from `PENWIDTH_NORMAL`, and none at
all otherwise. -/
theorem svg_grstyle_stroke_width (H : Host α) (job : GVJ_t α) (filled : Int)
    (h : grstyle_ok job filled) :
    ∃ out, Appends (svg_grstyle job filled) out ∧
      out.filter (Call.mentions "stroke-width")
        = (if CDouble.ne job.obj.penwidth PENWIDTH_NORMAL then
            [Call.printf ";stroke-width:%g" [.double job.obj.penwidth]] else []) ∧
      render H [Call.printf ";stroke-width:%g" [.double job.obj.penwidth]]
        = some (";stroke-width:" ++ H.fmt_g job.obj.penwidth) := by
  refine ⟨_, appends_grstyle job filled h, ?_, ?_⟩
  · have h5 : (if job.obj.pen = .PEN_DASHED then
          [Call.printf ";stroke-dasharray:%s" [.str sdarray]]
        else if job.obj.pen = .PEN_DOTTED then
          [Call.printf ";stroke-dasharray:%s" [.str sdotarray]]
        else [] : Sink α).filter (Call.mentions "stroke-width") = [] := by
      split_ifs <;> rfl
    have h4 : (if CDouble.ne job.obj.penwidth PENWIDTH_NORMAL then
          [Call.printf ";stroke-width:%g" [.double job.obj.penwidth]]
        else [] : Sink α).filter (Call.mentions "stroke-width")
        = (if CDouble.ne job.obj.penwidth PENWIDTH_NORMAL then
          [Call.printf ";stroke-width:%g" [.double job.obj.penwidth]] else []) := by
      split_ifs <;> rfl
    have h1 : ([Call.fputs (.lit " style=\"fill:")] : Sink α).filter
        (Call.mentions "stroke-width") = [] := rfl
    have h3 : ([Call.fputs (.lit ";stroke:")] : Sink α).filter
        (Call.mentions "stroke-width") = [] := rfl
    have h6 : ([Call.fputs (.lit ";\"")] : Sink α).filter
        (Call.mentions "stroke-width") = [] := rfl
    simp only [grstyle_out, List.filter_append, h1, (grstyle_fill_mentions job filled).1, h3,
      (color_mentions job.obj.pencolor).1, h4, h5, h6, List.append_nil, List.nil_append]
  · have hp : Call.pieces (Call.printf ";stroke-width:%g" [Arg.double job.obj.penwidth]
        : Call α) = some [Piece.text ";stroke-width:", Piece.dbl_g job.obj.penwidth] := rfl
    simp [render, pieces, hp, render_pieces, Piece.render]

/-- Witness of C6: a pen of width 2 gets its declaration, the normal pen of
width 1 gets none. -/
theorem svg_grstyle_stroke_width_witness :
    grstyle_ok ex_job_dashed 1 ∧
    ∃ out, Appends (svg_grstyle ex_job_dashed 1) out ∧
      out.filter (Call.mentions "stroke-width")
        = [Call.printf ";stroke-width:%g" [.double (idouble.ofNat 2)]] ∧
      render host [Call.printf ";stroke-width:%g" [.double (idouble.ofNat 2)]]
        = some ";stroke-width:2" := by
  have hok : grstyle_ok ex_job_dashed 1 := by
    refine ⟨?_, fun _ => ?_⟩ <;> simp [ex_job_dashed]
  obtain ⟨out, h1, h2, h3⟩ := svg_grstyle_stroke_width host ex_job_dashed 1 hok
  exact ⟨hok, out, h1, h2, h3⟩

/-- C7: the calls of `svg_grstyle` whose text mentions `stroke-dasharray`
are the single declaration with the dash array `5,2` for a dashed pen, the
single declaration with the dot array `1,5` for a dotted pen, and none at
all for a solid pen. -/
theorem svg_grstyle_dasharray (H : Host α) (job : GVJ_t α) (filled : Int)
    (h : grstyle_ok job filled) :
    ∃ out, Appends (svg_grstyle job filled) out ∧
      (job.obj.pen = .PEN_DASHED →
        out.filter (Call.mentions "stroke-dasharray")
          = [Call.printf ";stroke-dasharray:%s" [.str sdarray]]) ∧
      (job.obj.pen = .PEN_DOTTED →
        out.filter (Call.mentions "stroke-dasharray")
          = [Call.printf ";stroke-dasharray:%s" [.str sdotarray]]) ∧
      (job.obj.pen = .PEN_SOLID → out.filter (Call.mentions "stroke-dasharray") = []) ∧
      render H ([Call.printf ";stroke-dasharray:%s" [.str sdarray]] : Sink α)
        = some ";stroke-dasharray:5,2" ∧
      render H ([Call.printf ";stroke-dasharray:%s" [.str sdotarray]] : Sink α)
        = some ";stroke-dasharray:1,5" := by
  have h4 : (if CDouble.ne job.obj.penwidth PENWIDTH_NORMAL then
        [Call.printf ";stroke-width:%g" [.double job.obj.penwidth]]
      else [] : Sink α).filter (Call.mentions "stroke-dasharray") = [] := by
    split_ifs <;> rfl
  have h1 : ([Call.fputs (.lit " style=\"fill:")] : Sink α).filter
      (Call.mentions "stroke-dasharray") = [] := rfl
  have h3 : ([Call.fputs (.lit ";stroke:")] : Sink α).filter
      (Call.mentions "stroke-dasharray") = [] := rfl
  have h6 : ([Call.fputs (.lit ";\"")] : Sink α).filter
      (Call.mentions "stroke-dasharray") = [] := rfl
  have key : (grstyle_out job filled).filter (Call.mentions "stroke-dasharray")
      = (if job.obj.pen = .PEN_DASHED then
          [Call.printf ";stroke-dasharray:%s" [.str sdarray]]
        else if job.obj.pen = .PEN_DOTTED then
          [Call.printf ";stroke-dasharray:%s" [.str sdotarray]]
        else [] : Sink α) := by
    have h5 : (if job.obj.pen = .PEN_DASHED then
          [Call.printf ";stroke-dasharray:%s" [.str sdarray]]
        else if job.obj.pen = .PEN_DOTTED then
          [Call.printf ";stroke-dasharray:%s" [.str sdotarray]]
        else [] : Sink α).filter (Call.mentions "stroke-dasharray")
        = (if job.obj.pen = .PEN_DASHED then
          [Call.printf ";stroke-dasharray:%s" [.str sdarray]]
        else if job.obj.pen = .PEN_DOTTED then
          [Call.printf ";stroke-dasharray:%s" [.str sdotarray]]
        else [] : Sink α) := by
      split_ifs <;> rfl
    simp only [grstyle_out, List.filter_append, h1, (grstyle_fill_mentions job filled).2, h3,
      (color_mentions job.obj.pencolor).2, h4, h5, h6, List.append_nil, List.nil_append]
  refine ⟨_, appends_grstyle job filled h, ?_, ?_, ?_, ?_, ?_⟩
  · intro hp
    rw [key, hp]
    rfl
  · intro hp
    rw [key, hp]
    rfl
  · intro hp
    rw [key, hp]
    rfl
  · rfl
  · rfl

/-- Witness of C7: the dashed pen of the example. -/
theorem svg_grstyle_dasharray_witness :
    grstyle_ok ex_job_dashed 1 ∧
    ∃ out, Appends (svg_grstyle ex_job_dashed 1) out ∧
      out.filter (Call.mentions "stroke-dasharray")
        = [Call.printf ";stroke-dasharray:%s" [.str sdarray]] := by
  have hok : grstyle_ok ex_job_dashed 1 := by
    refine ⟨?_, fun _ => ?_⟩ <;> simp [ex_job_dashed]
  obtain ⟨out, h1, h2, -⟩ := svg_grstyle_dasharray host ex_job_dashed 1 hok
  exact ⟨hok, out, h1, h2 rfl⟩

end style_encoder

section style_bytes

variable {α : Type} [CDouble α] [Consts α]

theorem render_grstyle (H : Host α) (job : GVJ_t α) (filled : Int) (h : grstyle_ok job filled) :
    render H (grstyle_out job filled)
      = some (" style=\"fill:"
          ++ (if filled ≠ 0 then encode job.obj.fillcolor else "none")
          ++ ";stroke:" ++ encode job.obj.pencolor
          ++ (if CDouble.ne job.obj.penwidth PENWIDTH_NORMAL then
                ";stroke-width:" ++ H.fmt_g job.obj.penwidth else "")
          ++ (if job.obj.pen = .PEN_DASHED then ";stroke-dasharray:5,2"
              else if job.obj.pen = .PEN_DOTTED then ";stroke-dasharray:1,5" else "")
          ++ ";\"") := by
  have h1 : render H ([Call.fputs (.lit " style=\"fill:")] : Sink α)
      = some " style=\"fill:" := rfl
  have h2 : render H (if filled ≠ 0 then color_out job.obj.fillcolor
      else [Call.fputs (.lit "none")] : Sink α)
      = some (if filled ≠ 0 then encode job.obj.fillcolor else "none") := by
    by_cases hz : filled = 0
    · simp only [hz, ne_eq, not_true_eq_false, if_false]
      rfl
    · simp only [hz, ne_eq, not_false_eq_true, if_true]
      exact render_color H _ (h.2 hz)
  have h3 : render H ([Call.fputs (.lit ";stroke:")] : Sink α) = some ";stroke:" := rfl
  have h4 : render H (if CDouble.ne job.obj.penwidth PENWIDTH_NORMAL then
        [Call.printf ";stroke-width:%g" [.double job.obj.penwidth]] else [] : Sink α)
      = some (if CDouble.ne job.obj.penwidth PENWIDTH_NORMAL then
          ";stroke-width:" ++ H.fmt_g job.obj.penwidth else "") := by
    have hp : Call.pieces (Call.printf ";stroke-width:%g" [Arg.double job.obj.penwidth]
        : Call α) = some [Piece.text ";stroke-width:", Piece.dbl_g job.obj.penwidth] := rfl
    split_ifs
    · simp [render, pieces, hp, render_pieces, Piece.render]
    · rfl
  have h5 : render H (if job.obj.pen = .PEN_DASHED then
        [Call.printf ";stroke-dasharray:%s" [.str sdarray]]
      else if job.obj.pen = .PEN_DOTTED then
        [Call.printf ";stroke-dasharray:%s" [.str sdotarray]]
      else [] : Sink α)
      = some (if job.obj.pen = .PEN_DASHED then ";stroke-dasharray:5,2"
          else if job.obj.pen = .PEN_DOTTED then ";stroke-dasharray:1,5" else "") := by
    split_ifs <;> rfl
  have h6 : render H ([Call.fputs (.lit ";\"")] : Sink α) = some ";\"" := rfl
  unfold grstyle_out
  exact render_append_some H (render_append_some H (render_append_some H
    (render_append_some H (render_append_some H (render_append_some H h1 h2) h3)
      (render_color H _ h.1)) h4) h5) h6

/-- C8: the style written by `svg_grstyle` is ` style="fill:` followed by the
encoded fill color when `filled` is non-zero and by `none` when it is zero,
then `;stroke:` followed by the encoded pen color, then the optional
stroke-width and stroke-dasharray declarations, and it ends with `;` before
the closing quote; the encoded color is what `svg_print_color` writes; and
when `filled` is zero the calls are the same for every fill color. -/
theorem svg_grstyle_fill_stroke (H : Host α) (job : GVJ_t α) (filled : Int)
    (h : grstyle_ok job filled) :
    ∃ out, Appends (svg_grstyle job filled) out ∧
      render H out
        = some (" style=\"fill:"
            ++ (if filled ≠ 0 then encode job.obj.fillcolor else "none")
            ++ ";stroke:" ++ encode job.obj.pencolor
            ++ (if CDouble.ne job.obj.penwidth PENWIDTH_NORMAL then
                  ";stroke-width:" ++ H.fmt_g job.obj.penwidth else "")
            ++ (if job.obj.pen = .PEN_DASHED then ";stroke-dasharray:5,2"
                else if job.obj.pen = .PEN_DOTTED then ";stroke-dasharray:1,5" else "")
            ++ ";\"") ∧
      (∀ c : gvcolor_t, c ≠ .other →
        ∃ cout, Appends (svg_print_color job c) cout ∧ render H cout = some (encode c)) ∧
      (filled = 0 → ∀ c : gvcolor_t,
        Appends (svg_grstyle { job with obj := { job.obj with fillcolor := c } } filled) out)
    := by
  refine ⟨_, appends_grstyle job filled h, render_grstyle H job filled h, ?_, ?_⟩
  · intro c hc
    exact ⟨_, appends_print_color job c hc, render_color H c hc⟩
  · intro hz c
    have hok : grstyle_ok { job with obj := { job.obj with fillcolor := c } } filled :=
      ⟨h.1, fun hne => absurd hz hne⟩
    have := appends_grstyle _ filled hok
    simpa [grstyle_out, hz] using this

/-- Witness of C8: the example job with byte colors, filled and unfilled. -/
theorem svg_grstyle_fill_stroke_witness :
    grstyle_ok ex_job_dashed 0 ∧
    ∃ out, Appends (svg_grstyle ex_job_dashed 0) out ∧
      render host out
        = some " style=\"fill:none;stroke:#ff8000;stroke-width:2;stroke-dasharray:5,2;\"" := by
  have hok : grstyle_ok ex_job_dashed 0 := by
    refine ⟨?_, fun _ => ?_⟩ <;> simp [ex_job_dashed]
  obtain ⟨out, h1, h2, -⟩ := svg_grstyle_fill_stroke host ex_job_dashed 0 hok
  exact ⟨hok, out, h1, h2.trans (by decide)⟩

end style_bytes

section anchor

variable {α : Type} [CDouble α] [Consts α]

omit [CDouble α] [Consts α] in
theorem anchor_attr_filter (fmt : String) (w : String) (v : Option String)
    (hw : ∀ s : String, Call.mentions w (Call.printf fmt [.str (.xml_string s)] : Call α) = true) :
    (anchor_attr_out fmt v : Sink α).filter (Call.mentions w) = anchor_attr_out fmt v := by
  cases v with
  | none => rfl
  | some v =>
    by_cases hv : v = ""
    · simp [anchor_attr_out, hv]
    · simp [anchor_attr_out, hv, hw]

omit [CDouble α] [Consts α] in
theorem anchor_attr_filter_other (fmt : String) (w : String) (v : Option String)
    (hw : ∀ s : String, Call.mentions w (Call.printf fmt [.str (.xml_string s)] : Call α) = false) :
    (anchor_attr_out fmt v : Sink α).filter (Call.mentions w) = [] := by
  cases v with
  | none => rfl
  | some v =>
    by_cases hv : v = ""
    · simp [anchor_attr_out, hv]
    · simp [anchor_attr_out, hv, hw]

omit [CDouble α] [Consts α] in
theorem render_anchor_attr (H : Host α) (v : Option String) :
    render H (anchor_attr_out " xlink:href=\"%s\"" v : Sink α)
      = some (match v with
          | some s => if s ≠ "" then " xlink:href=\"" ++ H.xml_string s ++ "\"" else ""
          | none => "") := by
  cases v with
  | none => rfl
  | some s =>
    have hp : Call.pieces (Call.printf " xlink:href=\"%s\"" [Arg.str (char_p.xml_string s)]
        : Call α) = some [Piece.text " xlink:href=\"", Piece.str (.xml_string s),
          Piece.text "\""] := rfl
    by_cases hs : s = ""
    · simp [anchor_attr_out, hs, render, pieces, render_pieces]
    · simp [anchor_attr_out, hs, render, pieces, hp, render_pieces, Piece.render,
        char_p.render, String.append_assoc]

/-- C9: among the calls of `svg_begin_anchor`, those whose text mentions
`xlink:href`, `xlink:title` and `target=` are, each on its own, the single
attribute with the escaped value when the string is non-null and non-empty
and none at all otherwise; with only `href` given the bytes are `<a`, the
attribute if any, and `>`: an empty `href` gives `<a>`, and `http://x`
gives exactly one `xlink:href="http://x"`. -/
theorem svg_begin_anchor_attributes (H : Host α) (job : GVJ_t α)
    (href tooltip target : Option String) :
    (∃ out, Appends (svg_begin_anchor job href tooltip target) out ∧
      out.filter (Call.mentions "xlink:href") = anchor_attr_out " xlink:href=\"%s\"" href ∧
      out.filter (Call.mentions "xlink:title") = anchor_attr_out " xlink:title=\"%s\"" tooltip ∧
      out.filter (Call.mentions "target=") = anchor_attr_out " target=\"%s\"" target) ∧
    (∃ out, Appends (svg_begin_anchor job href none none) out ∧
      render H out = some ("<a" ++ (match href with
          | some s => if s ≠ "" then " xlink:href=\"" ++ H.xml_string s ++ "\"" else ""
          | none => "") ++ ">\n")) ∧
    (∃ out, Appends (svg_begin_anchor job (some "") none none) out ∧
      out.filter (Call.mentions "xlink:href") = [] ∧ render H out = some "<a>\n") ∧
    (∃ out, Appends (svg_begin_anchor job (some "http://x") none none) out ∧
      out.filter (Call.mentions "xlink:href")
        = [Call.printf " xlink:href=\"%s\"" [.str (.xml_string "http://x")]] ∧
      render H out = some ("<a xlink:href=\"" ++ H.xml_string "http://x" ++ "\">\n")) ∧
    host.xml_string "http://x" = "http://x" := by
  have hA : ∀ h t g : Option String,
      Appends (svg_begin_anchor job h t g) (event_out (.begin_anchor job h t g)) :=
    fun h t g => appends_event (.begin_anchor job h t g) trivial
  have hopen : ∀ w : String, (w = "xlink:href" ∨ w = "xlink:title" ∨ w = "target=") →
      ([Call.fputs (.lit "<a")] : Sink α).filter (Call.mentions w) = [] ∧
      ([Call.fputs (.lit ">\n")] : Sink α).filter (Call.mentions w) = [] := by
    intro w hw
    rcases hw with rfl | rfl | rfl <;> exact ⟨rfl, rfl⟩
  have hR : ∀ h : Option String, render H (event_out (.begin_anchor job h none none))
      = some ("<a" ++ (match h with
          | some s => if s ≠ "" then " xlink:href=\"" ++ H.xml_string s ++ "\"" else ""
          | none => "") ++ ">\n") := by
    intro h
    have h1 : render H ([Call.fputs (.lit "<a")] : Sink α) = some "<a" := rfl
    have h2 : render H ([Call.fputs (.lit ">\n")] : Sink α) = some ">\n" := rfl
    have h3 : render H (anchor_attr_out " xlink:title=\"%s\"" none : Sink α) = some "" := rfl
    have h4 : render H (anchor_attr_out " target=\"%s\"" none : Sink α) = some "" := rfl
    have := render_append_some H (render_append_some H (render_append_some H
      (render_append_some H h1 (render_anchor_attr H h)) h3) h4) h2
    simpa [event_out] using this
  refine ⟨⟨_, hA href tooltip target, ?_, ?_, ?_⟩, ⟨_, hA href none none, hR href⟩,
    ⟨_, hA (some "") none none, ?_, ?_⟩, ⟨_, hA (some "http://x") none none, ?_, ?_⟩, ?_⟩
  · simp only [event_out, List.filter_append, (hopen "xlink:href" (Or.inl rfl)).1,
      (hopen "xlink:href" (Or.inl rfl)).2,
      anchor_attr_filter " xlink:href=\"%s\"" "xlink:href" href (fun _ => rfl),
      anchor_attr_filter_other " xlink:title=\"%s\"" "xlink:href" tooltip (fun _ => rfl),
      anchor_attr_filter_other " target=\"%s\"" "xlink:href" target (fun _ => rfl),
      List.append_nil, List.nil_append]
  · simp only [event_out, List.filter_append, (hopen "xlink:title" (Or.inr (Or.inl rfl))).1,
      (hopen "xlink:title" (Or.inr (Or.inl rfl))).2,
      anchor_attr_filter_other " xlink:href=\"%s\"" "xlink:title" href (fun _ => rfl),
      anchor_attr_filter " xlink:title=\"%s\"" "xlink:title" tooltip (fun _ => rfl),
      anchor_attr_filter_other " target=\"%s\"" "xlink:title" target (fun _ => rfl),
      List.append_nil, List.nil_append]
  · simp only [event_out, List.filter_append, (hopen "target=" (Or.inr (Or.inr rfl))).1,
      (hopen "target=" (Or.inr (Or.inr rfl))).2,
      anchor_attr_filter_other " xlink:href=\"%s\"" "target=" href (fun _ => rfl),
      anchor_attr_filter_other " xlink:title=\"%s\"" "target=" tooltip (fun _ => rfl),
      anchor_attr_filter " target=\"%s\"" "target=" target (fun _ => rfl),
      List.append_nil, List.nil_append]
  · rfl
  · simpa using hR (some "")
  · rfl
  · rw [hR (some "http://x")]
    congr 1
    apply String.ext
    simp [String.data_append]
  · decide

end anchor

section geometry

variable {α : Type}

theorem xy_written_append (a b : Sink α) :
    xy_written (a ++ b) = xy_written a ++ xy_written b := by
  simp [xy_written, List.filterMap_append]

theorem xy_color (c : gvcolor_t) : xy_written (color_out c : Sink α) = [] := by
  cases c with
  | COLOR_STRING s => rfl
  | RGBA_BYTE r g b a =>
    by_cases ha : a = 0
    · simp only [color_out, ha, if_true]
      rfl
    · simp only [color_out, ha, if_false]
      rfl
  | other => rfl

theorem xy_opt_printf (v : Option String) :
    xy_written (opt_printf_out "font-weight:%s;" v : Sink α) = []
    ∧ xy_written (opt_printf_out "font-stretch:%s;" v : Sink α) = []
    ∧ xy_written (opt_printf_out "font-style:%s;" v : Sink α) = [] := by
  cases v <;> exact ⟨rfl, rfl, rfl⟩

theorem xy_font (job : GVJ_t α) (para : textpara_t α) : xy_written (font_out job para) = [] := by
  unfold font_out
  cases para.postscript_alias with
  | none => rfl
  | some pA =>
    simp only [xy_written_append, (xy_opt_printf pA.weight).1,
      (xy_opt_printf pA.stretch).2.1, (xy_opt_printf pA.style).2.2, List.append_nil]
    rfl

theorem xy_text_fill (job : GVJ_t α) : xy_written (text_fill_out job) = [] := by
  unfold text_fill_out
  cases job.obj.pencolor with
  | COLOR_STRING s =>
    by_cases hb : strcasecmp s "black" = 0
    · simp only [hb, ne_eq, not_true_eq_false, if_false]
      rfl
    · simp only [hb, ne_eq, not_false_eq_true, if_true]
      rfl
  | RGBA_BYTE r g b a => rfl
  | other => rfl

variable [CDouble α] [Consts α]

theorem xy_grstyle (job : GVJ_t α) (filled : Int) : xy_written (grstyle_out job filled) = [] := by
  have h2 : xy_written (if filled ≠ 0 then color_out job.obj.fillcolor
      else [Call.fputs (.lit "none")] : Sink α) = [] := by
    by_cases hz : filled = 0
    · simp only [hz, ne_eq, not_true_eq_false, if_false]
      rfl
    · simp only [hz, ne_eq, not_false_eq_true, if_true]
      exact xy_color _
  have h4 : xy_written (if CDouble.ne job.obj.penwidth PENWIDTH_NORMAL then
      [Call.printf ";stroke-width:%g" [.double job.obj.penwidth]] else [] : Sink α) = [] := by
    split_ifs <;> rfl
  have h5 : xy_written (if job.obj.pen = .PEN_DASHED then
        [Call.printf ";stroke-dasharray:%s" [.str sdarray]]
      else if job.obj.pen = .PEN_DOTTED then
        [Call.printf ";stroke-dasharray:%s" [.str sdotarray]]
      else [] : Sink α) = [] := by
    split_ifs <;> rfl
  have h1 : xy_written ([Call.fputs (.lit " style=\"fill:")] : Sink α) = [] := rfl
  have h3 : xy_written ([Call.fputs (.lit ";stroke:")] : Sink α) = [] := rfl
  have h6 : xy_written ([Call.fputs (.lit ";\"")] : Sink α) = [] := rfl
  simp only [grstyle_out, xy_written_append, h1, h2, h3, xy_color, h4, h5, h6,
    List.append_nil]

omit [Consts α] in
theorem xy_points (A : Nat → pointf α) (k i : Nat) :
    (points_out A i k).map Call.xy = (List.range' i k).map (fun j => some (y_down (A j))) := by
  induction k generalizing i with
  | zero => rfl
  | succ k ih =>
    have h1 : Call.xy (Call.printf "%g,%g " [.double (A i).x, .double (-(A i).y)] : Call α)
        = some (y_down (A i)) := rfl
    simp [points_out, List.range'_succ, h1, ih]

omit [Consts α] in
theorem xy_written_points (A : Nat → pointf α) (k i : Nat) :
    xy_written (points_out A i k) = (List.range' i k).map (fun j => y_down (A j)) := by
  induction k generalizing i with
  | zero => rfl
  | succ k ih =>
    have h1 : Call.xy (Call.printf "%g,%g " [.double (A i).x, .double (-(A i).y)] : Call α)
        = some (y_down (A i)) := rfl
    have := ih (i + 1)
    simp only [xy_written] at this ⊢
    simp [points_out, List.range'_succ, h1, this]

omit [Consts α] in
theorem xy_written_bzpt (A : Nat → pointf α) (k i : Nat) (c : Char) :
    xy_written (bzpt_out A i k c) = (List.range' i k).map (fun j => y_down (A j)) := by
  induction k generalizing i c with
  | zero => rfl
  | succ k ih =>
    have h1 : Call.xy (Call.printf "%c%g,%g" [.char c, .double (A i).x, .double (-(A i).y)]
        : Call α) = some (y_down (A i)) := rfl
    have := ih (i + 1) (if i = 0 then 'C' else ' ')
    simp only [xy_written] at this ⊢
    simp [bzpt_out, List.range'_succ, h1, this]

/-- C4: for every point array and count N, `svg_polygon` writes the opening
of the `points` attribute, then exactly N+1 coordinate pairs, then the
closing of the attribute: the pairs are the N input points in order (with
`y` negated) followed by point 0 again, so the last pair equals the first;
nothing before the attribute is a coordinate pair. -/
theorem svg_polygon_points (job : GVJ_t α) (A : Nat → pointf α) (n : Nat) (filled : Int)
    (h : grstyle_ok job filled) :
    ∃ out pre pts, Appends (svg_polygon job A n filled) out ∧
      out = pre ++ [Call.fputs (.lit " points=\"")] ++ pts ++ [Call.fputs (.lit "\"/>\n")] ∧
      xy_written pre = [] ∧
      pts.map Call.xy
        = ((List.range n).map (fun i => some (y_down (A i)))) ++ [some (y_down (A 0))] ∧
      pts.length = n + 1 ∧
      (pts.head?).bind Call.xy = some (y_down (A 0)) ∧
      (pts.getLast?).bind Call.xy = some (y_down (A 0)) ∧
      xy_written out = (List.range n).map (fun i => y_down (A i)) ++ [y_down (A 0)] := by
  have hlast : Call.xy (Call.printf "%g,%g" [.double (A 0).x, .double (-(A 0).y)] : Call α)
      = some (y_down (A 0)) := rfl
  have hpts : (points_out A 0 n ++ [Call.printf "%g,%g"
      [.double (A 0).x, .double (-(A 0).y)]]).map Call.xy
      = ((List.range n).map (fun i => some (y_down (A i)))) ++ [some (y_down (A 0))] := by
    simp [xy_points, hlast, List.range_eq_range']
  have hlen : (points_out A 0 n ++ [Call.printf "%g,%g"
      [.double (A 0).x, .double (-(A 0).y)]]).length = n + 1 := by
    have := congrArg List.length hpts
    simpa using this
  refine ⟨_, [Call.fputs (.lit "<polygon")] ++ grstyle_out job filled,
    points_out A 0 n ++ [Call.printf "%g,%g" [.double (A 0).x, .double (-(A 0).y)]],
    appends_event (.polygon job A n filled) h, ?_, ?_, hpts, hlen, ?_, ?_, ?_⟩
  · simp [event_out]
  · have h1 : xy_written ([Call.fputs (.lit "<polygon")] : Sink α) = [] := rfl
    rw [xy_written_append, h1, xy_grstyle]
    rfl
  · cases n with
    | zero => simp [points_out, hlast]
    | succ n =>
      have h1 : Call.xy (Call.printf "%g,%g " [.double (A 0).x, .double (-(A 0).y)] : Call α)
          = some (y_down (A 0)) := rfl
      simp [points_out, h1]
  · simp [List.getLast?_append, hlast]
  · have h1 : xy_written ([Call.fputs (.lit "<polygon")] : Sink α) = [] := rfl
    have h2 : xy_written ([Call.fputs (.lit " points=\"")] : Sink α) = [] := rfl
    have h3 : xy_written ([Call.printf "%g,%g" [.double (A 0).x, .double (-(A 0).y)],
        Call.fputs (.lit "\"/>\n")] : Sink α) = [y_down (A 0)] := rfl
    simp only [event_out, xy_written_append, h1, h2, h3, xy_grstyle, xy_written_points,
      List.range_eq_range', List.append_nil, List.nil_append, Int.toNat_ofNat]

/-- Witness of C4: a filled triangle of the example job. -/
theorem svg_polygon_points_witness :
    grstyle_ok ex_job 1 ∧
    ∃ out, Appends (svg_polygon ex_job ex_points ((3 : Nat) : Int) 1) out ∧
      (xy_written out).length = 4 ∧
      render host out = some
        "<polygon style=\"fill:black;stroke:black;\" points=\"0,-0 10,-20 20,-0 0,-0\"/>\n" := by
  have hok : grstyle_ok ex_job 1 := by
    refine ⟨?_, fun _ => ?_⟩ <;> simp [ex_job]
  obtain ⟨out, pre, pts, h1, -, -, -, -, -, -, h2⟩ := svg_polygon_points ex_job ex_points 3 1 hok
  refine ⟨hok, out, h1, by simp [h2], ?_⟩
  have h3 := appends_unique h1 (appends_event (.polygon ex_job ex_points 3 1) hok)
  rw [h3]
  decide

end geometry

section y_axis

variable {α : Type} [CDouble α] [Consts α]

/-- C5: every coordinate pair that a geometry or text callback writes is an
input point with `x` unchanged and `y` negated: the centre of the ellipse,
the points of the polygon (with point 0 repeated at the end), of the
polyline and of the bezier path in input order, and the position of the
text. -/
theorem y_ordinate_negated (job : GVJ_t α) (A : Nat → pointf α) (n : Nat) (filled : Int)
    (arrow_at_start arrow_at_end : Int) (p : pointf α) (para : textpara_t α)
    (h : grstyle_ok job filled) :
    (∃ out, Appends (svg_ellipse job A filled) out ∧
      xy_written out = [{ x := (A 0).x, y := -(A 0).y }]) ∧
    (∃ out, Appends (svg_polygon job A n filled) out ∧
      xy_written out = (List.range n).map (fun i => { x := (A i).x, y := -(A i).y })
        ++ [{ x := (A 0).x, y := -(A 0).y }]) ∧
    (∃ out, Appends (svg_polyline job A n) out ∧
      xy_written out = (List.range n).map (fun i => { x := (A i).x, y := -(A i).y })) ∧
    (∃ out, Appends (svg_bezier job A n arrow_at_start arrow_at_end filled) out ∧
      xy_written out = (List.range n).map (fun i => { x := (A i).x, y := -(A i).y })) ∧
    (∃ out, Appends (svg_textpara job p para) out ∧
      xy_written out = [{ x := p.x, y := -p.y }]) := by
  have h0 : grstyle_ok job 0 := ⟨h.1, fun hne => absurd rfl hne⟩
  refine ⟨⟨_, appends_event (.ellipse job A filled) h, ?_⟩,
    ⟨_, appends_event (.polygon job A n filled) h, ?_⟩,
    ⟨_, appends_event (.polyline job A n) h0, ?_⟩,
    ⟨_, appends_event (.bezier job A n arrow_at_start arrow_at_end filled) h, ?_⟩,
    ⟨_, appends_event (.textpara job p para) h.1, ?_⟩⟩
  · have h1 : xy_written ([Call.fputs (.lit "<ellipse")] : Sink α) = [] := rfl
    have h3 : xy_written ([Call.printf " cx=\"%g\" cy=\"%g\""
          [.double (A 0).x, .double (-(A 0).y)],
        Call.printf " rx=\"%g\" ry=\"%g\""
          [.double ((A 1).x - (A 0).x), .double ((A 1).y - (A 0).y)],
        Call.fputs (.lit "/>\n")] : Sink α) = [{ x := (A 0).x, y := -(A 0).y }] := rfl
    simp only [event_out, xy_written_append, h1, h3, xy_grstyle, List.nil_append]
  · have h1 : xy_written ([Call.fputs (.lit "<polygon")] : Sink α) = [] := rfl
    have h2 : xy_written ([Call.fputs (.lit " points=\"")] : Sink α) = [] := rfl
    have h3 : xy_written ([Call.printf "%g,%g" [.double (A 0).x, .double (-(A 0).y)],
        Call.fputs (.lit "\"/>\n")] : Sink α) = [{ x := (A 0).x, y := -(A 0).y }] := rfl
    simp only [event_out, xy_written_append, h1, h2, h3, xy_grstyle, xy_written_points,
      List.range_eq_range', List.append_nil, List.nil_append, Int.toNat_ofNat, y_down]
  · have h1 : xy_written ([Call.fputs (.lit "<polyline")] : Sink α) = [] := rfl
    have h2 : xy_written ([Call.fputs (.lit " points=\"")] : Sink α) = [] := rfl
    have h3 : xy_written ([Call.fputs (.lit "\"/>\n")] : Sink α) = [] := rfl
    simp only [event_out, xy_written_append, h1, h2, h3, xy_grstyle, xy_written_points,
      List.range_eq_range', List.append_nil, List.nil_append, Int.toNat_ofNat, y_down]
  · have h1 : xy_written ([Call.fputs (.lit "<path")] : Sink α) = [] := rfl
    have h2 : xy_written ([Call.fputs (.lit " d=\"")] : Sink α) = [] := rfl
    have h3 : xy_written ([Call.fputs (.lit "\"/>\n")] : Sink α) = [] := rfl
    simp only [event_out, xy_written_append, h1, h2, h3, xy_grstyle, xy_written_bzpt,
      List.range_eq_range', List.append_nil, List.nil_append, Int.toNat_ofNat, y_down]
  · have h1 : xy_written ([Call.fputs (.lit "<text"),
        Call.fputs (if para.just = 'l' then .lit " text-anchor=\"start\""
          else if para.just = 'r' then .lit " text-anchor=\"end\""
          else .lit " text-anchor=\"middle\""),
        Call.printf " x=\"%g\" y=\"%g\"" [.double p.x, .double (-p.y)],
        Call.fputs (.lit " style=\"")] : Sink α) = [{ x := p.x, y := -p.y }] := by
      split_ifs <;> rfl
    have h2 : xy_written ([Call.printf "font-size:%.2f;" [.double para.fontsize]] : Sink α)
        = [] := rfl
    have h3 : xy_written ([Call.fputs (.lit "\">"), Call.fputs (.xml_string para.str),
        Call.fputs (.lit "</text>\n")] : Sink α) = [] := rfl
    simp only [event_out, xy_written_append, h1, h2, h3, xy_font, xy_text_fill,
      List.append_nil]

/-- Witness of C5: the ellipse, the path and the text of the example job. -/
theorem y_ordinate_negated_witness :
    grstyle_ok ex_job 1 ∧
    (∃ out, Appends (svg_ellipse ex_job ex_ellipse 1) out ∧
      xy_written out = [{ x := idouble.ofNat 0, y := { sign := true, mag := 0 } }]) ∧
    (∃ out, Appends (svg_bezier ex_job ex_points ((2 : Nat) : Int) 0 0 1) out ∧
      xy_written out = [{ x := idouble.ofNat 0, y := { sign := true, mag := 0 } },
        { x := idouble.ofNat 10, y := { sign := true, mag := 20 } }]) := by
  have hok : grstyle_ok ex_job 1 := by
    refine ⟨?_, fun _ => ?_⟩ <;> simp [ex_job]
  obtain ⟨⟨o1, a1, e1⟩, -, -, ⟨o4, a4, e4⟩, -⟩ :=
    y_ordinate_negated ex_job ex_ellipse 2 1 0 0 { x := idouble.ofNat 0, y := idouble.ofNat 0 }
      ex_para hok
  obtain ⟨-, -, -, ⟨o4, a4, e4⟩, -⟩ :=
    y_ordinate_negated ex_job ex_points 2 1 0 0 { x := idouble.ofNat 0, y := idouble.ofNat 0 }
      ex_para hok
  exact ⟨hok, ⟨o1, a1, e1.trans (by decide)⟩, ⟨o4, a4, e4.trans (by decide)⟩⟩

end y_axis

section markup_structure

variable {α : Type} [CDouble α] [Consts α]

/-- The structure of the program text: for every well-nested stream of
events whose colors are known, the renderer returns and the tags of its
program text, every written value taken as opaque data, are balanced.  Event
by event: a Begin event writes the start tag of its element (`svg` for the
graph, `a` for an anchor, `g` otherwise) followed only by balanced children
(the `title`), the End event writes exactly the end tag of that element, and
every other event (geometry, text, comment, document begin) leaves no element
open.  What the bytes hold is the subject of `BytesBalanced`. -/
theorem well_nested_markup_balanced (es : List (Event α)) (hok : ∀ e ∈ es, e.ok)
    (hn : WellNested es) :
    (∃ out, Appends (run_events es) out ∧ Balanced out) ∧
    (∀ e ∈ es, ∃ out ts, Appends (svg_engine e) out ∧ tags out = some ts ∧
      (∀ k, e.role = .opens k →
        ∃ inner, ts = Tag.start k.tag :: inner ∧ nest [] inner = some []) ∧
      (∀ k, e.role = .closes k → ts = [Tag.stop k.tag]) ∧
      (e.role = .leaf → nest [] ts = some [])) := by
  refine ⟨⟨_, appends_run_events es hok, run_tags es, tags_of_scans (run_scans es), ?_⟩, ?_⟩
  · simpa using nest_run_tags es [] [] hn
  · intro e he
    refine ⟨_, event_tags e, appends_event e (hok e he), tags_of_scans (event_scans e),
      ?_, ?_, ?_⟩
    · intro k hk
      obtain ⟨inner, hi, hnest⟩ := nest_event_opens e k hk
      exact ⟨inner, hi, hnest []⟩
    · intro k hk
      exact nest_event_closes e k hk
    · intro hl
      exact nest_event_leaf e hl []

end markup_structure

section round_trip

theorem scenario_ok : ∀ e ∈ scenario, e.ok := by
  intro e he
  simp only [scenario, List.mem_cons, List.mem_singleton, List.not_mem_nil, or_false] at he
  rcases he with rfl | rfl | rfl | rfl | rfl | rfl | rfl | rfl <;> trivial

set_option maxRecDepth 1000000 in
/-- Counterexample to C10: in the document of the scenario the centre's `y`
is not written as `cy="0"`, and no group is written as `<g class="node"`
followed by the id. -/
theorem scenario_ellipse_counterexample :
    ∃ out, Appends (run_events scenario) out ∧ render host out = some scenario_doc ∧
      occurs_in "cy=\"0\"".toList scenario_doc.toList = false ∧
      occurs_in "<g class=\"node\"".toList scenario_doc.toList = false :=
  ⟨run_out scenario, appends_run_events scenario scenario_ok, by decide, by decide, by decide⟩

set_option maxRecDepth 1000000 in
/-- C10, amended: the scenario document-begin, graph-begin (name `G`, 1x1
pages), page-begin, node-begin (name `a`), filled black ellipse with centre
(0,0) and corner (10,10), node-end, page-end, graph-end produces the
document `scenario_doc`: it has exactly one `ellipse` element, written with
`cx="0" cy="-0" rx="10" ry="10"`, and that element is enclosed by the group
written as `<g id="node1" class="node">`. -/
theorem scenario_ellipse :
    ∃ out, Appends (run_events scenario) out ∧ render host out = some scenario_doc ∧
      tags out = some [Tag.start "svg", Tag.start "g", Tag.start "title", Tag.stop "title",
        Tag.start "g", Tag.start "title", Tag.stop "title", Tag.empty "ellipse",
        Tag.stop "g", Tag.stop "g", Tag.stop "svg"] ∧
      count_in "<ellipse".toList scenario_doc.toList = 1 ∧
      count_in ("<g id=\"node1\" class=\"node\"><title>a</title>\n"
        ++ "<ellipse style=\"fill:black;stroke:black;\""
        ++ " cx=\"0\" cy=\"-0\" rx=\"10\" ry=\"10\"/>\n</g>\n").toList
        scenario_doc.toList = 1 :=
  ⟨run_out scenario, appends_run_events scenario scenario_ok, by decide, by decide, by decide,
    by decide⟩

end round_trip

section known_colors

set_option maxRecDepth 1000000 in
set_option maxHeartbeats 4000000 in
/-- C19: the table `svg_knowncolors` is in strictly ascending byte-wise order:
every entry is below the entry after it under `strcmp`, hence every entry is
below all later ones, and no name occurs twice among its 147 entries. -/
theorem svg_knowncolors_sorted :
    ascending svg_knowncolors = true ∧
    svg_knowncolors.Chain' (fun a b => strcmp a b < 0) ∧
    svg_knowncolors.Pairwise (fun a b => strcmp a b < 0) ∧
    svg_knowncolors.Nodup ∧
    svg_knowncolors.length = 147 := by
  have h : svg_knowncolors.Pairwise (fun a b => strcmp a b < 0) := by decide
  exact ⟨by decide, h.chain', h, by decide, by decide⟩

end known_colors

section ellipse_radii

variable {α : Type} [CDouble α] [Consts α]

/-- C15: `svg_ellipse` writes one pair of radii, and they are the
differences corner minus centre as computed, `rx = A[1].x - A[0].x` and
`ry = A[1].y - A[0].y`, formatted by `%g`; for the centre (0,10) and the
corner (10,0) the `ry` written is `-10`. -/
theorem svg_ellipse_radii (H : Host α) (job : GVJ_t α) (A : Nat → pointf α) (filled : Int)
    (h : grstyle_ok job filled) :
    (∃ out, Appends (svg_ellipse job A filled) out ∧
      out.filterMap Call.radii = [((A 1).x - (A 0).x, (A 1).y - (A 0).y)] ∧
      render H [Call.printf " rx=\"%g\" ry=\"%g\""
          [.double ((A 1).x - (A 0).x), .double ((A 1).y - (A 0).y)]]
        = some (" rx=\"" ++ H.fmt_g ((A 1).x - (A 0).x)
            ++ "\" ry=\"" ++ H.fmt_g ((A 1).y - (A 0).y) ++ "\"")) ∧
    (∃ out, Appends (svg_ellipse ex_job ex_ellipse_low 1) out ∧
      out.filterMap Call.radii = [(idouble.ofNat 10, { sign := true, mag := 10 })] ∧
      render host out = some ("<ellipse style=\"fill:black;stroke:black;\""
        ++ " cx=\"0\" cy=\"-10\" rx=\"10\" ry=\"-10\"/>\n")) := by
  have hr : ∀ c : gvcolor_t, (color_out c : Sink α).filterMap Call.radii = [] := by
    intro c
    cases c with
    | COLOR_STRING s => rfl
    | RGBA_BYTE r g b a =>
      by_cases ha : a = 0
      · simp only [color_out, ha, if_true]
        rfl
      · simp only [color_out, ha, if_false]
        rfl
    | other => rfl
  have hg : (grstyle_out job filled).filterMap Call.radii = [] := by
    have h2 : (if filled ≠ 0 then color_out job.obj.fillcolor
        else [Call.fputs (.lit "none")] : Sink α).filterMap Call.radii = [] := by
      by_cases hz : filled = 0
      · simp only [hz, ne_eq, not_true_eq_false, if_false]
        rfl
      · simp only [hz, ne_eq, not_false_eq_true, if_true]
        exact hr _
    have h4 : (if CDouble.ne job.obj.penwidth PENWIDTH_NORMAL then
        [Call.printf ";stroke-width:%g" [.double job.obj.penwidth]]
        else [] : Sink α).filterMap Call.radii = [] := by
      split_ifs <;> rfl
    have h5 : (if job.obj.pen = .PEN_DASHED then
          [Call.printf ";stroke-dasharray:%s" [.str sdarray]]
        else if job.obj.pen = .PEN_DOTTED then
          [Call.printf ";stroke-dasharray:%s" [.str sdotarray]]
        else [] : Sink α).filterMap Call.radii = [] := by
      split_ifs <;> rfl
    have h1 : ([Call.fputs (.lit " style=\"fill:")] : Sink α).filterMap Call.radii = [] := rfl
    have h3 : ([Call.fputs (.lit ";stroke:")] : Sink α).filterMap Call.radii = [] := rfl
    have h6 : ([Call.fputs (.lit ";\"")] : Sink α).filterMap Call.radii = [] := rfl
    simp only [grstyle_out, List.filterMap_append, h1, h2, h3, hr, h4, h5, h6, List.append_nil]
  refine ⟨⟨_, appends_event (.ellipse job A filled) h, ?_, ?_⟩,
    ⟨_, appends_event (.ellipse ex_job ex_ellipse_low 1) (by decide), by decide, by decide⟩⟩
  · have h1 : ([Call.fputs (.lit "<ellipse")] : Sink α).filterMap Call.radii = [] := rfl
    have h3 : ([Call.printf " cx=\"%g\" cy=\"%g\"" [.double (A 0).x, .double (-(A 0).y)],
        Call.printf " rx=\"%g\" ry=\"%g\""
          [.double ((A 1).x - (A 0).x), .double ((A 1).y - (A 0).y)],
        Call.fputs (.lit "/>\n")] : Sink α).filterMap Call.radii
        = [((A 1).x - (A 0).x, (A 1).y - (A 0).y)] := rfl
    simp only [event_out, List.filterMap_append, h1, hg, h3, List.nil_append]
  · have hp : Call.pieces (Call.printf " rx=\"%g\" ry=\"%g\""
        [Arg.double ((A 1).x - (A 0).x), Arg.double ((A 1).y - (A 0).y)] : Call α)
        = some [Piece.text " rx=\"", Piece.dbl_g ((A 1).x - (A 0).x), Piece.text "\" ry=\"",
            Piece.dbl_g ((A 1).y - (A 0).y), Piece.text "\""] := rfl
    simp [render, pieces, hp, render_pieces, Piece.render, String.append_assoc]

/-- Witness of C15: the ellipse of the example job. -/
theorem svg_ellipse_radii_witness :
    grstyle_ok ex_job 1 ∧
    ∃ out, Appends (svg_ellipse ex_job ex_ellipse 1) out ∧
      out.filterMap Call.radii = [(idouble.ofNat 10, idouble.ofNat 10)] := by
  have hok : grstyle_ok ex_job 1 := by decide
  obtain ⟨⟨out, h1, h2, -⟩, -⟩ := svg_ellipse_radii host ex_job ex_ellipse 1 hok
  exact ⟨hok, out, h1, h2.trans (by decide)⟩

end ellipse_radii

section bezier_path

variable {α : Type} [CDouble α] [Consts α]

omit [Consts α] in
theorem bzpt_path_items (A : Nat → pointf α) (k i : Nat) (c : Char) (hc : c = path_cmd i) :
    (bzpt_out A i k c).map Call.path_item
      = (List.range' i k).map (fun j => some (path_cmd j, y_down (A j))) := by
  induction k generalizing i c with
  | zero => rfl
  | succ k ih =>
    subst hc
    have h1 : Call.path_item (Call.printf "%c%g,%g"
        [.char (path_cmd i), .double (A i).x, .double (-(A i).y)] : Call α)
        = some (path_cmd i, y_down (A i)) := rfl
    have hn : (if i = 0 then 'C' else ' ') = path_cmd (i + 1) := by
      by_cases hi : i = 0
      · subst hi
        rfl
      · simp [path_cmd, hi]
    simp [bzpt_out, List.range'_succ, h1, ih (i + 1) _ hn]

/-- C14: between the opening and the closing of the attribute `d`,
`svg_bezier` writes exactly one item per input point, in input order: the
letter `M` and point 0, the letter `C` and point 1, and every further point
after a single space in place of a command letter (each point with `y`
negated); so there is one `M` when n >= 1, one `C` when n >= 2, and nothing
for n = 0. -/
theorem svg_bezier_path (H : Host α) (job : GVJ_t α) (A : Nat → pointf α) (n : Nat)
    (arrow_at_start arrow_at_end filled : Int) (h : grstyle_ok job filled) :
    ∃ out pre data, Appends (svg_bezier job A n arrow_at_start arrow_at_end filled) out ∧
      out = pre ++ [Call.fputs (.lit " d=\"")] ++ data ++ [Call.fputs (.lit "\"/>\n")] ∧
      pre.filterMap Call.path_item = [] ∧
      data.map Call.path_item
        = (List.range n).map (fun i => some (path_cmd i, y_down (A i))) ∧
      data.length = n ∧
      (data.filterMap Call.path_item).map Prod.fst
        = (if n = 0 then [] else if n = 1 then ['M']
            else 'M' :: 'C' :: List.replicate (n - 2) ' ') ∧
      (∀ (c : Char) (p : pointf α),
        render H [Call.printf "%c%g,%g" [.char c, .double p.x, .double (-p.y)]]
          = some (String.singleton c ++ H.fmt_g p.x ++ "," ++ H.fmt_g (-p.y))) := by
  have hitems := bzpt_path_items A n 0 'M' rfl
  rw [← List.range_eq_range'] at hitems
  have hpre : ([Call.fputs (.lit "<path")] ++ grstyle_out job filled).filterMap Call.path_item
      = [] := by
    have hr : ∀ c : gvcolor_t, (color_out c : Sink α).filterMap Call.path_item = [] := by
      intro c
      cases c with
      | COLOR_STRING s => rfl
      | RGBA_BYTE r g b a =>
        by_cases ha : a = 0
        · simp only [color_out, ha, if_true]
          rfl
        · simp only [color_out, ha, if_false]
          rfl
      | other => rfl
    have h2 : (if filled ≠ 0 then color_out job.obj.fillcolor
        else [Call.fputs (.lit "none")] : Sink α).filterMap Call.path_item = [] := by
      by_cases hz : filled = 0
      · simp only [hz, ne_eq, not_true_eq_false, if_false]
        rfl
      · simp only [hz, ne_eq, not_false_eq_true, if_true]
        exact hr _
    have h4 : (if CDouble.ne job.obj.penwidth PENWIDTH_NORMAL then
        [Call.printf ";stroke-width:%g" [.double job.obj.penwidth]]
        else [] : Sink α).filterMap Call.path_item = [] := by
      split_ifs <;> rfl
    have h5 : (if job.obj.pen = .PEN_DASHED then
          [Call.printf ";stroke-dasharray:%s" [.str sdarray]]
        else if job.obj.pen = .PEN_DOTTED then
          [Call.printf ";stroke-dasharray:%s" [.str sdotarray]]
        else [] : Sink α).filterMap Call.path_item = [] := by
      split_ifs <;> rfl
    have h0 : ([Call.fputs (.lit "<path")] : Sink α).filterMap Call.path_item = [] := rfl
    have h1 : ([Call.fputs (.lit " style=\"fill:")] : Sink α).filterMap Call.path_item = [] :=
      rfl
    have h3 : ([Call.fputs (.lit ";stroke:")] : Sink α).filterMap Call.path_item = [] := rfl
    have h6 : ([Call.fputs (.lit ";\"")] : Sink α).filterMap Call.path_item = [] := rfl
    simp only [grstyle_out, List.filterMap_append, h0, h1, h2, h3, hr, h4, h5, h6,
      List.append_nil]
  refine ⟨_, [Call.fputs (.lit "<path")] ++ grstyle_out job filled, bzpt_out A 0 n 'M',
    appends_event (.bezier job A n arrow_at_start arrow_at_end filled) h, ?_, hpre, hitems,
    ?_, ?_, ?_⟩
  · simp [event_out]
  · have := congrArg List.length hitems
    simpa using this
  · have hfm : (bzpt_out A 0 n 'M').filterMap Call.path_item
        = (List.range n).map (fun i => (path_cmd i, y_down (A i))) := by
      have : ∀ (l : Sink α) (r : List (Char × pointf α)),
          l.map Call.path_item = r.map some → l.filterMap Call.path_item = r := by
        intro l
        induction l with
        | nil =>
          intro r hr
          cases r with
          | nil => rfl
          | cons a r => simp at hr
        | cons c l ih =>
          intro r hr
          cases r with
          | nil => simp at hr
          | cons a r =>
            simp only [List.map_cons, List.cons.injEq] at hr
            simp [List.filterMap_cons, hr.1, ih r hr.2]
      apply this
      simpa [List.map_map, Function.comp] using hitems
    rw [hfm, List.map_map]
    rcases n with _ | _ | n
    · rfl
    · rfl
    · simp only [List.range_succ_eq_map, List.map_cons, List.map_map, Function.comp]
      simp [path_cmd, List.replicate]
      apply List.ext_getElem <;> simp
  · intro c p
    have hp : Call.pieces (Call.printf "%c%g,%g"
        [Arg.char c, Arg.double p.x, Arg.double (-p.y)] : Call α)
        = some [Piece.chr c, Piece.dbl_g p.x, Piece.text ",", Piece.dbl_g (-p.y)] := rfl
    simp [render, pieces, hp, render_pieces, Piece.render, String.append_assoc]

/-- Witness of C14: a path of four points of the example job. -/
theorem svg_bezier_path_witness :
    grstyle_ok ex_job 0 ∧
    ∃ out, Appends (svg_bezier ex_job ex_points ((4 : Nat) : Int) 0 0 0) out ∧
      render host out = some ("<path style=\"fill:none;stroke:black;\""
        ++ " d=\"M0,-0C10,-20 20,-0 30,-20\"/>\n") := by
  have hok : grstyle_ok ex_job 0 := by decide
  obtain ⟨out, pre, data, h1, -⟩ := svg_bezier_path host ex_job ex_points 4 0 0 0 hok
  refine ⟨hok, out, h1, ?_⟩
  rw [appends_unique h1 (appends_event (.bezier ex_job ex_points 4 0 0 0) hok)]
  decide

end bezier_path

section polyline

variable {α : Type} [CDouble α] [Consts α]

/-- C18: `svg_polyline` writes a style whose fill is the literal `none`,
whatever the paint state; its calls are the same for every fill color of the
current object; and between the opening and the closing of the `points`
attribute it writes exactly the n input points, in order, with no repeated
closing point. -/
theorem svg_polyline_open (H : Host α) (job : GVJ_t α) (A : Nat → pointf α) (n : Nat)
    (h : job.obj.pencolor ≠ .other) :
    ∃ out pre pts, Appends (svg_polyline job A n) out ∧
      out = pre ++ [Call.fputs (.lit " points=\"")] ++ pts ++ [Call.fputs (.lit "\"/>\n")] ∧
      render H pre = some ("<polyline style=\"fill:none;stroke:" ++ encode job.obj.pencolor
          ++ (if CDouble.ne job.obj.penwidth PENWIDTH_NORMAL then
                ";stroke-width:" ++ H.fmt_g job.obj.penwidth else "")
          ++ (if job.obj.pen = .PEN_DASHED then ";stroke-dasharray:5,2"
              else if job.obj.pen = .PEN_DOTTED then ";stroke-dasharray:1,5" else "")
          ++ ";\"") ∧
      pts.map Call.xy = (List.range n).map (fun i => some (y_down (A i))) ∧
      pts.length = n ∧
      xy_written out = (List.range n).map (fun i => y_down (A i)) ∧
      (∀ c : gvcolor_t,
        Appends (svg_polyline { job with obj := { job.obj with fillcolor := c } } A n) out) := by
  have hok : grstyle_ok job 0 := ⟨h, fun hne => absurd rfl hne⟩
  have hpts : (points_out A 0 n).map Call.xy
      = (List.range n).map (fun i => some (y_down (A i))) := by
    rw [xy_points, List.range_eq_range']
  refine ⟨_, [Call.fputs (.lit "<polyline")] ++ grstyle_out job 0, points_out A 0 n,
    appends_event (.polyline job A n) hok, ?_, ?_, hpts, ?_, ?_, ?_⟩
  · simp [event_out]
  · have h1 : render H ([Call.fputs (.lit "<polyline")] : Sink α) = some "<polyline" := rfl
    have h2 := render_grstyle H job 0 hok
    rw [render_append_some H h1 h2]
    congr 1
  · have := congrArg List.length hpts
    simpa using this
  · have h1 : xy_written ([Call.fputs (.lit "<polyline")] : Sink α) = [] := rfl
    have h2 : xy_written ([Call.fputs (.lit " points=\"")] : Sink α) = [] := rfl
    have h3 : xy_written ([Call.fputs (.lit "\"/>\n")] : Sink α) = [] := rfl
    simp only [event_out, xy_written_append, h1, h2, h3, xy_grstyle, xy_written_points,
      List.range_eq_range', List.append_nil, List.nil_append, Int.toNat_ofNat]
  · intro c
    have hok' : grstyle_ok { job with obj := { job.obj with fillcolor := c } } 0 :=
      ⟨h, fun hne => absurd rfl hne⟩
    have := appends_event (.polyline { job with obj := { job.obj with fillcolor := c } } A n)
      hok'
    simpa [event_out, grstyle_out, svg_engine] using this

/-- Witness of C18: three points with the dashed pen of the example, whose
fill color is a transparent byte color. -/
theorem svg_polyline_open_witness :
    ex_job_dashed.obj.pencolor ≠ .other ∧
    ∃ out, Appends (svg_polyline ex_job_dashed ex_points ((3 : Nat) : Int)) out ∧
      render host out = some ("<polyline style=\"fill:none;stroke:#ff8000;stroke-width:2;"
        ++ "stroke-dasharray:5,2;\" points=\"0,-0 10,-20 20,-0 \"/>\n") := by
  have hok : ex_job_dashed.obj.pencolor ≠ .other := by decide
  obtain ⟨out, pre, pts, h1, -⟩ := svg_polyline_open host ex_job_dashed ex_points 3 hok
  refine ⟨hok, out, h1, ?_⟩
  rw [appends_unique h1 (appends_event (.polyline ex_job_dashed ex_points 3) (by decide))]
  decide

end polyline

section format_selector

variable {α : Type} [CDouble α] [Consts α]

omit [CDouble α] [Consts α] in
theorem pieces_filter_write (out : Sink α) : pieces (out.filter Call.is_write) = pieces out := by
  induction out with
  | nil => rfl
  | cons c cs ih =>
    cases c with
    | init_compression m => simpa [List.filter, Call.is_write, pieces, Call.pieces] using ih
    | fini_compression => simpa [List.filter, Call.is_write, pieces, Call.pieces] using ih
    | fputs s => simp [List.filter, Call.is_write, pieces, ih]
    | printf fmt args => simp [List.filter, Call.is_write, pieces, ih]

omit [CDouble α] [Consts α] in
theorem with_format_ok (id : format_type) (e : Event α) : (e.with_format id).ok ↔ e.ok := by
  cases e <;> exact Iff.rfl

theorem with_format_engine (id : format_type) (e : Event α) (h : e.is_begin_job = false) :
    svg_engine (e.with_format id) = svg_engine e := by
  cases e <;> first | rfl | simp [Event.is_begin_job] at h

theorem with_format_out (id : format_type) (e : Event α) (h : e.is_begin_job = false) :
    event_out (e.with_format id) = event_out e := by
  cases e <;> first | rfl | simp [Event.is_begin_job] at h

theorem with_format_writes (a b : format_type) (e : Event α) :
    (event_out (e.with_format a)).filter Call.is_write
      = (event_out (e.with_format b)).filter Call.is_write := by
  cases e <;> rfl

theorem with_format_run_writes (a b : format_type) (es : List (Event α)) :
    (run_out (es.map (Event.with_format a))).filter Call.is_write
      = (run_out (es.map (Event.with_format b))).filter Call.is_write := by
  induction es with
  | nil => rfl
  | cons e es ih =>
    simp only [List.map_cons, run_out, List.filter_append, ih, with_format_writes a b e]

/-- C12: for every stream of events, the calls that hand bytes to the sink,
and so the bytes, are the same under the format selectors `FORMAT_SVG` and
`FORMAT_SVGZ`; document-begin passes the compression mode none for the one
and zlib for the other as its first call, and the callback of every other
event is the same function whatever the selector is. -/
theorem format_selector_invisible (H : Host α) (es : List (Event α)) (hok : ∀ e ∈ es, e.ok) :
    (∃ out_svg out_svgz,
      Appends (run_events (es.map (Event.with_format .FORMAT_SVG))) out_svg ∧
      Appends (run_events (es.map (Event.with_format .FORMAT_SVGZ))) out_svgz ∧
      out_svg.filter Call.is_write = out_svgz.filter Call.is_write ∧
      render H out_svg = render H out_svgz) ∧
    (∀ job : GVJ_t α, ∃ rest,
      Appends (svg_begin_job { job with render_id := .FORMAT_SVG })
        (Call.init_compression .COMPRESSION_NONE :: rest) ∧
      Appends (svg_begin_job { job with render_id := .FORMAT_SVGZ })
        (Call.init_compression .COMPRESSION_ZLIB :: rest) ∧
      rest.all Call.is_write = true) ∧
    (∀ (e : Event α) (id : format_type), e.is_begin_job = false →
      svg_engine (e.with_format id) = svg_engine e) := by
  have hok' : ∀ id : format_type, ∀ e ∈ es.map (Event.with_format id), e.ok := by
    intro id e he
    obtain ⟨e0, he0, rfl⟩ := List.mem_map.mp he
    exact (with_format_ok id e0).mpr (hok e0 he0)
  refine ⟨⟨_, _, appends_run_events _ (hok' .FORMAT_SVG), appends_run_events _ (hok' .FORMAT_SVGZ),
    with_format_run_writes _ _ es, ?_⟩, ?_, fun e id h => with_format_engine id e h⟩
  · unfold render
    rw [← pieces_filter_write, with_format_run_writes .FORMAT_SVG .FORMAT_SVGZ es,
      pieces_filter_write]
  · intro job
    have hs : (stylesheet_out job).all Call.is_write = true := by
      unfold stylesheet_out
      cases agget job.gvc.g "stylesheet" with
      | none => rfl
      | some s =>
        by_cases hs : s = ""
        · simp only [hs, ne_eq, not_true_eq_false, if_false]
          rfl
        · simp only [hs, ne_eq, not_false_eq_true, if_true]
          rfl
    refine ⟨(event_out (.begin_job job)).tail, ?_, ?_, ?_⟩
    · exact appends_event (.begin_job { job with render_id := .FORMAT_SVG }) trivial
    · exact appends_event (.begin_job { job with render_id := .FORMAT_SVGZ }) trivial
    · simp only [event_out, List.cons_append, List.nil_append, List.tail_cons, List.all_cons,
        List.all_append, hs, Call.is_write, Bool.true_and, List.all_nil]

/-- Witness of C12: the scenario of the example under both selectors. -/
theorem format_selector_invisible_witness :
    (∀ e ∈ scenario, e.ok) ∧
    ∃ out_svg out_svgz,
      Appends (run_events (scenario.map (Event.with_format .FORMAT_SVG))) out_svg ∧
      Appends (run_events (scenario.map (Event.with_format .FORMAT_SVGZ))) out_svgz ∧
      render host out_svg = render host out_svgz := by
  obtain ⟨⟨a, b, h1, h2, -, h3⟩, -⟩ := format_selector_invisible host scenario scenario_ok
  exact ⟨scenario_ok, a, b, h1, h2, h3⟩

end format_selector

section transport

variable {α : Type} [CDouble α] [Consts α]

omit [CDouble α] [Consts α] in
theorem color_all_write (c : gvcolor_t) : (color_out c : Sink α).all Call.is_write = true := by
  cases c with
  | COLOR_STRING s => rfl
  | RGBA_BYTE r g b a =>
    by_cases ha : a = 0
    · simp only [color_out, ha, if_true]
      rfl
    · simp only [color_out, ha, if_false]
      rfl
  | other => rfl

theorem grstyle_all_write (job : GVJ_t α) (filled : Int) :
    (grstyle_out job filled).all Call.is_write = true := by
  have h2 : (if filled ≠ 0 then color_out job.obj.fillcolor
      else [Call.fputs (.lit "none")] : Sink α).all Call.is_write = true := by
    by_cases hz : filled = 0
    · simp only [hz, ne_eq, not_true_eq_false, if_false]
      rfl
    · simp only [hz, ne_eq, not_false_eq_true, if_true]
      exact color_all_write _
  have h4 : (if CDouble.ne job.obj.penwidth PENWIDTH_NORMAL then
      [Call.printf ";stroke-width:%g" [.double job.obj.penwidth]]
      else [] : Sink α).all Call.is_write = true := by
    split_ifs <;> rfl
  have h5 : (if job.obj.pen = .PEN_DASHED then
        [Call.printf ";stroke-dasharray:%s" [.str sdarray]]
      else if job.obj.pen = .PEN_DOTTED then
        [Call.printf ";stroke-dasharray:%s" [.str sdotarray]]
      else [] : Sink α).all Call.is_write = true := by
    split_ifs <;> rfl
  simp only [grstyle_out, List.all_append, h2, h4, h5, color_all_write, List.all_cons,
    List.all_nil, Call.is_write, Bool.and_self]

omit [Consts α] in
theorem points_all_write (A : Nat → pointf α) (k i : Nat) :
    (points_out A i k).all Call.is_write = true := by
  induction k generalizing i with
  | zero => rfl
  | succ k ih => simp [points_out, Call.is_write, ih]

omit [Consts α] in
theorem bzpt_all_write (A : Nat → pointf α) (k i : Nat) (c : Char) :
    (bzpt_out A i k c).all Call.is_write = true := by
  induction k generalizing i c with
  | zero => rfl
  | succ k ih => simp [bzpt_out, Call.is_write, ih]

omit [CDouble α] [Consts α] in
theorem font_all_write (job : GVJ_t α) (para : textpara_t α) :
    (font_out job para).all Call.is_write = true := by
  unfold font_out
  cases para.postscript_alias with
  | none => rfl
  | some pA =>
    obtain ⟨name, family, weight, stretch, style⟩ := pA
    cases weight <;> cases stretch <;> cases style <;> rfl

omit [CDouble α] [Consts α] in
theorem text_fill_all_write (job : GVJ_t α) : (text_fill_out job).all Call.is_write = true := by
  unfold text_fill_out
  cases job.obj.pencolor with
  | COLOR_STRING s =>
    by_cases hb : strcasecmp s "black" = 0
    · simp only [hb, ne_eq, not_true_eq_false, if_false]
      rfl
    · simp only [hb, ne_eq, not_false_eq_true, if_true]
      rfl
  | RGBA_BYTE r g b a => rfl
  | other => rfl

omit [CDouble α] [Consts α] in
theorem anchor_attr_all_write (fmt : String) (v : Option String) :
    (anchor_attr_out fmt v : Sink α).all Call.is_write = true := by
  cases v with
  | none => rfl
  | some v =>
    by_cases hv : v = ""
    · simp [anchor_attr_out, hv]
    · simp [anchor_attr_out, hv, Call.is_write]

theorem event_all_write (e : Event α) (hb : e.is_begin_job = false)
    (he : e.is_end_graph = false) : (event_out e).all Call.is_write = true := by
  cases e with
  | begin_job job => simp [Event.is_begin_job] at hb
  | end_graph job => simp [Event.is_end_graph] at he
  | begin_graph job =>
    by_cases hn : job.obj.u.g.name = "" <;> simp [event_out, hn, Call.is_write]
  | begin_page job =>
    by_cases hn : job.obj.u.g.name = "" <;> simp [event_out, hn, Call.is_write]
  | begin_anchor job href tooltip target =>
    simp [event_out, anchor_attr_all_write, Call.is_write]
  | textpara job p para =>
    simp [event_out, font_all_write, text_fill_all_write, Call.is_write]
  | ellipse job A filled => simp [event_out, grstyle_all_write, Call.is_write]
  | polygon job A n filled =>
    simp [event_out, grstyle_all_write, points_all_write, Call.is_write]
  | bezier job A n s t filled =>
    simp [event_out, grstyle_all_write, bzpt_all_write, Call.is_write]
  | polyline job A n => simp [event_out, grstyle_all_write, points_all_write, Call.is_write]
  | _ => simp [event_out, Call.is_write]

theorem run_all_write (es : List (Event α))
    (h : ∀ e ∈ es, e.is_begin_job = false ∧ e.is_end_graph = false) :
    (run_out es).all Call.is_write = true := by
  induction es with
  | nil => rfl
  | cons e es ih =>
    simp only [run_out, List.all_append, Bool.and_eq_true]
    exact ⟨event_all_write e (h e (List.mem_cons_self e es)).1
        (h e (List.mem_cons_self e es)).2,
      ih (fun e' he' => h e' (List.mem_cons_of_mem e he'))⟩

/-- C13: `svg_begin_job` opens the compression transport as its first call
and only writes after it; `svg_end_graph` writes `</svg>` and then finalises
the transport as its last call; and in a document, from document-begin to
graph-end, everything between the opening and the finalisation is a write,
the last of them the closing `</svg>`, and nothing follows the
finalisation. -/
theorem writes_inside_transport (job job' : GVJ_t α) (body : List (Event α))
    (hok : ∀ e ∈ body, e.ok)
    (hbody : ∀ e ∈ body, e.is_begin_job = false ∧ e.is_end_graph = false) :
    (∃ ws, Appends (svg_begin_job job)
        (Call.init_compression (compression_of job.render_id) :: ws) ∧
      ws.all Call.is_write = true ∧ ws ≠ []) ∧
    Appends (svg_end_graph job')
      [Call.fputs (.lit "</svg>\n"), Call.fini_compression] ∧
    (∃ ws, Appends (run_events (.begin_job job :: body ++ [.end_graph job']))
        (Call.init_compression (compression_of job.render_id) :: ws
          ++ [Call.fini_compression]) ∧
      ws.all Call.is_write = true ∧
      ws.getLast? = some (Call.fputs (.lit "</svg>\n"))) := by
  have hs : (stylesheet_out job).all Call.is_write = true := by
    unfold stylesheet_out
    cases agget job.gvc.g "stylesheet" with
    | none => rfl
    | some s =>
      by_cases hs : s = ""
      · simp only [hs, ne_eq, not_true_eq_false, if_false]
        rfl
      · simp only [hs, ne_eq, not_false_eq_true, if_true]
        rfl
  have htail : ((event_out (.begin_job job)).tail).all Call.is_write = true := by
    simp only [event_out, List.cons_append, List.nil_append, List.tail_cons, List.all_cons,
      List.all_append, hs, Call.is_write, Bool.true_and, List.all_nil]
  have hjob : Appends (svg_begin_job job)
      (Call.init_compression (compression_of job.render_id)
        :: (event_out (.begin_job job)).tail) :=
    appends_event (.begin_job job) trivial
  have hall : ∀ e ∈ .begin_job job :: body ++ [.end_graph job'], e.ok := by
    intro e he
    simp only [List.cons_append, List.mem_cons, List.mem_append, List.mem_singleton,
      List.not_mem_nil, or_false] at he
    rcases he with rfl | he | rfl
    · trivial
    · exact hok e he
    · trivial
  have hrun : run_out (.begin_job job :: body ++ [.end_graph job'])
      = Call.init_compression (compression_of job.render_id)
        :: ((event_out (.begin_job job)).tail ++ run_out body ++ [Call.fputs (.lit "</svg>\n")])
        ++ [Call.fini_compression] := by
    have happ : ∀ (a b : List (Event α)), run_out (a ++ b) = run_out a ++ run_out b := by
      intro a b
      induction a with
      | nil => rfl
      | cons e a ih => simp [run_out, ih]
    simp [run_out, happ, event_out]
  refine ⟨⟨_, hjob, htail, ?_⟩, appends_event (.end_graph job') trivial,
    ⟨_, (appends_run_events _ hall).cast hrun, ?_, ?_⟩⟩
  · simp [event_out]
  · simp only [List.all_append, htail, run_all_write body hbody, List.all_cons, List.all_nil,
      Call.is_write, Bool.and_self]
  · simp [List.getLast?_append]

/-- Witness of C13: the scenario of the example, whose body is graph-begin
to node-end and page-end. -/
theorem writes_inside_transport_witness :
    ∃ ws, Appends (run_events scenario)
        (Call.init_compression .COMPRESSION_NONE :: ws ++ [Call.fini_compression]) ∧
      ws.all Call.is_write = true ∧
      ws.getLast? = some (Call.fputs (.lit "</svg>\n")) :=
  (writes_inside_transport ex_job ex_job
    [.begin_graph ex_job, .begin_page ex_job, .begin_node ex_job,
      .ellipse ex_job ex_ellipse 1, .end_node ex_job, .end_page ex_job]
    (by decide) (by decide)).2.2

end transport

section text_font

variable {α : Type} [CDouble α] [Consts α]

omit [CDouble α] [Consts α] in
theorem opt_printf_font (v : Option String) :
    ((opt_printf_out "font-weight:%s;" v : Sink α).filter (Call.mentions "font-")
        = opt_printf_out "font-weight:%s;" v
      ∧ (opt_printf_out "font-stretch:%s;" v : Sink α).filter (Call.mentions "font-")
        = opt_printf_out "font-stretch:%s;" v
      ∧ (opt_printf_out "font-style:%s;" v : Sink α).filter (Call.mentions "font-")
        = opt_printf_out "font-style:%s;" v)
    ∧ ((opt_printf_out "font-weight:%s;" v : Sink α).filter (Call.mentions "fill:") = []
      ∧ (opt_printf_out "font-stretch:%s;" v : Sink α).filter (Call.mentions "fill:") = []
      ∧ (opt_printf_out "font-style:%s;" v : Sink α).filter (Call.mentions "fill:") = []) := by
  cases v <;> exact ⟨⟨rfl, rfl, rfl⟩, rfl, rfl, rfl⟩

omit [CDouble α] [Consts α] in
theorem font_out_mentions (job : GVJ_t α) (para : textpara_t α) :
    (font_out job para).filter (Call.mentions "font-") = font_out job para
    ∧ (font_out job para).filter (Call.mentions "fill:") = [] := by
  unfold font_out
  cases para.postscript_alias with
  | none => exact ⟨rfl, rfl⟩
  | some pA =>
    have h1 : ([Call.printf "font-family:%s;"
        [.str (.var (match GD_fontnames job.gvc.g with
          | .PSFONTS => pA.name
          | .NATIVEFONTS => pA.family
          | .SVGFONTS => pA.family))]] : Sink α).filter (Call.mentions "font-")
        = [Call.printf "font-family:%s;"
        [.str (.var (match GD_fontnames job.gvc.g with
          | .PSFONTS => pA.name
          | .NATIVEFONTS => pA.family
          | .SVGFONTS => pA.family))]] := rfl
    have h2 : ([Call.printf "font-family:%s;"
        [.str (.var (match GD_fontnames job.gvc.g with
          | .PSFONTS => pA.name
          | .NATIVEFONTS => pA.family
          | .SVGFONTS => pA.family))]] : Sink α).filter (Call.mentions "fill:") = [] := rfl
    constructor
    · simp only [List.filter_append, (opt_printf_font pA.weight).1.1,
        (opt_printf_font pA.stretch).1.2.1, (opt_printf_font pA.style).1.2.2]
      exact congrArg (fun l => l ++ opt_printf_out "font-weight:%s;" pA.weight
        ++ opt_printf_out "font-stretch:%s;" pA.stretch
        ++ opt_printf_out "font-style:%s;" pA.style) h1
    · simp only [List.filter_append, (opt_printf_font pA.weight).2.1,
        (opt_printf_font pA.stretch).2.2.1, (opt_printf_font pA.style).2.2.2, List.append_nil]
      exact h2

omit [CDouble α] [Consts α] in
theorem text_fill_mentions (job : GVJ_t α) :
    (text_fill_out job).filter (Call.mentions "font-") = []
    ∧ (text_fill_out job).filter (Call.mentions "fill:") = text_fill_out job := by
  unfold text_fill_out
  cases job.obj.pencolor with
  | COLOR_STRING s =>
    by_cases hb : strcasecmp s "black" = 0
    · simp only [hb, ne_eq, not_true_eq_false, if_false]
      exact ⟨rfl, rfl⟩
    · simp only [hb, ne_eq, not_false_eq_true, if_true]
      exact ⟨rfl, rfl⟩
  | RGBA_BYTE r g b a => exact ⟨rfl, rfl⟩
  | other => exact ⟨rfl, rfl⟩

theorem textpara_mentions (job : GVJ_t α) (p : pointf α) (para : textpara_t α) :
    (event_out (.textpara job p para)).filter (Call.mentions "font-")
      = font_out job para ++ [Call.printf "font-size:%.2f;" [.double para.fontsize]]
    ∧ (event_out (.textpara job p para)).filter (Call.mentions "fill:")
      = text_fill_out job := by
  have h1 : ([Call.fputs (.lit "<text"),
      Call.fputs (if para.just = 'l' then .lit " text-anchor=\"start\""
        else if para.just = 'r' then .lit " text-anchor=\"end\""
        else .lit " text-anchor=\"middle\""),
      Call.printf " x=\"%g\" y=\"%g\"" [.double p.x, .double (-p.y)],
      Call.fputs (.lit " style=\"")] : Sink α).filter (Call.mentions "font-") = []
      ∧ ([Call.fputs (.lit "<text"),
      Call.fputs (if para.just = 'l' then .lit " text-anchor=\"start\""
        else if para.just = 'r' then .lit " text-anchor=\"end\""
        else .lit " text-anchor=\"middle\""),
      Call.printf " x=\"%g\" y=\"%g\"" [.double p.x, .double (-p.y)],
      Call.fputs (.lit " style=\"")] : Sink α).filter (Call.mentions "fill:") = [] := by
    split_ifs <;> exact ⟨rfl, rfl⟩
  have h2 : ([Call.printf "font-size:%.2f;" [.double para.fontsize]] : Sink α).filter
      (Call.mentions "font-") = [Call.printf "font-size:%.2f;" [.double para.fontsize]] := rfl
  have h2' : ([Call.printf "font-size:%.2f;" [.double para.fontsize]] : Sink α).filter
      (Call.mentions "fill:") = [] := rfl
  have h3 : ([Call.fputs (.lit "\">"), Call.fputs (.xml_string para.str),
      Call.fputs (.lit "</text>\n")] : Sink α).filter (Call.mentions "font-") = [] := rfl
  have h3' : ([Call.fputs (.lit "\">"), Call.fputs (.xml_string para.str),
      Call.fputs (.lit "</text>\n")] : Sink α).filter (Call.mentions "fill:") = [] := rfl
  constructor
  · simp only [event_out, List.filter_append, h1.1, h2, h3, (font_out_mentions job para).1,
      (text_fill_mentions job).1, List.append_nil, List.nil_append]
  · simp only [event_out, List.filter_append, h1.2, h2', h3', (font_out_mentions job para).2,
      (text_fill_mentions job).2, List.append_nil, List.nil_append]

/-- C16: the font declarations of `svg_textpara`, in the order written, are
`font-family`, then `font-weight`, `font-stretch` and `font-style`, each
present exactly when its string is non-null, then `font-size`.  With an alias
record the family is the alias's PostScript name under `PSFONTS` and its
generic family under `NATIVEFONTS` and `SVGFONTS`, and weight, stretch and
style are those of the alias under every scheme, so the two last schemes give
the same calls; without an alias only `font-family` with the plain font name
precedes `font-size`. -/
theorem svg_textpara_font (H : Host α) (job : GVJ_t α) (p : pointf α) (para : textpara_t α)
    (h : job.obj.pencolor ≠ .other) :
    ∃ out, Appends (svg_textpara job p para) out ∧
      out.filter (Call.mentions "font-")
        = (match para.postscript_alias with
            | some pA =>
              [Call.printf "font-family:%s;"
                [.str (.var (match GD_fontnames job.gvc.g with
                  | .PSFONTS => pA.name
                  | .NATIVEFONTS => pA.family
                  | .SVGFONTS => pA.family))]]
                ++ opt_printf_out "font-weight:%s;" pA.weight
                ++ opt_printf_out "font-stretch:%s;" pA.stretch
                ++ opt_printf_out "font-style:%s;" pA.style
            | none => [Call.printf "font-family:%s;" [.str (.var para.fontname)]])
          ++ [Call.printf "font-size:%.2f;" [.double para.fontsize]] ∧
      (∀ (fmt : String) (v : String), (opt_printf_out fmt (some v) : Sink α)
          = [Call.printf fmt [.str (.var v)]] ∧ (opt_printf_out fmt none : Sink α) = []) ∧
      (∀ g' : graph_t, GD_fontnames job.gvc.g = .NATIVEFONTS → GD_fontnames g' = .SVGFONTS →
        Appends (svg_textpara { job with gvc := { g := g' } } p para) out) ∧
      (∀ v : String,
        render H ([Call.printf "font-family:%s;" [.str (.var v)]] : Sink α)
          = some ("font-family:" ++ v ++ ";") ∧
        render H ([Call.printf "font-weight:%s;" [.str (.var v)]] : Sink α)
          = some ("font-weight:" ++ v ++ ";") ∧
        render H ([Call.printf "font-stretch:%s;" [.str (.var v)]] : Sink α)
          = some ("font-stretch:" ++ v ++ ";") ∧
        render H ([Call.printf "font-style:%s;" [.str (.var v)]] : Sink α)
          = some ("font-style:" ++ v ++ ";")) ∧
      render H ([Call.printf "font-size:%.2f;" [.double para.fontsize]] : Sink α)
        = some ("font-size:" ++ H.fmt_2f para.fontsize ++ ";") := by
  refine ⟨_, appends_event (.textpara job p para) h, ?_, fun fmt v => ⟨rfl, rfl⟩, ?_, ?_, ?_⟩
  · rw [(textpara_mentions job p para).1]
    rfl
  · intro g' h1 h2
    have := appends_event (.textpara { job with gvc := { g := g' } } p para) h
    have e : event_out (.textpara { job with gvc := { g := g' } } p para)
        = event_out (.textpara job p para) := by
      simp only [event_out, font_out, text_fill_out, h1, h2]
    rw [← e]
    exact this
  · intro v
    have h1 : Call.pieces (Call.printf "font-family:%s;" [Arg.str (.var v)] : Call α)
        = some [Piece.text "font-family:", Piece.str (.var v), Piece.text ";"] := rfl
    have h2 : Call.pieces (Call.printf "font-weight:%s;" [Arg.str (.var v)] : Call α)
        = some [Piece.text "font-weight:", Piece.str (.var v), Piece.text ";"] := rfl
    have h3 : Call.pieces (Call.printf "font-stretch:%s;" [Arg.str (.var v)] : Call α)
        = some [Piece.text "font-stretch:", Piece.str (.var v), Piece.text ";"] := rfl
    have h4 : Call.pieces (Call.printf "font-style:%s;" [Arg.str (.var v)] : Call α)
        = some [Piece.text "font-style:", Piece.str (.var v), Piece.text ";"] := rfl
    refine ⟨?_, ?_, ?_, ?_⟩
    · simp [render, pieces, h1, render_pieces, Piece.render, char_p.render, String.append_assoc]
    · simp [render, pieces, h2, render_pieces, Piece.render, char_p.render, String.append_assoc]
    · simp [render, pieces, h3, render_pieces, Piece.render, char_p.render, String.append_assoc]
    · simp [render, pieces, h4, render_pieces, Piece.render, char_p.render, String.append_assoc]
  · have h1 : Call.pieces (Call.printf "font-size:%.2f;" [Arg.double para.fontsize] : Call α)
        = some [Piece.text "font-size:", Piece.dbl_f2 para.fontsize, Piece.text ";"] := rfl
    simp [render, pieces, h1, render_pieces, Piece.render, String.append_assoc]

/-- Witness of C16: a text run with an alias record under the native scheme. -/
theorem svg_textpara_font_witness :
    ex_job.obj.pencolor ≠ .other ∧
    ∃ out, Appends (svg_textpara ex_job { x := idouble.ofNat 5, y := idouble.ofNat 7 }
        ex_para_alias) out ∧
      render host out = some ("<text text-anchor=\"start\" x=\"5\" y=\"-7\" style=\""
        ++ "font-family:Times New Roman;font-weight:bold;font-style:italic;"
        ++ "font-size:14.00;\">a</text>\n") := by
  have hok : ex_job.obj.pencolor ≠ .other := by decide
  obtain ⟨out, h1, -⟩ := svg_textpara_font host ex_job
    { x := idouble.ofNat 5, y := idouble.ofNat 7 } ex_para_alias hok
  refine ⟨hok, out, h1, ?_⟩
  rw [appends_unique h1 (appends_event (.textpara ex_job _ ex_para_alias) hok)]
  decide

end text_font

section text_fill

variable {α : Type} [CDouble α] [Consts α]

theorem toLower_toNat_ne_zero (c : Char) (h : c.toNat ≠ 0) : c.toLower.toNat ≠ 0 := by
  unfold Char.toLower
  by_cases hr : c.toNat ≥ 65 ∧ c.toNat ≤ 90
  · simp only [hr, and_self, if_true]
    obtain ⟨h1, h2⟩ := hr
    generalize c.toNat = n at h1 h2
    interval_cases n <;> decide
  · simp only [hr, if_false]
    exact h

theorem toNat_sub_ne_zero (c d : Char) (h : c ≠ d) : (c.toNat : Int) - (d.toNat : Int) ≠ 0 := by
  intro e
  apply h
  apply Char.ext
  apply UInt32.ext
  have e2 : c.toNat = d.toNat := by omega
  exact e2

/-- On C strings `strcasecmp` is 0 exactly when the two strings are equal
after `tolower`. -/
theorem strcasecmp_chars_eq_zero (s t : List Char)
    (hs : ∀ c ∈ s, c.toNat ≠ 0) (ht : ∀ c ∈ t, c.toNat ≠ 0) :
    strcasecmp_chars s t = 0 ↔ s.map Char.toLower = t.map Char.toLower := by
  induction s generalizing t with
  | nil =>
    cases t with
    | nil => simp [strcasecmp_chars]
    | cons d t =>
      have hd := toLower_toNat_ne_zero d (ht d (List.mem_cons_self _ _))
      simp only [strcasecmp_chars, List.map_nil, List.map_cons]
      constructor
      · intro e
        omega
      · intro e
        cases e
  | cons c s ih =>
    cases t with
    | nil =>
      have hc := toLower_toNat_ne_zero c (hs c (List.mem_cons_self _ _))
      simp only [strcasecmp_chars, List.map_nil, List.map_cons]
      constructor
      · intro e
        omega
      · intro e
        cases e
    | cons d t =>
      have ih2 := ih t (fun x hx => hs x (List.mem_cons_of_mem _ hx))
        (fun x hx => ht x (List.mem_cons_of_mem _ hx))
      by_cases hcd : c.toLower = d.toLower
      · simp only [strcasecmp_chars, hcd, if_true, List.map_cons, List.cons.injEq, true_and]
        exact ih2
      · simp only [strcasecmp_chars, hcd, if_false, List.map_cons, List.cons.injEq, false_and,
          iff_false]
        exact toNat_sub_ne_zero _ _ hcd

theorem strcasecmp_black (s : String) (hs : is_c_string s) :
    strcasecmp s "black" = 0 ↔ lower s = "black".toList := by
  have h := strcasecmp_chars_eq_zero s.toList "black".toList hs (by decide)
  exact h

omit [CDouble α] [Consts α] in
theorem render_fill_bytes (H : Host α) (r g b : Fin 256) :
    render H ([Call.printf "fill:#%02x%02x%02x;" [.uint r, .uint g, .uint b]] : Sink α)
      = some (String.mk ['f', 'i', 'l', 'l', ':', '#',
          hex_digit (r.val / 16), hex_digit (r.val % 16),
          hex_digit (g.val / 16), hex_digit (g.val % 16),
          hex_digit (b.val / 16), hex_digit (b.val % 16), ';']) := by
  have hp : Call.pieces (Call.printf "fill:#%02x%02x%02x;" [Arg.uint r, Arg.uint g, Arg.uint b]
      : Call α) = some [Piece.text "fill:#", Piece.hex2 r, Piece.hex2 g, Piece.hex2 b,
        Piece.text ";"] := rfl
  simp [render, pieces, hp, render_pieces, Piece.render, fmt_02x_byte]
  rfl

/-- C17: for a text run whose pen color is a symbolic name (a C string),
`svg_textpara` returns and makes no `fill:` call exactly when the name is
`black` after `tolower`; for every other name its one `fill:` call writes
`fill:`, the name unchanged, and `;`.  For a byte-RGBA pen color its one
`fill:` call writes `fill:#`, the two hexadecimal digits of each of R, G and
B, and `;`. -/
theorem svg_textpara_fill (H : Host α) (job : GVJ_t α) (p : pointf α) (para : textpara_t α) :
    (∀ s : String, job.obj.pencolor = .COLOR_STRING s → is_c_string s →
      ∃ out, Appends (svg_textpara job p para) out ∧
        (out.filter (Call.mentions "fill:") = [] ↔ lower s = "black".toList) ∧
        (lower s ≠ "black".toList →
          out.filter (Call.mentions "fill:") = [Call.printf "fill:%s;" [.str (.var s)]] ∧
          render H (out.filter (Call.mentions "fill:")) = some ("fill:" ++ s ++ ";"))) ∧
    (∀ r g b a : Fin 256, job.obj.pencolor = .RGBA_BYTE r g b a →
      ∃ out, Appends (svg_textpara job p para) out ∧
        out.filter (Call.mentions "fill:")
          = [Call.printf "fill:#%02x%02x%02x;" [.uint r, .uint g, .uint b]] ∧
        render H (out.filter (Call.mentions "fill:"))
          = some (String.mk ['f', 'i', 'l', 'l', ':', '#',
              hex_digit (r.val / 16), hex_digit (r.val % 16),
              hex_digit (g.val / 16), hex_digit (g.val % 16),
              hex_digit (b.val / 16), hex_digit (b.val % 16), ';'])) := by
  constructor
  · intro s hc hs
    have hok : (Event.textpara job p para).ok := by
      show job.obj.pencolor ≠ .other
      rw [hc]
      simp
    refine ⟨_, appends_event (.textpara job p para) hok, ?_⟩
    rw [(textpara_mentions job p para).2]
    have hb := strcasecmp_black s hs
    by_cases hl : lower s = "black".toList
    · have hz := hb.2 hl
      simp only [text_fill_out, hc, hz, ne_eq, not_true_eq_false, if_false, hl, true_iff,
        false_implies, and_true]
    · have hz : strcasecmp s "black" ≠ 0 := fun e => hl (hb.1 e)
      have hp : Call.pieces (Call.printf "fill:%s;" [Arg.str (.var s)] : Call α)
          = some [Piece.text "fill:", Piece.str (.var s), Piece.text ";"] := rfl
      simp only [text_fill_out, hc, hz, ne_eq, not_false_eq_true, if_true, hl, iff_false,
        true_implies, true_and]
      refine ⟨by simp, ?_⟩
      simp [render, pieces, hp, render_pieces, Piece.render, char_p.render, String.append_assoc]
  · intro r g b a hc
    have hok : (Event.textpara job p para).ok := by
      show job.obj.pencolor ≠ .other
      rw [hc]
      simp
    refine ⟨_, appends_event (.textpara job p para) hok, ?_⟩
    rw [(textpara_mentions job p para).2]
    simp only [text_fill_out, hc, true_and]
    exact render_fill_bytes H r g b

/-- Witness of C17: `Black` is omitted, `red` and the bytes (255,128,0) are
written. -/
theorem svg_textpara_fill_witness :
    (is_c_string "Black" ∧ is_c_string "red") ∧
    (∃ out, Appends (svg_textpara
        { ex_job with obj := { ex_job.obj with pencolor := .COLOR_STRING "Black" } }
        { x := idouble.ofNat 5, y := idouble.ofNat 7 } ex_para) out ∧
      out.filter (Call.mentions "fill:") = []) ∧
    (∃ out, Appends (svg_textpara
        { ex_job with obj := { ex_job.obj with pencolor := .COLOR_STRING "red" } }
        { x := idouble.ofNat 5, y := idouble.ofNat 7 } ex_para) out ∧
      render host (out.filter (Call.mentions "fill:")) = some "fill:red;") ∧
    (∃ out, Appends (svg_textpara ex_job_dashed
        { x := idouble.ofNat 5, y := idouble.ofNat 7 } ex_para) out ∧
      render host (out.filter (Call.mentions "fill:")) = some "fill:#ff8000;") := by
  have c1 : is_c_string "Black" := by
    unfold is_c_string
    decide
  have c2 : is_c_string "red" := by
    unfold is_c_string
    decide
  refine ⟨⟨c1, c2⟩, ?_, ?_, ?_⟩
  · obtain ⟨out, h1, h2, -⟩ := (svg_textpara_fill host
      { ex_job with obj := { ex_job.obj with pencolor := .COLOR_STRING "Black" } }
      { x := idouble.ofNat 5, y := idouble.ofNat 7 } ex_para).1 "Black" rfl c1
    exact ⟨out, h1, h2.2 (by decide)⟩
  · obtain ⟨out, h1, -, h3⟩ := (svg_textpara_fill host
      { ex_job with obj := { ex_job.obj with pencolor := .COLOR_STRING "red" } }
      { x := idouble.ofNat 5, y := idouble.ofNat 7 } ex_para).1 "red" rfl c2
    exact ⟨out, h1, (h3 (by decide)).2⟩
  · obtain ⟨out, h1, -, h3⟩ := (svg_textpara_fill host ex_job_dashed
      { x := idouble.ofNat 5, y := idouble.ofNat 7 } ex_para).2 255 128 0 255 rfl
    exact ⟨out, h1, h3.trans (by decide)⟩

/-- C20: for a text run whose pen color is byte-RGBA with alpha 0,
`svg_textpara` returns and its one `fill:` call writes `fill:#`, the
hexadecimal digits of R, G and B, and `;`, whereas `svg_print_color` on the
same color writes `none`; a byte-RGBA black is written `fill:#000000;` under
every alpha, whereas the symbolic `black` gets no `fill:` call. -/
theorem svg_textpara_fill_transparent (H : Host α) (job : GVJ_t α) (p : pointf α)
    (para : textpara_t α) (r g b : Fin 256) (h : job.obj.pencolor = .RGBA_BYTE r g b 0) :
    (∃ out, Appends (svg_textpara job p para) out ∧
      out.filter (Call.mentions "fill:")
        = [Call.printf "fill:#%02x%02x%02x;" [.uint r, .uint g, .uint b]] ∧
      render H (out.filter (Call.mentions "fill:"))
        = some (String.mk ['f', 'i', 'l', 'l', ':', '#',
            hex_digit (r.val / 16), hex_digit (r.val % 16),
            hex_digit (g.val / 16), hex_digit (g.val % 16),
            hex_digit (b.val / 16), hex_digit (b.val % 16), ';'])) ∧
    (∃ out, Appends (svg_print_color job job.obj.pencolor) out ∧
      render H out = some "none") ∧
    (∀ a : Fin 256, ∃ out, Appends (svg_textpara
        { job with obj := { job.obj with pencolor := .RGBA_BYTE 0 0 0 a } } p para) out ∧
      render H (out.filter (Call.mentions "fill:")) = some "fill:#000000;") ∧
    (∃ out, Appends (svg_textpara
        { job with obj := { job.obj with pencolor := .COLOR_STRING "black" } } p para) out ∧
      out.filter (Call.mentions "fill:") = []) := by
  refine ⟨?_, ?_, ?_, ?_⟩
  · have hok : (Event.textpara job p para).ok := by
      show job.obj.pencolor ≠ .other
      rw [h]
      simp
    refine ⟨_, appends_event (.textpara job p para) hok, ?_⟩
    rw [(textpara_mentions job p para).2]
    simp only [text_fill_out, h, true_and]
    exact render_fill_bytes H r g b
  · rw [h]
    exact ⟨_, appends_print_color job _ (by simp), by
      simpa [encode] using render_color H (.RGBA_BYTE r g b 0) (by simp)⟩
  · intro a
    have hok : (Event.textpara
        { job with obj := { job.obj with pencolor := .RGBA_BYTE 0 0 0 a } } p para).ok := by
      show gvcolor_t.RGBA_BYTE 0 0 0 a ≠ .other
      simp
    refine ⟨_, appends_event (.textpara _ p para) hok, ?_⟩
    rw [(textpara_mentions _ p para).2]
    exact (render_fill_bytes H 0 0 0).trans (by decide)
  · have hok : (Event.textpara
        { job with obj := { job.obj with pencolor := .COLOR_STRING "black" } } p para).ok := by
      show gvcolor_t.COLOR_STRING "black" ≠ .other
      simp
    refine ⟨_, appends_event (.textpara _ p para) hok, ?_⟩
    rw [(textpara_mentions _ p para).2]
    rfl

/-- Witness of C20: the transparent pen (1,2,3,0) colors text `#010203`. -/
theorem svg_textpara_fill_transparent_witness :
    ({ ex_job with obj := { ex_job.obj with pencolor := .RGBA_BYTE 1 2 3 0 } }
        : GVJ_t idouble).obj.pencolor = .RGBA_BYTE 1 2 3 0 ∧
    ∃ out, Appends (svg_textpara
        { ex_job with obj := { ex_job.obj with pencolor := .RGBA_BYTE 1 2 3 0 } }
        { x := idouble.ofNat 5, y := idouble.ofNat 7 } ex_para) out ∧
      render host (out.filter (Call.mentions "fill:")) = some "fill:#010203;" := by
  obtain ⟨out, h1, -, h3⟩ := (svg_textpara_fill_transparent host
      { ex_job with obj := { ex_job.obj with pencolor := .RGBA_BYTE 1 2 3 0 } }
      { x := idouble.ofNat 5, y := idouble.ofNat 7 } ex_para 1 2 3 rfl).1
  exact ⟨rfl, out, h1, h3.trans (by decide)⟩

end text_fill

section escaping

variable {α : Type} [CDouble α] [Consts α]

omit [CDouble α] [Consts α] in
theorem anchor_attr_raw (fmt : String) (v : Option String) :
    raw_strings (anchor_attr_out fmt v : Sink α) = [] := by
  cases v with
  | none => rfl
  | some s =>
    by_cases hs : s = ""
    · simp only [anchor_attr_out, hs, ne_eq, not_true_eq_false, if_false]
      rfl
    · simp only [anchor_attr_out, hs, ne_eq, not_false_eq_true, if_true]
      rfl

omit [CDouble α] [Consts α] in
theorem raw_strings_append (a b : Sink α) :
    raw_strings (a ++ b) = raw_strings a ++ raw_strings b := by
  simp [raw_strings]

omit [CDouble α] [Consts α] in
theorem escaped_strings_append (a b : Sink α) :
    escaped_strings (a ++ b) = escaped_strings a ++ escaped_strings b := by
  simp [escaped_strings]

set_option maxRecDepth 100000 in
/-- C11 (code bug): `svg_begin_job` returns, and the one caller's string it
writes without `xml_string` is the stylesheet URL of the graph, when that is
set and non-empty; the strings of the generator comment it writes escaped.
Every callback other than `svg_begin_job` and those of the shapes and of text
writes no caller's string raw: the names of nodes, edge endpoints, clusters and
layers, the text of comments and of labels go through `xml_string`.  On the
graph whose stylesheet is `a"b&c?>` the document therefore holds that string
as it is, and its escaped form nowhere. -/
theorem svg_begin_job_stylesheet_raw :
    (∀ job : GVJ_t α, ∃ out, Appends (svg_begin_job job) out ∧
      raw_strings out = (match agget job.gvc.g "stylesheet" with
        | some s => if s ≠ "" then [s] else []
        | none => []) ∧
      escaped_strings out
        = [job.common.info 0, job.common.info 1, job.common.info 2, job.common.user]) ∧
    (∀ e : Event α, e.is_begin_job = true ∨ e.is_drawing = true ∨
      raw_strings (event_out e) = []) ∧
    (∀ (job : GVJ_t α) (layername str : String) (i k : Int) (p : pointf α)
        (para : textpara_t α),
      escaped_strings (event_out (.begin_node job)) = [job.obj.u.n.name] ∧
      escaped_strings (event_out (.begin_edge job))
        = [job.obj.u.e.tail.name, job.obj.u.e.head.name] ∧
      escaped_strings (event_out (.begin_cluster job)) = [job.obj.u.sg.name] ∧
      escaped_strings (event_out (.begin_layer job layername i k)) = [layername] ∧
      escaped_strings (event_out (.comment job str)) = [str] ∧
      escaped_strings (event_out (.textpara job p para)) = [para.str]) ∧
    (∃ out, Appends (svg_begin_job ex_job_sheet) out ∧
      raw_strings out = ["a\"b&c?>"] ∧
      render host out = some ("<?xml version=\"1.0\" encoding=\"UTF-8\" standalone=\"no\"?>\n"
        ++ "<?xml-stylesheet href=\"a\"b&c?>\" type=\"text/css\"?>\n"
        ++ "<!DOCTYPE svg PUBLIC \"-//W3C//DTD SVG 1.0//EN\"\n"
        ++ " \"http://www.w3.org/TR/2001/REC-SVG-20010904/DTD/svg10.dtd\" [\n"
        ++ " <!ATTLIST svg xmlns:xlink CDATA #FIXED \"http://www.w3.org/1999/xlink\">\n]>\n"
        ++ "<!-- Generated by graphviz version 2.20 (2008)\n     For user: user -->\n") ∧
      host.xml_string "a\"b&c?>" = "a&quot;b&amp;c?&gt;" ∧
      (∀ doc, render host out = some doc →
        occurs_in "a\"b&c?>".toList doc.toList = true ∧
        occurs_in (host.xml_string "a\"b&c?>").toList doc.toList = false)) := by
  refine ⟨?_, ?_, ?_, ?_⟩
  · intro job
    refine ⟨_, appends_event (.begin_job job) trivial, ?_, ?_⟩
    · simp only [event_out, raw_strings_append, stylesheet_out]
      cases agget job.gvc.g "stylesheet" with
      | none => rfl
      | some s =>
        by_cases hs : s = ""
        · simp only [hs, ne_eq, not_true_eq_false, if_false]
          rfl
        · simp only [hs, ne_eq, not_false_eq_true, if_true]
          rfl
    · simp only [event_out, escaped_strings_append, stylesheet_out]
      cases agget job.gvc.g "stylesheet" with
      | none => rfl
      | some s =>
        by_cases hs : s = ""
        · simp only [hs, ne_eq, not_true_eq_false, if_false]
          rfl
        · simp only [hs, ne_eq, not_false_eq_true, if_true]
          rfl
  · intro e
    cases e with
    | begin_job job => exact Or.inl rfl
    | textpara job p para => exact Or.inr (Or.inl rfl)
    | ellipse job A filled => exact Or.inr (Or.inl rfl)
    | polygon job A n filled => exact Or.inr (Or.inl rfl)
    | bezier job A n s e filled => exact Or.inr (Or.inl rfl)
    | polyline job A n => exact Or.inr (Or.inl rfl)
    | begin_graph job =>
      refine Or.inr (Or.inr ?_)
      simp only [event_out, raw_strings_append]
      by_cases hn : job.obj.u.g.name = ""
      · simp only [hn, ne_eq, not_true_eq_false, if_false]
        rfl
      · simp only [hn, ne_eq, not_false_eq_true, if_true]
        rfl
    | begin_page job =>
      refine Or.inr (Or.inr ?_)
      simp only [event_out, raw_strings_append]
      by_cases hn : job.obj.u.g.name = ""
      · simp only [hn, ne_eq, not_true_eq_false, if_false]
        rfl
      · simp only [hn, ne_eq, not_false_eq_true, if_true]
        rfl
    | begin_edge job =>
      refine Or.inr (Or.inr ?_)
      simp only [event_out]
      split_ifs <;> rfl
    | begin_anchor job href tooltip target =>
      refine Or.inr (Or.inr ?_)
      simp only [event_out, raw_strings_append, anchor_attr_raw]
      rfl
    | _ => exact Or.inr (Or.inr rfl)
  · intro job layername str i k p para
    refine ⟨rfl, ?_, rfl, rfl, rfl, ?_⟩
    · simp only [event_out]
      split_ifs <;> rfl
    · have hf : escaped_strings (font_out job para) = [] := by
        unfold font_out
        cases para.postscript_alias with
        | none => rfl
        | some pA =>
          obtain ⟨name, family, weight, stretch, style⟩ := pA
          cases weight <;> cases stretch <;> cases style <;> rfl
      have hc : escaped_strings (text_fill_out job) = [] := by
        unfold text_fill_out
        cases job.obj.pencolor with
        | COLOR_STRING s =>
          by_cases hb : strcasecmp s "black" = 0
          · simp only [hb, ne_eq, not_true_eq_false, if_false]
            rfl
          · simp only [hb, ne_eq, not_false_eq_true, if_true]
            rfl
        | RGBA_BYTE r g b a => rfl
        | other => rfl
      simp only [event_out, escaped_strings_append, hf, hc]
      split_ifs <;> rfl
  · refine ⟨_, appends_event (.begin_job ex_job_sheet) trivial, by decide, by decide, by decide,
      ?_⟩
    intro doc hd
    have h : render host (event_out (.begin_job ex_job_sheet)) = some
        ("<?xml version=\"1.0\" encoding=\"UTF-8\" standalone=\"no\"?>\n"
        ++ "<?xml-stylesheet href=\"a\"b&c?>\" type=\"text/css\"?>\n"
        ++ "<!DOCTYPE svg PUBLIC \"-//W3C//DTD SVG 1.0//EN\"\n"
        ++ " \"http://www.w3.org/TR/2001/REC-SVG-20010904/DTD/svg10.dtd\" [\n"
        ++ " <!ATTLIST svg xmlns:xlink CDATA #FIXED \"http://www.w3.org/1999/xlink\">\n]>\n"
        ++ "<!-- Generated by graphviz version 2.20 (2008)\n     For user: user -->\n") := by
      decide
    rw [h] at hd
    rw [← Option.some.inj hd]
    exact ⟨by decide, by decide⟩

end escaping

section bytes

variable {α : Type}

theorem lex_text_free (r : List Char) (h : ∀ c ∈ r, c ≠ '<') :
    lex .text (r.map some) = (.text, []) := by
  induction r with
  | nil => rfl
  | cons c cs ih =>
    have hc : c ≠ '<' := h c (List.mem_cons_self _ _)
    have hs : Lex.step .text (some c) = (.text, none) := by
      simp [Lex.step, hc]
    simp [lex, hs, ih (fun x hx => h x (List.mem_cons_of_mem _ hx))]

theorem lex_value_free (n : List Char) (r : List Char) (h : ∀ c ∈ r, c ≠ '"') :
    lex (.value n) (r.map some) = (.value n, []) := by
  induction r with
  | nil => rfl
  | cons c cs ih =>
    have hc : c ≠ '"' := h c (List.mem_cons_self _ _)
    have hs : Lex.step (.value n) (some c) = (.value n, none) := by
      simp [Lex.step, hc]
    simp [lex, hs, ih (fun x hx => h x (List.mem_cons_of_mem _ hx))]

theorem lex_comment_free (r : List Char) (h : ∀ c ∈ r, c ≠ '>') (k : Nat) :
    ∃ k', lex (.comment k) (r.map some) = (.comment k', []) := by
  induction r generalizing k with
  | nil => exact ⟨k, rfl⟩
  | cons c cs ih =>
    have hc : c ≠ '>' := h c (List.mem_cons_self _ _)
    have hs : ∃ k1, Lex.step (.comment k) (some c) = (.comment k1, none) := by
      by_cases hd : c = '-'
      · exact ⟨min (k + 1) 2, by simp [Lex.step, hd]⟩
      · exact ⟨0, by simp [Lex.step, hd, hc]⟩
    obtain ⟨k1, hk1⟩ := hs
    obtain ⟨k', hk'⟩ := ih (fun x hx => h x (List.mem_cons_of_mem _ hx)) k1
    exact ⟨k', by simp [lex, hk1, hk']⟩

theorem lex_pi_free (r : List Char) (h : ∀ c ∈ r, c ≠ '>') (q : Bool) :
    ∃ q', lex (.pi q) (r.map some) = (.pi q', []) := by
  induction r generalizing q with
  | nil => exact ⟨q, rfl⟩
  | cons c cs ih =>
    have hc : c ≠ '>' := h c (List.mem_cons_self _ _)
    have hs : ∃ q1, Lex.step (.pi q) (some c) = (.pi q1, none) := by
      by_cases hd : c = '?'
      · exact ⟨true, by simp [Lex.step, hd]⟩
      · exact ⟨false, by simp [Lex.step, hd, hc]⟩
    obtain ⟨q1, hq1⟩ := hs
    obtain ⟨q', hq'⟩ := ih (fun x hx => h x (List.mem_cons_of_mem _ hx)) q1
    exact ⟨q', by simp [lex, hq1, hq']⟩

theorem markup_free_chars {s : String} (h : markup_free s = true) :
    ∀ c ∈ s.toList, c ≠ '<' ∧ c ≠ '>' ∧ c ≠ '"' := by
  intro c hc
  simp only [markup_free, List.all_eq_true, Bool.and_eq_true, bne_iff_ne, ne_eq] at h
  have := h c hc
  exact ⟨this.1.1, this.1.2, this.2⟩

/-- A value that is free of markup, read in a stable state, closes no tag
and leaves the lexer where the opaque value leaves it, up to the count of
characters of a terminator. -/
theorem lex_value_piece (sm sb : Lex) (f : Bool) (r : List Char)
    (hr : ∀ c ∈ r, c ≠ '<' ∧ c ≠ '>' ∧ c ≠ '"')
    (hst : sm.stable = true) (hf : Lex.follows f sb sm) :
    sm.step none = (sm, none) ∧ (lex sb (r.map some)).2 = [] ∧
      Lex.follows sm.fragile (lex sb (r.map some)).1 sm := by
  cases sm with
  | text =>
    have hb : sb = .text := by
      cases f with
      | false => exact hf
      | true => simp [Lex.follows] at hf
    subst hb
    rw [lex_text_free r (fun c hc => (hr c hc).1)]
    exact ⟨rfl, rfl, rfl⟩
  | value n =>
    have hb : sb = .value n := by
      cases f with
      | false => exact hf
      | true => simp [Lex.follows] at hf
    subst hb
    rw [lex_value_free n r (fun c hc => (hr c hc).2.2)]
    exact ⟨rfl, rfl, rfl⟩
  | comment k =>
    have hk : k = 0 := by
      cases k with
      | zero => rfl
      | succ k => simp [Lex.stable] at hst
    subst hk
    have hb : ∃ k, sb = .comment k := by
      cases f with
      | false => exact ⟨0, hf⟩
      | true =>
        simp only [Lex.follows, if_true] at hf
        rcases hf with ⟨h1, -⟩ | ⟨-, h2⟩
        · exact h1
        · cases h2
    obtain ⟨k, rfl⟩ := hb
    obtain ⟨k', hk'⟩ := lex_comment_free r (fun c hc => (hr c hc).2.1) k
    rw [hk']
    refine ⟨rfl, rfl, ?_⟩
    exact Or.inl ⟨⟨k', rfl⟩, rfl⟩
  | pi q =>
    have hq : q = false := by
      cases q with
      | false => rfl
      | true => simp [Lex.stable] at hst
    subst hq
    have hb : ∃ q, sb = .pi q := by
      cases f with
      | false => exact ⟨false, hf⟩
      | true =>
        simp only [Lex.follows, if_true] at hf
        rcases hf with ⟨-, h2⟩ | ⟨h1, -⟩
        · cases h2
        · exact h1
    obtain ⟨q, rfl⟩ := hb
    obtain ⟨q', hq'⟩ := lex_pi_free r (fun c hc => (hr c hc).2.1) q
    rw [hq']
    refine ⟨rfl, rfl, ?_⟩
    exact Or.inr ⟨⟨q', rfl⟩, rfl⟩
  | lt => simp [Lex.stable] at hst
  | name n => simp [Lex.stable] at hst
  | attrs n => simp [Lex.stable] at hst
  | slash n => simp [Lex.stable] at hst
  | close n => simp [Lex.stable] at hst
  | bang => simp [Lex.stable] at hst
  | bang_dash => simp [Lex.stable] at hst
  | decl d q => simp [Lex.stable] at hst
  | bad => simp [Lex.stable] at hst

/-- Program text read after a value: the first character brings the lexer
on the bytes and the lexer on the markup to the same state. -/
theorem lex_text_piece (sm sb : Lex) (f : Bool) (c : Char) (cs : List Char)
    (hc : (f && (c == '-' || c == '?' || c == '>')) = false) (hf : Lex.follows f sb sm) :
    lex sb ((c :: cs).map some) = lex sm ((c :: cs).map some) := by
  cases f with
  | false =>
    have : sb = sm := hf
    rw [this]
  | true =>
    simp only [Bool.true_and, Bool.or_eq_false_iff, beq_eq_false_iff_ne, ne_eq] at hc
    obtain ⟨⟨h1, h2⟩, h3⟩ := hc
    simp only [Lex.follows, if_true] at hf
    have hs : sb.step (some c) = sm.step (some c) := by
      rcases hf with ⟨⟨k, rfl⟩, rfl⟩ | ⟨⟨q, rfl⟩, rfl⟩
      · simp [Lex.step, h1, h3]
      · simp [Lex.step, h2, h3]
    simp only [List.map_cons, lex, hs]

theorem items_of_value (p : Piece α) (h : p.is_text = false) : p.items = [none] := by
  cases p <;> first | rfl | simp [Piece.is_text] at h

theorem scan_of_value (p : Piece α) (h : p.is_text = false) (f : Bool) (st : Lex)
    (ps : List (Piece α)) :
    scan_values f st (p :: ps) = if st.stable then scan_values st.fragile st ps else none := by
  cases p <;> first | rfl | simp [Piece.is_text] at h

theorem scan_of_text (s : String) (f : Bool) (st : Lex) (ps : List (Piece α)) :
    scan_values f st (Piece.text s :: ps) =
      if s.toList = [] then scan_values f st ps
      else if (f && (s.toList.head? == some '-' || s.toList.head? == some '?'
          || s.toList.head? == some '>')) = true then none
      else scan_values false (lex st (s.toList.map some)).1 ps := by
  simp only [scan_values]
  cases hs : s.toList with
  | nil => simp
  | cons c cs =>
    simp only [List.head?_cons, reduceCtorEq, if_false]
    have e : ∀ d : Char, (some c == some d) = (c == d) := fun d => by
      by_cases h : c = d <;> simp [h]
    simp only [e]

theorem scan_values_append (a b : List (Piece α)) (f : Bool) (st : Lex) :
    scan_values f st (a ++ b) = (scan_values f st a).bind (fun r => scan_values r.1 r.2 b) := by
  induction a generalizing f st with
  | nil => rfl
  | cons p ps ih =>
    by_cases hp : p.is_text = true
    · obtain ⟨s, rfl⟩ : ∃ s, p = Piece.text s := by
        cases p <;> first | exact ⟨_, rfl⟩ | simp [Piece.is_text] at hp
      rw [List.cons_append, scan_of_text, scan_of_text]
      split_ifs
      · exact ih _ _
      · rfl
      · exact ih _ _
    · have hp2 : p.is_text = false := by simpa using hp
      rw [List.cons_append, scan_of_value p hp2, scan_of_value p hp2]
      split_ifs
      · exact ih _ _
      · rfl

theorem quiet_nil (st : Lex) : Quiet st ([] : Sink α) st :=
  ⟨[], rfl, rfl⟩

theorem Quiet.concat {st st1 st2 : Lex} {a b : Sink α}
    (ha : Quiet st a st1) (hb : Quiet st1 b st2) : Quiet st (a ++ b) st2 := by
  obtain ⟨pa, hpa, hsa⟩ := ha
  obtain ⟨pb, hpb, hsb⟩ := hb
  refine ⟨pa ++ pb, ?_, ?_⟩
  · rw [pieces_append, hpa, hpb]
    rfl
  · rw [scan_values_append, hsa]
    exact hsb

theorem Quiet.recast {st st' : Lex} {a b : Sink α} (h : Quiet st a st') (e : a = b) :
    Quiet st b st' := by
  subst e
  exact h

/-- Where the values stand as data and are free of markup, the lexer finds
in the bytes the tags it finds in the markup. -/
theorem lex_bytes (H : Host α) (ps : List (Piece α)) :
    ∀ (f : Bool) (sm sb : Lex) (f' : Bool) (sm' : Lex),
      scan_values f sm ps = some (f', sm') →
      (∀ p ∈ ps, p.is_text = false → markup_free (p.render H) = true) →
      Lex.follows f sb sm →
      (lex sm (items ps)).1 = sm' ∧
      (lex sb ((render_pieces H ps).toList.map some)).2 = (lex sm (items ps)).2 ∧
      Lex.follows f' (lex sb ((render_pieces H ps).toList.map some)).1 sm' := by
  induction ps with
  | nil =>
    intro f sm sb f' sm' hs _ hf
    simp only [scan_values, Option.some.injEq, Prod.mk.injEq] at hs
    obtain ⟨rfl, rfl⟩ := hs
    exact ⟨rfl, rfl, hf⟩
  | cons p ps ih =>
    intro f sm sb f' sm' hs hv hf
    have hv2 : ∀ q ∈ ps, q.is_text = false → markup_free (q.render H) = true :=
      fun q hq => hv q (List.mem_cons_of_mem _ hq)
    have hbytes : (render_pieces H (p :: ps)).toList.map some
        = (p.render H).toList.map some ++ (render_pieces H ps).toList.map some := by
      simp [render_pieces]
    have hitems : items (p :: ps) = p.items ++ items ps := rfl
    rw [hbytes, hitems, lex_append, lex_append]
    by_cases hp : p.is_text = true
    · obtain ⟨s, rfl⟩ : ∃ s, p = Piece.text s := by
        cases p <;> first | exact ⟨_, rfl⟩ | simp [Piece.is_text] at hp
      rw [scan_of_text] at hs
      have hr : (Piece.text s : Piece α).render H = s := rfl
      have hi : (Piece.text s : Piece α).items = s.toList.map some := rfl
      rw [hr, hi]
      by_cases he : s.toList = []
      · rw [if_pos he] at hs
        simp only [he, List.map_nil, lex, List.nil_append]
        exact ih f sm sb f' sm' hs hv2 hf
      · rw [if_neg he] at hs
        obtain ⟨c, cs, hcs⟩ : ∃ c cs, s.toList = c :: cs := by
          cases h : s.toList with
          | nil => exact absurd h he
          | cons c cs => exact ⟨c, cs, rfl⟩
        by_cases hc : (f && (s.toList.head? == some '-' || s.toList.head? == some '?'
            || s.toList.head? == some '>')) = true
        · rw [if_pos hc] at hs
          cases hs
        · rw [if_neg hc] at hs
          have hc2 : (f && (c == '-' || c == '?' || c == '>')) = false := by
            have e : ∀ d : Char, (some c == some d) = (c == d) := fun d => by
              by_cases h : c = d <;> simp [h]
            rw [hcs] at hc
            simpa [e] using hc
          have hl := lex_text_piece sm sb f c cs hc2 hf
          rw [hcs, hl]
          rw [hcs] at hs
          obtain ⟨h1, h2, h3⟩ := ih false (lex sm ((c :: cs).map some)).1
            (lex sm ((c :: cs).map some)).1 f' sm' hs hv2 rfl
          exact ⟨h1, by rw [h2], h3⟩
    · have hp2 : p.is_text = false := by simpa using hp
      rw [scan_of_value p hp2] at hs
      by_cases hst : sm.stable = true
      · rw [if_pos hst] at hs
        have hfree := markup_free_chars (hv p (List.mem_cons_self _ _) hp2)
        obtain ⟨k1, k2, k3⟩ := lex_value_piece sm sb f (p.render H).toList hfree hst hf
        obtain ⟨h1, h2, h3⟩ := ih sm.fragile sm (lex sb ((p.render H).toList.map some)).1
          f' sm' hs hv2 k3
        rw [items_of_value p hp2]
        have hn : lex sm [none] = (sm, []) := by
          simp [lex, k1]
        rw [hn, k2]
        exact ⟨h1, by simpa using h2, h3⟩
      · rw [if_neg hst] at hs
        cases hs

/-- The tags of the bytes are the tags of the markup, when the values stand
as data and every written value is free of markup. -/
theorem doc_tags_of_quiet (H : Host α) (out : Sink α) (ts : List Tag)
    (hq : Quiet .text out .text) (ht : tags out = some ts)
    (hv : ∀ s ∈ written_values H out, markup_free s = true) :
    ∃ doc, render H out = some doc ∧ doc_tags doc = some ts := by
  obtain ⟨ps, hps, hsc⟩ := hq
  have hv2 : ∀ p ∈ ps, p.is_text = false → markup_free (p.render H) = true := by
    intro p hp ht
    apply hv
    simp only [written_values, hps, Option.getD_some, List.mem_map, List.mem_filter]
    exact ⟨p, ⟨hp, by simp [ht]⟩, rfl⟩
  obtain ⟨h1, h2, h3⟩ := lex_bytes H ps false .text .text false .text hsc hv2 rfl
  have h3 : (lex .text ((render_pieces H ps).toList.map some)).1 = .text := h3
  refine ⟨render_pieces H ps, by simp [render, hps], ?_⟩
  simp only [tags, markup, hps, Option.map_some', h1, if_true, Option.some.injEq] at ht
  simp only [doc_tags, h3, if_true, h2, ht]

end bytes
section event_values

variable {α : Type}

theorem color_quiet (n : List Char) (c : gvcolor_t) :
    Quiet (.value n) (color_out c : Sink α) (.value n) := by
  cases c with
  | COLOR_STRING s => exact ⟨_, rfl, rfl⟩
  | RGBA_BYTE r g b a =>
    by_cases ha : a = 0
    · simp only [color_out, ha, if_true]
      exact ⟨_, rfl, rfl⟩
    · simp only [color_out, ha, if_false]
      exact ⟨_, rfl, rfl⟩
  | other => exact quiet_nil _

theorem opt_printf_quiet (n : List Char) (v : Option String) :
    Quiet (.value n) (opt_printf_out "font-weight:%s;" v : Sink α) (.value n)
    ∧ Quiet (.value n) (opt_printf_out "font-stretch:%s;" v : Sink α) (.value n)
    ∧ Quiet (.value n) (opt_printf_out "font-style:%s;" v : Sink α) (.value n) := by
  cases v with
  | none => exact ⟨quiet_nil _, quiet_nil _, quiet_nil _⟩
  | some v => exact ⟨⟨_, rfl, rfl⟩, ⟨_, rfl, rfl⟩, ⟨_, rfl, rfl⟩⟩

theorem font_quiet (n : List Char) (job : GVJ_t α) (para : textpara_t α) :
    Quiet (.value n) (font_out job para) (.value n) := by
  unfold font_out
  cases para.postscript_alias with
  | none => exact ⟨_, rfl, rfl⟩
  | some pA =>
    have h1 : Quiet (.value n) ([Call.printf "font-family:%s;"
        [.str (.var (match GD_fontnames job.gvc.g with
          | .PSFONTS => pA.name
          | .NATIVEFONTS => pA.family
          | .SVGFONTS => pA.family))]] : Sink α) (.value n) := ⟨_, rfl, rfl⟩
    exact ((h1.concat (opt_printf_quiet n pA.weight).1).concat
      (opt_printf_quiet n pA.stretch).2.1).concat (opt_printf_quiet n pA.style).2.2

theorem text_fill_quiet (n : List Char) (job : GVJ_t α) :
    Quiet (.value n) (text_fill_out job) (.value n) := by
  unfold text_fill_out
  cases job.obj.pencolor with
  | COLOR_STRING s =>
    by_cases hb : strcasecmp s "black" = 0
    · simp only [hb, ne_eq, not_true_eq_false, if_false]
      exact quiet_nil _
    · simp only [hb, ne_eq, not_false_eq_true, if_true]
      exact ⟨_, rfl, rfl⟩
  | RGBA_BYTE r g b a => exact ⟨_, rfl, rfl⟩
  | other => exact quiet_nil _

variable [CDouble α] [Consts α]

omit [Consts α] in
theorem points_quiet (n : List Char) (A : Nat → pointf α) (k i : Nat) :
    Quiet (.value n) (points_out A i k) (.value n) := by
  induction k generalizing i with
  | zero => exact quiet_nil _
  | succ k ih =>
    have h1 : Quiet (.value n) ([Call.printf "%g,%g "
        [.double (A i).x, .double (-(A i).y)]] : Sink α) (.value n) := ⟨_, rfl, rfl⟩
    exact (h1.concat (ih (i + 1))).recast rfl

omit [Consts α] in
theorem bzpt_quiet (n : List Char) (A : Nat → pointf α) (k i : Nat) (c : Char) :
    Quiet (.value n) (bzpt_out A i k c) (.value n) := by
  induction k generalizing i c with
  | zero => exact quiet_nil _
  | succ k ih =>
    have h1 : Quiet (.value n) ([Call.printf "%c%g,%g"
        [.char c, .double (A i).x, .double (-(A i).y)]] : Sink α) (.value n) := ⟨_, rfl, rfl⟩
    exact (h1.concat (ih (i + 1) _)).recast rfl

theorem grstyle_quiet (n : List Char) (job : GVJ_t α) (filled : Int) :
    Quiet (.name n) (grstyle_out job filled) (.attrs n) := by
  have h1 : Quiet (.name n) ([Call.fputs (.lit " style=\"fill:")] : Sink α) (.value n) :=
    ⟨_, rfl, rfl⟩
  have h2 : Quiet (.value n)
      (if filled ≠ 0 then color_out job.obj.fillcolor else [Call.fputs (.lit "none")] : Sink α)
      (.value n) := by
    by_cases hz : filled = 0
    · simp only [hz, ne_eq, not_true_eq_false, if_false]
      exact ⟨_, rfl, rfl⟩
    · simp only [hz, ne_eq, not_false_eq_true, if_true]
      exact color_quiet n _
  have h3 : Quiet (.value n) ([Call.fputs (.lit ";stroke:")] : Sink α) (.value n) :=
    ⟨_, rfl, rfl⟩
  have h4 : Quiet (.value n)
      (if CDouble.ne job.obj.penwidth PENWIDTH_NORMAL then
          [Call.printf ";stroke-width:%g" [.double job.obj.penwidth]] else [] : Sink α)
      (.value n) := by
    split_ifs
    · exact ⟨_, rfl, rfl⟩
    · exact quiet_nil _
  have h5 : Quiet (.value n)
      (if job.obj.pen = .PEN_DASHED then [Call.printf ";stroke-dasharray:%s" [.str sdarray]]
        else if job.obj.pen = .PEN_DOTTED then
          [Call.printf ";stroke-dasharray:%s" [.str sdotarray]]
        else [] : Sink α)
      (.value n) := by
    split_ifs
    · exact ⟨_, rfl, rfl⟩
    · exact ⟨_, rfl, rfl⟩
    · exact quiet_nil _
  have h6 : Quiet (.value n) ([Call.fputs (.lit ";\"")] : Sink α) (.attrs n) :=
    ⟨_, rfl, rfl⟩
  exact ((((((h1.concat h2).concat h3).concat (color_quiet n _)).concat h4).concat h5).concat
    h6).recast rfl

theorem anchor_quiet (job : GVJ_t α) (href tooltip target : Option String) :
    Quiet .text (event_out (.begin_anchor job href tooltip target)) .text := by
  have key : ∀ (st : Lex) (fmt : String) (v : Option String),
      (st = .name ['a'] ∨ st = .attrs ['a']) →
      (fmt = " xlink:href=\"%s\"" ∨ fmt = " xlink:title=\"%s\"" ∨ fmt = " target=\"%s\"") →
      ∃ st', (st' = .name ['a'] ∨ st' = .attrs ['a']) ∧
        Quiet st (anchor_attr_out fmt v : Sink α) st' := by
    intro st fmt v hst hfmt
    cases v with
    | none => exact ⟨st, hst, quiet_nil _⟩
    | some v =>
      by_cases hv : v = ""
      · refine ⟨st, hst, ?_⟩
        simp only [anchor_attr_out, hv, ne_eq, not_true_eq_false, if_false]
        exact quiet_nil _
      · refine ⟨.attrs ['a'], Or.inr rfl, ?_⟩
        simp only [anchor_attr_out, hv, ne_eq, not_false_eq_true, if_true]
        rcases hst with rfl | rfl <;> rcases hfmt with rfl | rfl | rfl <;> exact ⟨_, rfl, rfl⟩
  have h0 : Quiet .text ([Call.fputs (.lit "<a")] : Sink α) (.name ['a']) := ⟨_, rfl, rfl⟩
  obtain ⟨s1, hs1, k1⟩ := key (.name ['a']) " xlink:href=\"%s\"" href (Or.inl rfl) (Or.inl rfl)
  obtain ⟨s2, hs2, k2⟩ := key s1 " xlink:title=\"%s\"" tooltip hs1 (Or.inr (Or.inl rfl))
  obtain ⟨s3, hs3, k3⟩ := key s2 " target=\"%s\"" target hs2 (Or.inr (Or.inr rfl))
  have h4 : Quiet s3 ([Call.fputs (.lit ">\n")] : Sink α) .text := by
    rcases hs3 with rfl | rfl <;> exact ⟨_, rfl, rfl⟩
  exact ((((h0.concat k1).concat k2).concat k3).concat h4).recast rfl

set_option maxRecDepth 20000 in
theorem event_quiet (e : Event α) : Quiet .text (event_out e) .text := by
  cases e with
  | begin_job job =>
    have h1 : Quiet .text ([Call.init_compression (compression_of job.render_id),
        Call.fputs (.lit "<?xml version=\"1.0\" encoding=\"UTF-8\" standalone=\"no\"?>\n")]
        : Sink α) .text := ⟨_, rfl, rfl⟩
    have h2 : Quiet .text (stylesheet_out job) .text := by
      unfold stylesheet_out
      cases agget job.gvc.g "stylesheet" with
      | none => exact quiet_nil _
      | some s =>
        by_cases hs : s = ""
        · simp only [hs, ne_eq, not_true_eq_false, if_false]
          exact quiet_nil _
        · simp only [hs, ne_eq, not_false_eq_true, if_true]
          exact ⟨_, rfl, rfl⟩
    have h3 : Quiet .text
        ([Call.fputs (.lit "<!DOCTYPE svg PUBLIC \"-//W3C//DTD SVG 1.0//EN\"\n"),
          Call.fputs (.lit " \"http://www.w3.org/TR/2001/REC-SVG-20010904/DTD/svg10.dtd\""),
          Call.fputs (.lit " [\n <!ATTLIST svg xmlns:xlink CDATA #FIXED \"http://www.w3.org/1999/xlink\">\n]"),
          Call.fputs (.lit ">\n<!-- Generated by "),
          Call.fputs (.xml_string (job.common.info 0)),
          Call.fputs (.lit " version "),
          Call.fputs (.xml_string (job.common.info 1)),
          Call.fputs (.lit " ("),
          Call.fputs (.xml_string (job.common.info 2)),
          Call.fputs (.lit ")\n     For user: "),
          Call.fputs (.xml_string job.common.user),
          Call.fputs (.lit " -->\n")] : Sink α) .text := ⟨_, rfl, rfl⟩
    exact ((h1.concat h2).concat h3).recast rfl
  | begin_graph job =>
    by_cases hn : job.obj.u.g.name = ""
    · simp only [event_out, hn, ne_eq, not_true_eq_false, if_false]
      exact ⟨_, rfl, rfl⟩
    · simp only [event_out, hn, ne_eq, not_false_eq_true, if_true]
      exact ⟨_, rfl, rfl⟩
  | end_graph job => exact ⟨_, rfl, rfl⟩
  | begin_layer job layername layerNum numLayers => exact ⟨_, rfl, rfl⟩
  | end_layer job => exact ⟨_, rfl, rfl⟩
  | begin_page job =>
    by_cases hn : job.obj.u.g.name = ""
    · simp only [event_out, hn, ne_eq, not_true_eq_false, if_false]
      exact ⟨_, rfl, rfl⟩
    · simp only [event_out, hn, ne_eq, not_false_eq_true, if_true]
      exact ⟨_, rfl, rfl⟩
  | end_page job => exact ⟨_, rfl, rfl⟩
  | begin_cluster job => exact ⟨_, rfl, rfl⟩
  | end_cluster job => exact ⟨_, rfl, rfl⟩
  | begin_node job => exact ⟨_, rfl, rfl⟩
  | end_node job => exact ⟨_, rfl, rfl⟩
  | begin_edge job =>
    by_cases hd : job.obj.u.e.tail.graph.root_kind &&& (AGFLAG_DIRECTED α) = 0
    · simp only [event_out, hd, ne_eq, not_true_eq_false, if_false]
      exact ⟨_, rfl, rfl⟩
    · simp only [event_out, hd, ne_eq, not_false_eq_true, if_true]
      exact ⟨_, rfl, rfl⟩
  | end_edge job => exact ⟨_, rfl, rfl⟩
  | begin_anchor job href tooltip target => exact anchor_quiet job href tooltip target
  | end_anchor job => exact ⟨_, rfl, rfl⟩
  | textpara job p para =>
    have h1 : Quiet .text ([Call.fputs (.lit "<text"),
        Call.fputs (if para.just = 'l' then .lit " text-anchor=\"start\""
          else if para.just = 'r' then .lit " text-anchor=\"end\""
          else .lit " text-anchor=\"middle\""),
        Call.printf " x=\"%g\" y=\"%g\"" [.double p.x, .double (-p.y)],
        Call.fputs (.lit " style=\"")] : Sink α) (.value "txet".toList) := by
      split_ifs <;> exact ⟨_, rfl, rfl⟩
    have h2 : Quiet (.value "txet".toList)
        ([Call.printf "font-size:%.2f;" [.double para.fontsize]] : Sink α)
        (.value "txet".toList) := ⟨_, rfl, rfl⟩
    have h3 : Quiet (.value "txet".toList) ([Call.fputs (.lit "\">"),
        Call.fputs (.xml_string para.str), Call.fputs (.lit "</text>\n")] : Sink α)
        .text := ⟨_, rfl, rfl⟩
    exact ((((h1.concat (font_quiet _ job para)).concat h2).concat
      (text_fill_quiet _ job)).concat h3).recast rfl
  | ellipse job A filled =>
    have h1 : Quiet .text ([Call.fputs (.lit "<ellipse")] : Sink α)
        (.name "espille".toList) := ⟨_, rfl, rfl⟩
    have h3 : Quiet (.attrs "espille".toList)
        ([Call.printf " cx=\"%g\" cy=\"%g\"" [.double (A 0).x, .double (-(A 0).y)],
          Call.printf " rx=\"%g\" ry=\"%g\""
            [.double ((A 1).x - (A 0).x), .double ((A 1).y - (A 0).y)],
          Call.fputs (.lit "/>\n")] : Sink α) .text := ⟨_, rfl, rfl⟩
    exact ((h1.concat (grstyle_quiet _ job filled)).concat h3).recast rfl
  | polygon job A n filled =>
    have h1 : Quiet .text ([Call.fputs (.lit "<polygon")] : Sink α)
        (.name "nogylop".toList) := ⟨_, rfl, rfl⟩
    have h3 : Quiet (.attrs "nogylop".toList) ([Call.fputs (.lit " points=\"")] : Sink α)
        (.value "nogylop".toList) := ⟨_, rfl, rfl⟩
    have h5 : Quiet (.value "nogylop".toList)
        ([Call.printf "%g,%g" [.double (A 0).x, .double (-(A 0).y)],
          Call.fputs (.lit "\"/>\n")] : Sink α) .text := ⟨_, rfl, rfl⟩
    exact ((((h1.concat (grstyle_quiet _ job filled)).concat h3).concat
      (points_quiet _ A n.toNat 0)).concat h5).recast rfl
  | bezier job A n arrow_at_start arrow_at_end filled =>
    have h1 : Quiet .text ([Call.fputs (.lit "<path")] : Sink α)
        (.name "htap".toList) := ⟨_, rfl, rfl⟩
    have h3 : Quiet (.attrs "htap".toList) ([Call.fputs (.lit " d=\"")] : Sink α)
        (.value "htap".toList) := ⟨_, rfl, rfl⟩
    have h5 : Quiet (.value "htap".toList) ([Call.fputs (.lit "\"/>\n")] : Sink α)
        .text := ⟨_, rfl, rfl⟩
    exact ((((h1.concat (grstyle_quiet _ job filled)).concat h3).concat
      (bzpt_quiet _ A n.toNat 0 'M')).concat h5).recast rfl
  | polyline job A n =>
    have h1 : Quiet .text ([Call.fputs (.lit "<polyline")] : Sink α)
        (.name "enilylop".toList) := ⟨_, rfl, rfl⟩
    have h3 : Quiet (.attrs "enilylop".toList) ([Call.fputs (.lit " points=\"")] : Sink α)
        (.value "enilylop".toList) := ⟨_, rfl, rfl⟩
    have h5 : Quiet (.value "enilylop".toList) ([Call.fputs (.lit "\"/>\n")] : Sink α)
        .text := ⟨_, rfl, rfl⟩
    exact ((((h1.concat (grstyle_quiet _ job 0)).concat h3).concat
      (points_quiet _ A n.toNat 0)).concat h5).recast rfl
  | comment job str => exact ⟨_, rfl, rfl⟩

end event_values
section bytes_claim

variable {α : Type} [CDouble α] [Consts α]

theorem run_quiet (es : List (Event α)) : Quiet .text (run_out es) .text := by
  induction es with
  | nil => exact quiet_nil _
  | cons e es ih => exact (event_quiet e).concat ih

/-- For every well-nested stream of events whose colors are known the
renderer returns; the tags of its program text are balanced, and when every
value it writes is free of `<`, `>` and `"` the bytes hold the same tags and
are balanced. -/
theorem well_nested_bytes_balanced (H : Host α) (es : List (Event α)) (hok : ∀ e ∈ es, e.ok)
    (hn : WellNested es) :
    ∃ out, Appends (run_events es) out ∧ Balanced out ∧
      ((∀ s ∈ written_values H out, markup_free s = true) →
        BytesBalanced H out ∧
        ∃ doc, render H out = some doc ∧ doc_tags doc = some (run_tags es)) := by
  have ht : tags (run_out es) = some (run_tags es) := tags_of_scans (run_scans es)
  have hnest : nest [] (run_tags es) = some [] := by
    simpa using nest_run_tags es [] [] hn
  refine ⟨_, appends_run_events es hok, ⟨run_tags es, ht, hnest⟩, ?_⟩
  intro hv
  obtain ⟨doc, hd, hdt⟩ := doc_tags_of_quiet H (run_out es) (run_tags es) (run_quiet es) ht hv
  exact ⟨⟨doc, run_tags es, hd, hdt, hnest⟩, doc, hd, hdt⟩

theorem textpara_strings (job : GVJ_t α) (p : pointf α) (para : textpara_t α) :
    escaped_strings (event_out (.textpara job p para)) = [para.str] ∧
    raw_strings (event_out (.textpara job p para))
      = raw_strings (font_out job para) ++ raw_strings (text_fill_out job) := by
  have hf : escaped_strings (font_out job para) = [] := by
    unfold font_out
    cases para.postscript_alias with
    | none => rfl
    | some pA =>
      obtain ⟨name, family, weight, stretch, style⟩ := pA
      cases weight <;> cases stretch <;> cases style <;> rfl
  have hc : escaped_strings (text_fill_out job) = [] := by
    unfold text_fill_out
    cases job.obj.pencolor with
    | COLOR_STRING s =>
      by_cases hb : strcasecmp s "black" = 0
      · simp only [hb, ne_eq, not_true_eq_false, if_false]
        rfl
      · simp only [hb, ne_eq, not_false_eq_true, if_true]
        rfl
    | RGBA_BYTE r g b a => rfl
    | other => rfl
  constructor
  · simp only [event_out, escaped_strings_append, hf, hc]
    split_ifs <;> rfl
  · simp only [event_out, raw_strings_append]
    split_ifs <;> simp [raw_strings, Call.raw, char_p.raw, Arg.raw]

set_option maxRecDepth 1000000 in
/-- C3 (code bug): the structure of the program text is balanced for every
well-nested stream, and so are the bytes whenever every written value is free
of `<`, `>` and `"`; but `svg_textpara` writes the font name of a text run as
it is, while it passes the text of the run through `xml_string`.  On the
well-nested stream document, graph, page, node, text run, and back, with the
font name `x"><g>` and the text `a<b`, the bytes hold
`style="font-family:x"><g>;font-size:14.00;">a&lt;b</text>`: the font name
ends the attribute and the start tag and opens an element `g` inside `text`,
the end tag `</text>` does not close the innermost open element, and the
output is not balanced.  With the font name `Times` the same stream is
balanced. -/
theorem textpara_fontname_unbalanced :
    ((∀ e ∈ text_scenario ex_para_markup, e.ok) ∧ WellNested (text_scenario ex_para_markup) ∧
      ∃ out doc, Appends (run_events (text_scenario ex_para_markup)) out ∧
        Balanced out ∧
        render host out = some doc ∧
        occurs_in "style=\"font-family:x\"><g>;font-size:14.00;\">a&lt;b</text>".toList
          doc.toList = true ∧
        doc_tags doc = some [Tag.start "svg", Tag.start "g", Tag.start "title",
          Tag.stop "title", Tag.start "g", Tag.start "title", Tag.stop "title",
          Tag.start "text", Tag.start "g", Tag.stop "text", Tag.stop "g", Tag.stop "g",
          Tag.stop "svg"] ∧
        nest [] [Tag.start "svg", Tag.start "g", Tag.start "title",
          Tag.stop "title", Tag.start "g", Tag.start "title", Tag.stop "title",
          Tag.start "text", Tag.start "g", Tag.stop "text", Tag.stop "g", Tag.stop "g",
          Tag.stop "svg"] = none ∧
        ¬ BytesBalanced host out) ∧
    (∃ out, Appends (run_events (text_scenario ex_para)) out ∧ BytesBalanced host out) ∧
    (∀ (job : GVJ_t α) (p : pointf α) (para : textpara_t α),
      job.obj.pencolor ≠ .other → para.postscript_alias = none →
      ∃ out, Appends (svg_textpara job p para) out ∧
        escaped_strings out = [para.str] ∧ para.fontname ∈ raw_strings out) ∧
    (∀ (H : Host α) (es : List (Event α)), (∀ e ∈ es, e.ok) → WellNested es →
      ∃ out, Appends (run_events es) out ∧ Balanced out ∧
        ((∀ s ∈ written_values H out, markup_free s = true) → BytesBalanced H out)) := by
  have hok : ∀ para : textpara_t idouble, ∀ e ∈ text_scenario para, e.ok := by
    intro para e he
    simp only [text_scenario, List.mem_cons, List.mem_singleton, List.not_mem_nil,
      or_false] at he
    have hc : ex_job.obj.pencolor ≠ gvcolor_t.other := by decide
    rcases he with rfl | rfl | rfl | rfl | rfl | rfl | rfl | rfl <;> trivial
  refine ⟨⟨hok _, rfl, ?_⟩, ?_, ?_, ?_⟩
  · obtain ⟨out, h1, h2, -⟩ := well_nested_bytes_balanced host (text_scenario ex_para_markup)
      (hok _) rfl
    have e := appends_unique h1 (appends_run_events (text_scenario ex_para_markup) (hok _))
    subst e
    have hd : render host (run_out (text_scenario ex_para_markup)) = some
        ("<?xml version=\"1.0\" encoding=\"UTF-8\" standalone=\"no\"?>\n"
        ++ "<!DOCTYPE svg PUBLIC \"-//W3C//DTD SVG 1.0//EN\"\n"
        ++ " \"http://www.w3.org/TR/2001/REC-SVG-20010904/DTD/svg10.dtd\" [\n"
        ++ " <!ATTLIST svg xmlns:xlink CDATA #FIXED \"http://www.w3.org/1999/xlink\">\n"
        ++ "]>\n"
        ++ "<!-- Generated by graphviz version 2.20 (2008)\n"
        ++ "     For user: user -->\n"
        ++ "<!-- Title: G Pages: 1 -->\n"
        ++ "<svg width=\"62pt\" height=\"44pt\"\n"
        ++ " viewBox=\"0.00 0.00 62.00 44.00\" xmlns=\"http://www.w3.org/2000/svg\""
        ++ " xmlns:xlink=\"http://www.w3.org/1999/xlink\">\n"
        ++ "<g id=\"graph0\" class=\"graph\""
        ++ " transform=\"scale(1 1) rotate(0) translate(4 -40)\">\n"
        ++ "<title>G</title>\n"
        ++ "<g id=\"node1\" class=\"node\"><title>a</title>\n"
        ++ "<text text-anchor=\"middle\" x=\"0\" y=\"-0\""
        ++ " style=\"font-family:x\"><g>;font-size:14.00;\">a&lt;b</text>\n"
        ++ "</g>\n"
        ++ "</g>\n"
        ++ "</svg>\n") := by decide
    refine ⟨_, _, h1, h2, hd, by decide, by decide, by decide, ?_⟩
    rintro ⟨doc, ts, h3, h4, h5⟩
    rw [hd] at h3
    rw [← Option.some.inj h3] at h4
    have h6 : doc_tags
        ("<?xml version=\"1.0\" encoding=\"UTF-8\" standalone=\"no\"?>\n"
        ++ "<!DOCTYPE svg PUBLIC \"-//W3C//DTD SVG 1.0//EN\"\n"
        ++ " \"http://www.w3.org/TR/2001/REC-SVG-20010904/DTD/svg10.dtd\" [\n"
        ++ " <!ATTLIST svg xmlns:xlink CDATA #FIXED \"http://www.w3.org/1999/xlink\">\n"
        ++ "]>\n"
        ++ "<!-- Generated by graphviz version 2.20 (2008)\n"
        ++ "     For user: user -->\n"
        ++ "<!-- Title: G Pages: 1 -->\n"
        ++ "<svg width=\"62pt\" height=\"44pt\"\n"
        ++ " viewBox=\"0.00 0.00 62.00 44.00\" xmlns=\"http://www.w3.org/2000/svg\""
        ++ " xmlns:xlink=\"http://www.w3.org/1999/xlink\">\n"
        ++ "<g id=\"graph0\" class=\"graph\""
        ++ " transform=\"scale(1 1) rotate(0) translate(4 -40)\">\n"
        ++ "<title>G</title>\n"
        ++ "<g id=\"node1\" class=\"node\"><title>a</title>\n"
        ++ "<text text-anchor=\"middle\" x=\"0\" y=\"-0\""
        ++ " style=\"font-family:x\"><g>;font-size:14.00;\">a&lt;b</text>\n"
        ++ "</g>\n"
        ++ "</g>\n"
        ++ "</svg>\n") = some [Tag.start "svg", Tag.start "g", Tag.start "title",
          Tag.stop "title", Tag.start "g", Tag.start "title", Tag.stop "title",
          Tag.start "text", Tag.start "g", Tag.stop "text", Tag.stop "g", Tag.stop "g",
          Tag.stop "svg"] := by decide
    rw [h6] at h4
    rw [← Option.some.inj h4] at h5
    exact absurd h5 (by decide)
  · obtain ⟨out, h1, -, h3⟩ := well_nested_bytes_balanced host (text_scenario ex_para)
      (hok _) rfl
    have e := appends_unique h1 (appends_run_events (text_scenario ex_para) (hok _))
    subst e
    exact ⟨_, h1, (h3 (by decide)).1⟩
  · intro job p para hc ha
    refine ⟨_, appends_event (.textpara job p para) hc, (textpara_strings job p para).1, ?_⟩
    rw [(textpara_strings job p para).2]
    simp [font_out, ha, raw_strings, Call.raw, Arg.raw, char_p.raw]
  · intro H es hok2 hn
    obtain ⟨out, h1, h2, h3⟩ := well_nested_bytes_balanced H es hok2 hn
    exact ⟨out, h1, h2, fun hv => (h3 hv).1⟩

/-- Witness of C3: the scenario with the ellipse writes only values that are
free of markup and its bytes are balanced; the text run of the failing stream
has its text escaped and its font name written as it is. -/
theorem textpara_fontname_unbalanced_witness :
    ((∀ e ∈ scenario, e.ok) ∧ WellNested scenario ∧
      ∃ out, Appends (run_events scenario) out ∧ Balanced out ∧
        (∀ s ∈ written_values host out, markup_free s = true) ∧ BytesBalanced host out) ∧
    (ex_job.obj.pencolor ≠ .other ∧ ex_para_markup.postscript_alias = none ∧
      ∃ out, Appends (svg_textpara ex_job { x := idouble.ofNat 0, y := idouble.ofNat 0 }
          ex_para_markup) out ∧
        escaped_strings out = ["a<b"] ∧ "x\"><g>" ∈ raw_strings out) := by
  have hc : ex_job.obj.pencolor ≠ gvcolor_t.other := by decide
  refine ⟨⟨scenario_ok, rfl, ?_⟩, hc, rfl, ?_⟩
  · obtain ⟨out, h1, h2, h3⟩ := textpara_fontname_unbalanced.2.2.2 host scenario scenario_ok rfl
    have e := appends_unique h1 (appends_run_events scenario scenario_ok)
    subst e
    have hv : ∀ s ∈ written_values host (run_out scenario), markup_free s = true := by decide
    exact ⟨_, h1, h2, hv, h3 hv⟩
  · exact textpara_fontname_unbalanced.2.2.1 ex_job { x := idouble.ofNat 0, y := idouble.ofNat 0 }
      ex_para_markup hc rfl

end bytes_claim

end Svg
